import Mathlib

/-!
# fast_tls: SNI directory and certificate-context cache

A shallow embedding of `c_src/fast_tls.c`.  Global variables of the C program
(`certfiles_map`, `certs_map`) are passed explicitly and returned when they
change; everything the program obtains from outside (the file system, the TLS
engine, the allocator) is read from an explicit record of outcomes.

Representation conventions:
* a byte is a natural number, a binary (`ErlNifBinary`) is a list of bytes;
* a `char *` is represented by the bytes that precede its terminating NUL,
  a nullable `char *` by an `Option`;
* `time_t` is an integer.
-/

namespace FastTls

/-- A sequence of bytes. -/
abbrev Bytes := List Nat

/-- The bytes of an ASCII string literal. -/
def bytes (s : String) : Bytes := s.toList.map Char.toNat

/-- The C string that results from copying a binary into a buffer and writing
a NUL after it (`memcpy(buf, bin.data, bin.size); buf[bin.size] = 0`): every
`str*` function sees the bytes up to the first NUL. -/
def c_str (bin : Bytes) : Bytes := bin.takeWhile (fun c => c != 0)

/-- The function `tolower` of `<ctype.h>` in the "C" locale: the letters `A`..`Z`
are mapped to `a`..`z`, every other byte is left alone. -/
def tolower (c : Nat) : Nat := if 65 ≤ c ∧ c ≤ 90 then c + 32 else c

/-- The compiled engine configuration `SSL_CTX`: `id` is the identity of the
allocated object, the other fields record what `create_new_ctx` installed. -/
structure SSL_CTX where
  id : Nat
  cert_file : Option Bytes
  ciphers : Bytes
  dh_file : Option Bytes
  ca_file : Option Bytes
deriving DecidableEq

/-- The struct `cert_info_t`, the element type of both hash tables. -/
structure cert_info_t where
  key : Bytes
  file : Option Bytes
  key_mtime : Int
  dh_mtime : Int
  ca_mtime : Int
  ssl_ctx : Option SSL_CTX
deriving DecidableEq

/-! ## The hash table (`uthash.h`)

The header `uthash.h` is not part of the sources.  A table is the list of its
items, most recently added first; keys are compared byte for byte over their
`strlen`.  The three macros below follow the specification's description of the
two tables: a mapping from a key to one item, in which an item is found by its
key, added, replaced under the same key, or removed. -/

/-- Modelled from the spec: the macro `HASH_FIND_STR(head, key, out)` of the
missing header `uthash.h`, the lookup of a mapping: the item stored under
`key`, if any. -/
def HASH_FIND_STR (head : List cert_info_t) (key : Bytes) : Option cert_info_t :=
  head.find? (fun e => e.key = key)

/-- Modelled from the spec: the macro `HASH_DEL(head, item)` of the missing
header `uthash.h`, the removal from a mapping, for the item that
`HASH_FIND_STR` returned for `key`: that item is unlinked. -/
def HASH_DEL (head : List cert_info_t) (key : Bytes) : List cert_info_t :=
  head.eraseP (fun e => e.key = key)

/-- Modelled from the spec: the macro `HASH_REPLACE_STR(head, key, add, replaced)`
of the missing header `uthash.h`, the replacement of any previous item under
the same key: the item found under the key of `add` is unlinked and handed
back as `replaced`, then `add` is linked. -/
def HASH_REPLACE_STR (head : List cert_info_t) (add : cert_info_t) :
    List cert_info_t × Option cert_info_t :=
  (add :: HASH_DEL head add.key, HASH_FIND_STR head add.key)

/-! ## The SNI directory -/

/-- The test `info && info->file`. -/
def has_file (info : Option cert_info_t) : Bool :=
  match info with
  | some i => i.file.isSome
  | none => false

/-- The function `lookup_certfile`: `domain` is a nullable C string. -/
def lookup_certfile (certfiles_map : List cert_info_t) (domain : Option Bytes) :
    Option cert_info_t :=
  match domain with
  | none => none
  | some domain =>
    if domain.length = 0 then none
    else
      let name := domain.map tolower
      let info := HASH_FIND_STR certfiles_map name
      if has_file info then info
      else
        -- dot = strchr(name, '.'); if (dot != NULL && name[0] != '.')
        if 46 ∈ name ∧ name.head? ≠ some 46 then
          -- glob = dot - 1; glob[0] = '*'
          let glob := 42 :: name.dropWhile (fun c => c != 46)
          let info := HASH_FIND_STR certfiles_map glob
          if has_file info then info else none
        else none

/-- The function `add_certfile_nif` (`add_mapping`); the three booleans say
whether the allocations of the item, of its key and of its file succeeded.
The returned list is the new `certfiles_map`; the NIF answers `ok` always. -/
def add_certfile_nif (info_ok key_ok file_ok : Bool) (certfiles_map : List cert_info_t)
    (domain file : Bytes) : List cert_info_t :=
  if info_ok then
    if key_ok ∧ file_ok then
      let info : cert_info_t :=
        { key := c_str domain, file := some (c_str file),
          key_mtime := 0, dh_mtime := 0, ca_mtime := 0, ssl_ctx := none }
      (HASH_REPLACE_STR certfiles_map info).1
    else certfiles_map
  else certfiles_map

/-- The function `delete_certfile_nif` (`remove_mapping`): the answer
(`true` or `false`) and the new `certfiles_map`. -/
def delete_certfile_nif (certfiles_map : List cert_info_t) (domain : Bytes) :
    Bool × List cert_info_t :=
  let key := c_str domain
  match HASH_FIND_STR certfiles_map key with
  | some _ => (true, HASH_DEL certfiles_map key)
  | none => (false, certfiles_map)

/-- The function `get_certfile_nif` (`lookup_mapping`): `some file` stands for
the answer `{ok, File}` and `none` for the answer `error`; `binary_ok` says
whether `enif_make_new_binary` succeeded. -/
def get_certfile_nif (binary_ok : Bool) (certfiles_map : List cert_info_t)
    (domain : Bytes) : Option Bytes :=
  let key := c_str domain
  match lookup_certfile certfiles_map (some key) with
  | some info =>
    match info.file with
    | some file => if binary_ok then some file else none
    | none => none
  | none => none

/-- One administrative call on the SNI directory. -/
inductive sni_call where
  | add (info_ok key_ok file_ok : Bool) (domain file : Bytes)
  | del (domain : Bytes)

/-- The directory after one administrative call. -/
def sni_call.run (certfiles_map : List cert_info_t) : sni_call → List cert_info_t
  | .add i k f domain file => add_certfile_nif i k f certfiles_map domain file
  | .del domain => (delete_certfile_nif certfiles_map domain).2

/-- The directory built by a sequence of administrative calls, the first call
first, from the empty table the program starts with. -/
def built_by (calls : List sni_call) : List cert_info_t :=
  calls.foldl sni_call.run []

/-! ## The certificate-context cache -/

/-- Everything one call obtains from outside the program: the file system
(`stat`), the TLS engine and the allocator.  For a call of the engine that
returns a status, `true` says that the status was positive (success). -/
structure Env where
  -- `stat(file, &file_stat)`: the modification time, `none` when `stat` fails
  stat : Bytes → Option Int
  -- the identity of the new object, `none` for `NULL`
  SSL_CTX_new : Option Nat
  SSL_CTX_use_certificate_chain_file : Bytes → Bool
  SSL_CTX_use_PrivateKey_file : Bytes → Bool
  SSL_CTX_check_private_key : Bytes → Bool
  SSL_CTX_set_cipher_list : Bytes → Bool
  BIO_new_file : Bytes → Bool
  PEM_read_bio_DHparams : Bytes → Bool
  DH_new : Bool
  BN_bin2bn_p : Bool
  BN_bin2bn_g : Bool
  SSL_CTX_set_tmp_dh : Bool
  SSL_CTX_load_verify_locations : Bytes → Bool
  -- `enif_alloc(sizeof(cert_info_t))` in `create_ssl_for_cert`
  alloc_info : Bool
  -- `enif_alloc(key_size)` in `create_ssl_for_cert`
  alloc_key : Bool
  -- `SSL_new` returned an object
  SSL_new : Bool

/-- The engine handle `SSL`: the configuration it is bound to. -/
structure SSL where
  ctx : SSL_CTX
deriving DecidableEq

/-- The struct `state_t` (without its mutex).  A pending buffer is `none` when
its pointer is `NULL`; `cert_file` is never `NULL` in a session that
`open_nif` returned. -/
structure state_t where
  bio_read : Bytes
  bio_write : Bytes
  ssl : Option SSL
  handshakes : Int
  valid : Bool
  send_buffer : Option Bytes
  send_buffer_size : Nat
  send_buffer_len : Nat
  send_buffer2 : Option Bytes
  send_buffer2_size : Nat
  send_buffer2_len : Nat
  cert_file : Bytes
  ciphers : Bytes
  dh_file : Bytes
  ca_file : Bytes
  options : Nat
  sni_error : Option String
deriving DecidableEq

/-- The macro `CIPHERS`. -/
def CIPHERS : Bytes := bytes "DEFAULT:!EXPORT:!LOW:!RC4:!SSLv2"

/-- The function `is_modified`: the answer and the new value of `*known_mtime`. -/
def is_modified (env : Env) (file : Option Bytes) (known_mtime : Int) : Bool × Int :=
  match file with
  | none => (false, known_mtime)
  | some file =>
    match env.stat file with
    | none => (true, 0)
    | some st_mtime =>
      if known_mtime ≠ st_mtime then (true, st_mtime) else (false, known_mtime)

/-- The function `setup_dh`: `true` when its result is positive. -/
def setup_dh (env : Env) (dh_file : Option Bytes) : Bool :=
  match dh_file with
  | some dh_file =>
    if ¬ env.BIO_new_file dh_file then false
    else if ¬ env.PEM_read_bio_DHparams dh_file then false
    else env.SSL_CTX_set_tmp_dh
  | none =>
    if ¬ env.DH_new then false
    else if ¬ env.BN_bin2bn_p ∨ ¬ env.BN_bin2bn_g then false
    else env.SSL_CTX_set_tmp_dh

/-- The function `create_new_ctx`: the new context, or the text written to
`*err_str` when the function returns `NULL`.  The results of
`SSL_CTX_set_cipher_list` and of `SSL_CTX_load_verify_locations` are not
looked at by the program. -/
def create_new_ctx (env : Env) (cert_file : Option Bytes) (ciphers : Bytes)
    (dh_file ca_file : Option Bytes) : Except String SSL_CTX :=
  match env.SSL_CTX_new with
  | none => .error "SSL_CTX_new failed"
  | some id =>
    let cert_error : Option String :=
      match cert_file with
      | some cert_file =>
        if ¬ env.SSL_CTX_use_certificate_chain_file cert_file then
          some "SSL_CTX_use_certificate_file failed"
        else if ¬ env.SSL_CTX_use_PrivateKey_file cert_file then
          some "SSL_CTX_use_PrivateKey_file failed"
        else if ¬ env.SSL_CTX_check_private_key cert_file then
          some "SSL_CTX_check_private_key failed"
        else none
      | none => none
    match cert_error with
    | some e => .error e
    | none =>
      let installed := if ciphers.head? = none then CIPHERS else ciphers
      let _ignored := env.SSL_CTX_set_cipher_list installed
      if ¬ setup_dh env dh_file then .error "Setting DH parameters failed"
      else
        let _ignored := ca_file.map env.SSL_CTX_load_verify_locations
        .ok { id := id, cert_file := cert_file, ciphers := installed,
              dh_file := dh_file, ca_file := ca_file }

/-- The function `set_ctx`. -/
def set_ctx (env : Env) (state : state_t) (ctx : SSL_CTX) : state_t :=
  match state.ssl with
  | some ssl => { state with ssl := some { ssl with ctx := ctx } }
  | none => { state with ssl := if env.SSL_new then some { ctx := ctx } else none }

/-- One hexadecimal digit in lower case. -/
def hex_digit (d : Nat) : Nat := if d < 10 then 48 + d else 87 + d

/-- The hexadecimal digits of `n`, least significant first, at most `fuel` of
them; none for `0`. -/
def lx_digits : Nat → Nat → List Nat
  | 0, _ => []
  | fuel + 1, n => if n = 0 then [] else (n % 16) :: lx_digits fuel (n / 16)

/-- The conversion `%08lx` of `sprintf` applied to a `long` (64 bits): lower-case
hexadecimal, padded with zeros on the left to at least eight characters. -/
def fmt_08lx (n : Nat) : Bytes :=
  let digits := ((lx_digits 16 (n % 2 ^ 64)).reverse).map hex_digit
  List.replicate (8 - digits.length) 48 ++ digits

/-- The value of a hexadecimal digit character. -/
def unhex (c : Nat) : Nat := if c < 58 then c - 48 else c - 87

/-- The number that a string of hexadecimal digits denotes. -/
def hex_value (s : Bytes) : Nat := s.foldl (fun acc c => acc * 16 + unhex c) 0

/-- The key `sprintf(key, "%s%s%08lx%s%s", cert_file, ciphers, options, dh_file, ca_file)`. -/
def cache_key (cert_file ciphers : Bytes) (options : Nat) (dh_file ca_file : Bytes) : Bytes :=
  cert_file ++ ciphers ++ fmt_08lx options ++ dh_file ++ ca_file

/-- The assignment `if (strlen(file) == 0) file = NULL`. -/
def null_if_empty (file : Bytes) : Option Bytes :=
  if file.length = 0 then none else some file

/-- What a call of `create_ssl_for_cert` leaves behind: the returned error
text (`none` for `NULL`), the session, the table `certs_map`, and whether
`create_new_ctx` was called. -/
structure resolved where
  ret : Option String
  state : state_t
  certs_map : List cert_info_t
  compiled : Bool
deriving DecidableEq

/-- The three calls of `is_modified` joined by `||` in `create_ssl_for_cert`,
evaluated left to right until one answers yes: the answer of the disjunction
and the three local modification times afterwards. -/
def any_modified (env : Env) (cert_file dh_file ca_file : Option Bytes)
    (key_mtime dh_mtime ca_mtime : Int) : Bool × Int × Int × Int :=
  let (m1, key_mtime) := is_modified env cert_file key_mtime
  if m1 then (true, key_mtime, dh_mtime, ca_mtime)
  else
    let (m2, dh_mtime) := is_modified env dh_file dh_mtime
    if m2 then (true, key_mtime, dh_mtime, ca_mtime)
    else
      let (m3, ca_mtime) := is_modified env ca_file ca_mtime
      (m3, key_mtime, dh_mtime, ca_mtime)

/-- The function `create_ssl_for_cert` (`resolve`). -/
def create_ssl_for_cert (env : Env) (certs_map : List cert_info_t) (cert_file : Bytes)
    (state : state_t) : resolved :=
  let ciphers := state.ciphers
  let dh_file := state.dh_file
  let ca_file := state.ca_file
  let key := cache_key cert_file ciphers state.options dh_file ca_file
  let info := HASH_FIND_STR certs_map key
  let key_mtime := match info with | some i => i.key_mtime | none => 0
  let dh_mtime := match info with | some i => i.dh_mtime | none => 0
  let ca_mtime := match info with | some i => i.ca_mtime | none => 0
  let cert_file := null_if_empty cert_file
  let dh_file := null_if_empty dh_file
  let ca_file := null_if_empty ca_file
  let (modified, key_mtime, dh_mtime, ca_mtime) :=
    any_modified env cert_file dh_file ca_file key_mtime dh_mtime ca_mtime
  match modified, info with
  | false, some info =>
    -- every item of `certs_map` carries a context; without one the session is left alone
    { ret := none,
      state := match info.ssl_ctx with
        | some ctx => set_ctx env state ctx
        | none => state,
      certs_map := certs_map, compiled := false }
  | _, _ =>
    match create_new_ctx env cert_file ciphers dh_file ca_file with
    | .error e => { ret := some e, state := state, certs_map := certs_map, compiled := true }
    | .ok ctx =>
      if env.alloc_info then
        if env.alloc_key then
          let new_info : cert_info_t :=
            { key := key, file := none, key_mtime := key_mtime, dh_mtime := dh_mtime,
              ca_mtime := ca_mtime, ssl_ctx := some ctx }
          { ret := none, state := set_ctx env state ctx,
            certs_map := (HASH_REPLACE_STR certs_map new_info).1, compiled := true }
        else
          { ret := some "Memory allocation failed", state := state, certs_map := certs_map,
            compiled := true }
      else
        { ret := some "Memory allocation failed", state := state, certs_map := certs_map,
          compiled := true }

/-- The constant `SSL_TLSEXT_ERR_OK` of the engine's headers. -/
def SSL_TLSEXT_ERR_OK : Nat := 0

/-- The constant `SSL_TLSEXT_ERR_ALERT_FATAL` of the engine's headers. -/
def SSL_TLSEXT_ERR_ALERT_FATAL : Nat := 2

/-- What a call of `ssl_sni_callback` leaves behind: the returned code, the
session, the table `certs_map`, and the file for which the call invoked
`create_ssl_for_cert` (`none` when it did not invoke it). -/
structure sni_outcome where
  ret : Nat
  state : state_t
  certs_map : List cert_info_t
  resolved_for : Option Bytes
deriving DecidableEq

/-- The function `ssl_sni_callback`; `servername` is the result of
`SSL_get_servername`, `none` when the peer sent no hostname. -/
def ssl_sni_callback (env : Env) (certfiles_map certs_map : List cert_info_t)
    (servername : Option Bytes) (state : state_t) : sni_outcome :=
  match lookup_certfile certfiles_map servername with
  | some info =>
    match info.file with
    | some file =>
      if file ≠ state.cert_file then
        let r := create_ssl_for_cert env certs_map file state
        match r.ret with
        | some err_str =>
          { ret := SSL_TLSEXT_ERR_ALERT_FATAL,
            state := { r.state with sni_error := some err_str }, certs_map := r.certs_map,
            resolved_for := some file }
        | none =>
          { ret := SSL_TLSEXT_ERR_OK, state := r.state, certs_map := r.certs_map,
            resolved_for := some file }
      else
        { ret := SSL_TLSEXT_ERR_OK, state := state, certs_map := certs_map,
          resolved_for := none }
    -- `lookup_certfile` returns no item whose file is `NULL`
    | none =>
      { ret := SSL_TLSEXT_ERR_OK, state := state, certs_map := certs_map, resolved_for := none }
  | none =>
    if state.cert_file.length = 0 then
      { ret := SSL_TLSEXT_ERR_ALERT_FATAL,
        state := { state with
          sni_error := some "Failed to find a certificate matching the domain in SNI extension" },
        certs_map := certs_map, resolved_for := none }
    else
      { ret := SSL_TLSEXT_ERR_OK, state := state, certs_map := certs_map, resolved_for := none }

/-! ## Concrete sessions and environments used in the examples -/

/-- The session that `init_tls_state` returns: all fields zero, `valid = 1`. -/
def init_tls_state : state_t :=
  { bio_read := [], bio_write := [], ssl := none, handshakes := 0, valid := true,
    send_buffer := none, send_buffer_size := 0, send_buffer_len := 0,
    send_buffer2 := none, send_buffer2_size := 0, send_buffer2_len := 0,
    cert_file := [], ciphers := [], dh_file := [], ca_file := [], options := 0,
    sni_error := none }

/-- The session as `open_nif` fills it in before it calls `create_ssl_for_cert`. -/
def session_for (cert_file ciphers : Bytes) (options : Nat) (dh_file ca_file : Bytes) : state_t :=
  { init_tls_state with
    cert_file := cert_file, ciphers := ciphers, dh_file := dh_file, ca_file := ca_file,
    options := options }

/-- An environment in which every engine call and every allocation succeeds;
`stat` is given and `SSL_CTX_new` returns the object `id`. -/
def env_good (stat : Bytes → Option Int) (id : Nat) : Env :=
  { stat := stat, SSL_CTX_new := some id,
    SSL_CTX_use_certificate_chain_file := fun _ => true,
    SSL_CTX_use_PrivateKey_file := fun _ => true,
    SSL_CTX_check_private_key := fun _ => true,
    SSL_CTX_set_cipher_list := fun _ => true,
    BIO_new_file := fun _ => true, PEM_read_bio_DHparams := fun _ => true,
    DH_new := true, BN_bin2bn_p := true, BN_bin2bn_g := true, SSL_CTX_set_tmp_dh := true,
    SSL_CTX_load_verify_locations := fun _ => true,
    alloc_info := true, alloc_key := true, SSL_new := true }

/-- A file system with the certificate `cert.pem` (modification time 100) and
the Diffie-Hellman parameters `dh.pem` (modification time 200). -/
def stat_cert_dh (file : Bytes) : Option Int :=
  if file = bytes "cert.pem" then some 100
  else if file = bytes "dh.pem" then some 200
  else none

/-- A file system with two certificate files, `a` and `ab`, both with
modification time 100. -/
def stat_a_ab (file : Bytes) : Option Int :=
  if file = bytes "a" then some 100
  else if file = bytes "ab" then some 100
  else none

/-- An environment like `env_good` in which the engine rejects every cipher
list. -/
def env_bad_ciphers (stat : Bytes → Option Int) (id : Nat) : Env :=
  { env_good stat id with SSL_CTX_set_cipher_list := fun _ => false }

/-- The file system of `stat_cert_dh` after `cert.pem` was touched: its
modification time is now 101. -/
def stat_touched (file : Bytes) : Option Int :=
  if file = bytes "cert.pem" then some 101
  else if file = bytes "dh.pem" then some 200
  else none

/-- An environment like `env_good` in which the private key does not match
the certificate chain. -/
def env_key_mismatch (stat : Bytes → Option Int) (id : Nat) : Env :=
  { env_good stat id with SSL_CTX_check_private_key := fun _ => false }

/-- The texts that `create_ssl_for_cert` can return. -/
def resolve_errors : List String :=
  ["SSL_CTX_new failed", "SSL_CTX_use_certificate_file failed",
   "SSL_CTX_use_PrivateKey_file failed", "SSL_CTX_check_private_key failed",
   "Setting DH parameters failed", "Memory allocation failed"]

/-- The first resolve of `("cert.pem", "", "dh.pem", "", 0)`, on the empty cache. -/
def first_resolve : resolved :=
  create_ssl_for_cert (env_good stat_cert_dh 1) [] (bytes "cert.pem")
    (session_for (bytes "cert.pem") [] 0 (bytes "dh.pem") [])

/-- The second resolve of the same tuple, for a second session, on the cache
that the first resolve left; no file has changed. -/
def second_resolve : resolved :=
  create_ssl_for_cert (env_good stat_cert_dh 2) first_resolve.certs_map (bytes "cert.pem")
    (session_for (bytes "cert.pem") [] 0 (bytes "dh.pem") [])

/-- A resolve of the configuration `("a", "b", 0, "", "")` on the empty cache. -/
def resolve_a_b : resolved :=
  create_ssl_for_cert (env_good stat_a_ab 1) [] (bytes "a")
    (session_for (bytes "a") (bytes "b") 0 [] [])

/-- A following resolve of the configuration `("ab", "", 0, "", "")`. -/
def resolve_ab : resolved :=
  create_ssl_for_cert (env_good stat_a_ab 2) resolve_a_b.certs_map (bytes "ab")
    (session_for (bytes "ab") [] 0 [] [])

/-- A resolve with a cipher list that the engine rejects, on the empty cache. -/
def resolve_bad_ciphers : resolved :=
  create_ssl_for_cert (env_bad_ciphers stat_cert_dh 1) [] (bytes "cert.pem")
    (session_for (bytes "cert.pem") (bytes "NO-SUCH-CIPHER") 0 [] [])

/-! ## The session operations

The engine is not part of the program.  What it does during one call of a NIF
is given by a script: for each call into the engine its result, the callbacks
it makes while it runs, and what it moves through the two memory buffers. -/

/-- The macro `BUF_SIZE`. -/
def BUF_SIZE : Nat := 1024

/-- The constant `SSL_CB_HANDSHAKE_START` of the engine's headers. -/
def SSL_CB_HANDSHAKE_START : Nat := 0x10

/-- The constant `SSL_CB_HANDSHAKE_DONE` of the engine's headers. -/
def SSL_CB_HANDSHAKE_DONE : Nat := 0x20

/-- The constant `SSL_R_DATA_LENGTH_TOO_LONG` of the engine's headers. -/
def SSL_R_DATA_LENGTH_TOO_LONG : Nat := 146

/-- The constant `SSL_R_PACKET_LENGTH_TOO_LONG` of the engine's headers. -/
def SSL_R_PACKET_LENGTH_TOO_LONG : Nat := 198

/-- The constant `SSL_R_UNKNOWN_PROTOCOL` of the engine's headers. -/
def SSL_R_UNKNOWN_PROTOCOL : Nat := 252

/-- The constant `SSL_R_UNEXPECTED_MESSAGE` of the engine's headers. -/
def SSL_R_UNEXPECTED_MESSAGE : Nat := 244

/-- The constant `SSL_R_WRONG_VERSION_NUMBER` of the engine's headers. -/
def SSL_R_WRONG_VERSION_NUMBER : Nat := 267

/-- The five reasons for which `get_decrypted_input_nif` does not report a
failed handshake. -/
def malformed_reasons : List Nat :=
  [SSL_R_DATA_LENGTH_TOO_LONG, SSL_R_PACKET_LENGTH_TOO_LONG, SSL_R_UNKNOWN_PROTOCOL,
   SSL_R_UNEXPECTED_MESSAGE, SSL_R_WRONG_VERSION_NUMBER]

/-- The function `ssl_info_callback`; `mask` is its argument `where`. -/
def ssl_info_callback (d : state_t) (mask : Nat) : state_t :=
  if mask &&& SSL_CB_HANDSHAKE_START ≠ 0 ∧ d.handshakes ≠ 0 then
    { d with handshakes := d.handshakes + 1 }
  else if mask &&& SSL_CB_HANDSHAKE_DONE ≠ 0 ∧ d.handshakes = 0 then
    { d with handshakes := d.handshakes + 1 }
  else d

/-- A callback that the engine makes while it runs: the info callback with its
argument `where`, or the hostname callback with the hostname the peer sent and
the environment the callback finds. -/
inductive engine_event where
  | info (mask : Nat)
  | servername (env : Env) (name : Option Bytes)

/-- The effect of one callback on the session and on `certs_map`. -/
def engine_event.run (certfiles_map : List cert_info_t) (w : state_t × List cert_info_t) :
    engine_event → state_t × List cert_info_t
  | .info mask => (ssl_info_callback w.1 mask, w.2)
  | .servername env name =>
    let r := ssl_sni_callback env certfiles_map w.2 name w.1
    (r.state, r.certs_map)

/-- One call into the engine: the callbacks it makes, in order, the number of
bytes it takes from the inbound buffer, the bytes it appends to the outbound
buffer, and its result. -/
structure engine_call (α : Type) where
  events : List engine_event
  consumed : Nat
  produced : Bytes
  result : α

/-- The effect of one call into the engine on the session and on `certs_map`. -/
def engine_call.run {α : Type} (certfiles_map : List cert_info_t)
    (w : state_t × List cert_info_t) (c : engine_call α) : state_t × List cert_info_t :=
  let w1 := c.events.foldl (engine_event.run certfiles_map) w
  ({ w1.1 with bio_read := w1.1.bio_read.drop c.consumed,
               bio_write := w1.1.bio_write ++ c.produced }, w1.2)

/-- The result of `SSL_do_handshake`: positive; not positive with
`SSL_get_error` equal to `SSL_ERROR_WANT_READ`; or not positive otherwise, with
the reason `ERR_GET_REASON(ERR_peek_error())`. -/
inductive handshake_result where
  | done
  | want_read
  | failed (reason : Nat)
deriving DecidableEq

/-- The result of `SSL_write`: positive; not positive with `SSL_get_error` equal
to `SSL_ERROR_WANT_READ` or `SSL_ERROR_WANT_WRITE`; or not positive otherwise. -/
inductive write_result where
  | written
  | want
  | failed
deriving DecidableEq

/-- What the engine does during one call of a NIF.  A read whose chunk is empty
stands for a call of `SSL_read` with a result that is not positive, and so does
a read past the end of `reads`; a chunk longer than the requested count is cut
to the count. -/
structure engine_script where
  -- `SSL_is_init_finished` at the first test of `get_decrypted_input_nif`
  init_finished : Bool
  handshake : engine_call handshake_result
  -- `SSL_is_init_finished` at the second test, after a call of `SSL_do_handshake`
  init_finished_after : Bool
  write1 : engine_call write_result
  write2 : engine_call write_result
  reads : List (engine_call Bytes)
  -- `ERR_error_string(ERR_get_error())`, `none` when `ERR_get_error()` is zero
  error_string : Option String
  verify_result : Int
  -- `SSL_get_peer_certificate` and `i2d_X509`: no certificate, a negative length, or the encoding
  peer_certificate : Option (Option Bytes)
  -- `enif_alloc_binary` succeeded
  alloc_binary : Bool

/-- A call into the engine: `SSL_read` is listed with the capacity of the
output buffer at the call, the offset at which it writes, the requested count,
and the bytes it delivered (none when its result is not positive). -/
inductive engine_op where
  | SSL_do_handshake
  | SSL_write (buf : Bytes)
  | SSL_read (size rlen num : Nat) (delivered : Bytes)
  | SSL_get_verify_result
  | SSL_get_peer_certificate
deriving DecidableEq

/-- The terms that the session NIFs return. -/
inductive nif_term where
  | badarg
  | atom (name : String)
  | ok_binary (data : Bytes)
  | ok_long (value : Int)
  | send_binary (data : Bytes)
  | error_atom (name : String)
  | error_binary (message : String)
  | error_string (message : String)
deriving DecidableEq

/-- What a call of a session NIF leaves behind: the returned term, the session,
the table `certs_map`, and the calls into the engine that it made, in order. -/
structure nif_result where
  term : nif_term
  state : state_t
  certs_map : List cert_info_t
  engine_ops : List engine_op
deriving DecidableEq

/-- The function `ssl_error`: the term `{error, Binary}` whose binary is
`errstr`, followed by `": "` and the engine's error string when the engine has
an error queued. -/
def ssl_error (script : engine_script) (errstr : String) : nif_term :=
  match script.error_string with
  | some error_string => .error_binary (errstr ++ ": " ++ error_string)
  | none => .error_binary errstr

/-- The function `set_encrypted_input_nif` (`feed_ciphertext`). -/
def set_encrypted_input_nif (certs_map : List cert_info_t) (state : state_t) (input : Bytes) :
    nif_result :=
  match state.ssl with
  | none => { term := .badarg, state := state, certs_map := certs_map, engine_ops := [] }
  | some _ =>
    if ¬ state.valid then
      { term := .error_atom "closed", state := state, certs_map := certs_map, engine_ops := [] }
    else
      { term := .atom "ok", state := { state with bio_read := state.bio_read ++ input },
        certs_map := certs_map, engine_ops := [] }

/-- The loop `while (size < len + input.size) size *= 2` of
`set_decrypted_output_nif`, run for at most `fuel` rounds. -/
def grow_size : Nat → Nat → Nat → Nat
  | 0, size, _ => size
  | fuel + 1, size, needed => if size < needed then grow_size fuel (size * 2) needed else size

/-- The function `set_decrypted_output_nif` (`submit_plaintext`); the only call
of `SSL_write` that it can make is `script.write1`.  A pending buffer is shown by
its bytes; the first `send_buffer2_len` of them are the data in it. -/
def set_decrypted_output_nif (certfiles_map : List cert_info_t) (script : engine_script)
    (certs_map : List cert_info_t) (state : state_t) (input : Bytes) : nif_result :=
  match state.ssl with
  | none => { term := .badarg, state := state, certs_map := certs_map, engine_ops := [] }
  | some _ =>
    if ¬ state.valid then
      { term := .error_atom "closed", state := state, certs_map := certs_map, engine_ops := [] }
    else if input.length > 0 then
      match state.send_buffer with
      | some _ =>
        match state.send_buffer2 with
        | none =>
          { term := .atom "ok",
            state := { state with send_buffer2 := some input,
                                  send_buffer2_len := input.length,
                                  send_buffer2_size := input.length },
            certs_map := certs_map, engine_ops := [] }
        | some buffer2 =>
          let needed := state.send_buffer2_len + input.length
          { term := .atom "ok",
            state := { state with
              send_buffer2 := some (buffer2.take state.send_buffer2_len ++ input),
              send_buffer2_size := grow_size needed state.send_buffer2_size needed,
              send_buffer2_len := needed },
            certs_map := certs_map, engine_ops := [] }
      | none =>
        let w := script.write1.run certfiles_map (state, certs_map)
        match script.write1.result with
        | .written =>
          { term := .atom "ok", state := w.1, certs_map := w.2, engine_ops := [.SSL_write input] }
        | .want =>
          { term := .atom "ok",
            state := { w.1 with send_buffer := some input, send_buffer_len := input.length,
                                send_buffer_size := input.length },
            certs_map := w.2, engine_ops := [.SSL_write input] }
        | .failed =>
          { term := ssl_error script "SSL_write failed", state := w.1, certs_map := w.2,
            engine_ops := [.SSL_write input] }
    else { term := .atom "ok", state := state, certs_map := certs_map, engine_ops := [] }

/-- The function `get_encrypted_output_nif` (`drain_ciphertext`). -/
def get_encrypted_output_nif (script : engine_script) (certs_map : List cert_info_t)
    (state : state_t) : nif_result :=
  match state.ssl with
  | none => { term := .badarg, state := state, certs_map := certs_map, engine_ops := [] }
  | some _ =>
    if ¬ state.valid then
      { term := .error_atom "closed", state := state, certs_map := certs_map, engine_ops := [] }
    else if ¬ script.alloc_binary then
      { term := .error_atom "enomem", state := state, certs_map := certs_map, engine_ops := [] }
    else
      { term := .ok_binary state.bio_write, state := { state with bio_write := [] },
        certs_map := certs_map, engine_ops := [] }

/-- The function `get_verify_result_nif` (`verify_result`). -/
def get_verify_result_nif (script : engine_script) (certs_map : List cert_info_t)
    (state : state_t) : nif_result :=
  match state.ssl with
  | none => { term := .badarg, state := state, certs_map := certs_map, engine_ops := [] }
  | some _ =>
    if ¬ state.valid then
      { term := .error_atom "closed", state := state, certs_map := certs_map, engine_ops := [] }
    else
      { term := .ok_long script.verify_result, state := state, certs_map := certs_map,
        engine_ops := [.SSL_get_verify_result] }

/-- The function `get_peer_certificate_nif` (`peer_certificate`). -/
def get_peer_certificate_nif (script : engine_script) (certs_map : List cert_info_t)
    (state : state_t) : nif_result :=
  match state.ssl with
  | none => { term := .badarg, state := state, certs_map := certs_map, engine_ops := [] }
  | some _ =>
    if ¬ state.valid then
      { term := .error_atom "closed", state := state, certs_map := certs_map, engine_ops := [] }
    else
      match script.peer_certificate with
      | none =>
        { term := ssl_error script "SSL_get_peer_certificate failed", state := state,
          certs_map := certs_map, engine_ops := [.SSL_get_peer_certificate] }
      | some (some der) =>
        if ¬ script.alloc_binary then
          { term := .error_atom "enomem", state := state, certs_map := certs_map,
            engine_ops := [.SSL_get_peer_certificate] }
        else
          { term := .ok_binary der, state := state, certs_map := certs_map,
            engine_ops := [.SSL_get_peer_certificate] }
      | some none =>
        { term := .error_atom "notfound", state := state, certs_map := certs_map,
          engine_ops := [.SSL_get_peer_certificate] }

/-- The function `invalidate_nif` (`invalidate`). -/
def invalidate_nif (certs_map : List cert_info_t) (state : state_t) : nif_result :=
  match state.ssl with
  | none => { term := .badarg, state := state, certs_map := certs_map, engine_ops := [] }
  | some _ =>
    { term := .atom "ok", state := { state with valid := false }, certs_map := certs_map,
      engine_ops := [] }

/-- The requested count of a call of `SSL_read` in `get_decrypted_input_nif`:
`(req_size == 0 || req_size >= size) ? size - rlen : req_size - rlen`. -/
def read_count (req_size size rlen : Nat) : Nat :=
  if req_size = 0 ∨ req_size ≥ size then size - rlen else req_size - rlen

/-- The variables of the read loop of `get_decrypted_input_nif`: the output
binary (`size` bytes, of which the first `rlen` are read data), the session and
`certs_map`, and the calls into the engine made so far. -/
structure read_loop_t where
  output : Bytes
  size : Nat
  rlen : Nat
  world : state_t × List cert_info_t
  engine_ops : List engine_op

/-- The read loop of `get_decrypted_input_nif`, one round for each scripted
read.  Bytes of the binary that the program has not written are shown as `0`. -/
def read_loop (certfiles_map : List cert_info_t) (req_size : Nat) :
    List (engine_call Bytes) → read_loop_t → read_loop_t
  | [], l =>
    if req_size = 0 ∨ l.rlen < req_size then
      { l with engine_ops :=
          l.engine_ops ++ [.SSL_read l.size l.rlen (read_count req_size l.size l.rlen) []] }
    else l
  | c :: rest, l =>
    if req_size = 0 ∨ l.rlen < req_size then
      let num := read_count req_size l.size l.rlen
      let chunk := c.result.take num
      let world := c.run certfiles_map l.world
      let ops := l.engine_ops ++ [.SSL_read l.size l.rlen num chunk]
      if chunk.length > 0 then
        let output := l.output.take l.rlen ++ chunk ++ l.output.drop (l.rlen + chunk.length)
        let rlen := l.rlen + chunk.length
        if l.size - rlen < BUF_SIZE then
          read_loop certfiles_map req_size rest
            { output := output ++ List.replicate l.size 0, size := l.size * 2, rlen := rlen,
              world := world, engine_ops := ops }
        else
          read_loop certfiles_map req_size rest
            { output := output, size := l.size, rlen := rlen, world := world,
              engine_ops := ops }
      else { l with world := world, engine_ops := ops }
    else l

/-- The six assignments of `get_decrypted_input_nif` after a pending write went
through: the overflow buffer becomes the primary buffer. -/
def promote_send_buffer2 (state : state_t) : state_t :=
  { state with
    send_buffer := state.send_buffer2,
    send_buffer_len := state.send_buffer2_len,
    send_buffer_size := state.send_buffer2_size,
    send_buffer2 := none, send_buffer2_len := 0, send_buffer2_size := 0 }

/-- The loop `for (i = 0; i < 2; i++)` of `get_decrypted_input_nif` that writes
the pending buffers: either the result with which the function returns at
once, or `retcode`, the session with `certs_map`, and the calls into the
engine after it. -/
def flush_send_buffer (certfiles_map : List cert_info_t) (script : engine_script)
    (retcode : Nat) (w : state_t × List cert_info_t) (ops : List engine_op) :
    Except nif_result (Nat × (state_t × List cert_info_t) × List engine_op) :=
  match w.1.send_buffer with
  | none => .ok (retcode, w, ops)
  | some buffer =>
    let ops1 := ops ++ [.SSL_write (buffer.take w.1.send_buffer_len)]
    let w1 := script.write1.run certfiles_map w
    match script.write1.result with
    | .written =>
      let s1 := promote_send_buffer2 w1.1
      match s1.send_buffer with
      | none => .ok (2, (s1, w1.2), ops1)
      | some buffer2 =>
        let ops2 := ops1 ++ [.SSL_write (buffer2.take s1.send_buffer_len)]
        let w2 := script.write2.run certfiles_map (s1, w1.2)
        match script.write2.result with
        | .written => .ok (2, (promote_send_buffer2 w2.1, w2.2), ops2)
        | _ =>
          .error { term := .error_string "SSL_write failed", state := w2.1, certs_map := w2.2,
                   engine_ops := ops2 }
    | _ =>
      .error { term := .error_string "SSL_write failed", state := w1.1, certs_map := w1.2,
               engine_ops := ops1 }

/-- The part of `get_decrypted_input_nif` from its second test of
`SSL_is_init_finished` on; `finished` is the answer to that test. -/
def get_decrypted_input_rest (certfiles_map : List cert_info_t) (script : engine_script)
    (req_size : Nat) (finished : Bool) (retcode : Nat) (w : state_t × List cert_info_t)
    (ops : List engine_op) : nif_result :=
  if finished then
    match flush_send_buffer certfiles_map script retcode w ops with
    | .error result => result
    | .ok (retcode, w, ops) =>
      let l := read_loop certfiles_map req_size script.reads
        { output := List.replicate BUF_SIZE 0, size := BUF_SIZE, rlen := 0, world := w,
          engine_ops := ops }
      if l.world.1.handshakes > 1 then
        { term := .error_string "client renegotiations forbidden", state := l.world.1,
          certs_map := l.world.2, engine_ops := l.engine_ops }
      else
        { term := if retcode = 0 then .ok_binary (l.output.take l.rlen)
                  else .send_binary (l.output.take l.rlen),
          state := l.world.1, certs_map := l.world.2, engine_ops := l.engine_ops }
  else
    { term := .send_binary [], state := w.1, certs_map := w.2, engine_ops := ops }

/-- The function `get_decrypted_input_nif` (`read_plaintext`). -/
def get_decrypted_input_nif (certfiles_map : List cert_info_t) (script : engine_script)
    (certs_map : List cert_info_t) (state : state_t) (req_size : Nat) : nif_result :=
  match state.ssl with
  | none => { term := .badarg, state := state, certs_map := certs_map, engine_ops := [] }
  | some _ =>
    if ¬ state.valid then
      { term := .error_atom "closed", state := state, certs_map := certs_map, engine_ops := [] }
    else if ¬ script.init_finished then
      let w := script.handshake.run certfiles_map (state, certs_map)
      match script.handshake.result with
      | .failed reason =>
        { term :=
            if reason ∈ malformed_reasons then .error_atom "closed"
            else
              match w.1.sni_error with
              | some sni_error => ssl_error script sni_error
              | none => ssl_error script "SSL_do_handshake failed",
          state := w.1, certs_map := w.2, engine_ops := [.SSL_do_handshake] }
      | _ =>
        get_decrypted_input_rest certfiles_map script req_size script.init_finished_after 2 w
          [.SSL_do_handshake]
    else
      get_decrypted_input_rest certfiles_map script req_size true 0 (state, certs_map) []

/-- One call of a session NIF by the host runtime, with the script of the engine
for the call. -/
inductive nif_call where
  | set_encrypted_input (input : Bytes)
  | get_encrypted_output (script : engine_script)
  | set_decrypted_output (script : engine_script) (input : Bytes)
  | get_decrypted_input (script : engine_script) (req_size : Nat)
  | get_verify_result (script : engine_script)
  | get_peer_certificate (script : engine_script)
  | invalidate

/-- The result of one call of a session NIF. -/
def nif_call.run (certfiles_map : List cert_info_t) (w : state_t × List cert_info_t) :
    nif_call → nif_result
  | .set_encrypted_input input => set_encrypted_input_nif w.2 w.1 input
  | .get_encrypted_output script => get_encrypted_output_nif script w.2 w.1
  | .set_decrypted_output script input =>
    set_decrypted_output_nif certfiles_map script w.2 w.1 input
  | .get_decrypted_input script req_size =>
    get_decrypted_input_nif certfiles_map script w.2 w.1 req_size
  | .get_verify_result script => get_verify_result_nif script w.2 w.1
  | .get_peer_certificate script => get_peer_certificate_nif script w.2 w.1
  | .invalidate => invalidate_nif w.2 w.1

/-- The session and `certs_map` after a sequence of calls, the first call first. -/
def run_calls (certfiles_map : List cert_info_t) (w : state_t × List cert_info_t)
    (calls : List nif_call) : state_t × List cert_info_t :=
  calls.foldl (fun w c => ((c.run certfiles_map w).state, (c.run certfiles_map w).certs_map)) w

/-- The results of the calls in a sequence, the first call first. -/
def run_calls_trace (certfiles_map : List cert_info_t) :
    state_t × List cert_info_t → List nif_call → List nif_result
  | _, [] => []
  | w, c :: rest =>
    c.run certfiles_map w ::
      run_calls_trace certfiles_map
        ((c.run certfiles_map w).state, (c.run certfiles_map w).certs_map) rest

/-- The buffers handed to `SSL_write`, in order. -/
def written_buffers : List engine_op → List Bytes
  | [] => []
  | .SSL_write buf :: rest => buf :: written_buffers rest
  | _ :: rest => written_buffers rest

/-- The chunks that the calls of `SSL_read` delivered, in order. -/
def read_chunks : List engine_op → List Bytes
  | [] => []
  | .SSL_read _ _ _ delivered :: rest => delivered :: read_chunks rest
  | _ :: rest => read_chunks rest

/-- The variable `key_size` of `create_ssl_for_cert`. -/
def key_size (cert_file ciphers dh_file ca_file : Bytes) : Nat :=
  cert_file.length + ciphers.length + 8 + dh_file.length + ca_file.length + 1

/-- A script in which the engine makes no callback, moves no bytes, reports the
handshake finished and every write done, and has nothing to read. -/
def script_idle : engine_script :=
  { init_finished := true,
    handshake := { events := [], consumed := 0, produced := [], result := .done },
    init_finished_after := true,
    write1 := { events := [], consumed := 0, produced := [], result := .written },
    write2 := { events := [], consumed := 0, produced := [], result := .written },
    reads := [], error_string := none, verify_result := 0, peer_certificate := none,
    alloc_binary := true }

/-- A session that `open_nif` returned (bound to a context, valid) and that was
invalidated afterwards. -/
def session_invalidated : state_t :=
  { (create_ssl_for_cert (env_good stat_cert_dh 1) [] (bytes "cert.pem")
      (session_for (bytes "cert.pem") [] 0 [] [])).state with
    valid := false, bio_read := bytes "in", bio_write := bytes "out" }

/-- Whether a call is a call of `invalidate_nif`. -/
def nif_call.invalidates : nif_call → Bool
  | .invalidate => true
  | _ => false

/-- The session `s2` differs from `s1` at most in what the engine and its
callbacks change: the engine handle (which stays present), the recorded SNI
failure, the handshake counter (which does not decrease) and the two memory
buffers. -/
structure engine_touched (s1 s2 : state_t) : Prop where
  valid : s2.valid = s1.valid
  send_buffer : s2.send_buffer = s1.send_buffer
  send_buffer_size : s2.send_buffer_size = s1.send_buffer_size
  send_buffer_len : s2.send_buffer_len = s1.send_buffer_len
  send_buffer2 : s2.send_buffer2 = s1.send_buffer2
  send_buffer2_size : s2.send_buffer2_size = s1.send_buffer2_size
  send_buffer2_len : s2.send_buffer2_len = s1.send_buffer2_len
  cert_file : s2.cert_file = s1.cert_file
  ciphers : s2.ciphers = s1.ciphers
  dh_file : s2.dh_file = s1.dh_file
  ca_file : s2.ca_file = s1.ca_file
  options : s2.options = s1.options
  ssl : s1.ssl ≠ none → s2.ssl ≠ none
  handshakes : s1.handshakes ≤ s2.handshakes

/-- A session that `open_nif` returned: bound to the context of `cert.pem`, valid,
nothing pending. -/
def session_open : state_t :=
  (create_ssl_for_cert (env_good stat_cert_dh 1) [] (bytes "cert.pem")
    (session_for (bytes "cert.pem") [] 0 [] [])).state

/-- The session `session_open` after it observed a second handshake. -/
def session_renegotiated : state_t := { session_open with handshakes := 2 }

/-- A script of an established session in which the engine has the plaintext
`secret` to deliver and nothing after it. -/
def script_plaintext : engine_script :=
  { script_idle with
    reads := [{ events := [], consumed := 6, produced := [], result := bytes "secret" }] }

/-- A session that `open_nif` returned for an empty certificate path. -/
def session_no_cert : state_t :=
  (create_ssl_for_cert (env_good stat_cert_dh 1) [] [] (session_for [] [] 0 [] [])).state

/-- A script of a first handshake step in which the peer asks for the hostname
`nohost.example` and the handshake then fails with a reason that is not one of
the five (`SSL_R_CALLBACK_FAILED`, 234); the engine has an error string queued. -/
def script_sni_failure : engine_script :=
  { script_idle with
    init_finished := false, init_finished_after := false,
    handshake :=
      { events := [.servername (env_good stat_cert_dh 2) (some (bytes "nohost.example"))],
        consumed := 0, produced := [], result := .failed 234 },
    error_string := some "error:1408A0EA" }

/-- A script of an established session in which the engine takes every write
and has nothing to read. -/
def script_flush : engine_script := script_idle

/-- The session `session_open` with the plaintext `hello` pending in the
primary buffer. -/
def session_pending : state_t :=
  { session_open with
    send_buffer := some (bytes "hello"), send_buffer_len := 5, send_buffer_size := 5 }

/-- A call of `SSL_read` stays inside the output buffer: at the call the buffer
has at least `BUF_SIZE` free bytes, the requested count is at least one and at
most the free space, the capacity is `BUF_SIZE` times a power of two and at most
twice the read data plus `2 * BUF_SIZE`, and the engine delivered no more than
the requested count. -/
def read_within_buffer : engine_op → Prop
  | .SSL_read size rlen num delivered =>
    BUF_SIZE ≤ size - rlen ∧ 1 ≤ num ∧ num ≤ size - rlen ∧ rlen + num ≤ size ∧
    (∃ k, size = BUF_SIZE * 2 ^ k) ∧ size ≤ 2 * rlen + 2 * BUF_SIZE ∧ delivered.length ≤ num
  | _ => True

/-- The variables of the read loop as `get_decrypted_input_nif` sets them
before the loop. -/
def read_loop_start (w : state_t × List cert_info_t) (ops : List engine_op) : read_loop_t :=
  { output := List.replicate BUF_SIZE 0, size := BUF_SIZE, rlen := 0, world := w,
    engine_ops := ops }

/-- The calls of `set_decrypted_output_nif` for a sequence of inputs, each with
the script of the engine for its call, the first input first. -/
def submit_calls (inputs : List (engine_script × Bytes)) : List nif_call :=
  inputs.map (fun p => .set_decrypted_output p.1 p.2)

/-- The session is usable and holds exactly `b` in its primary pending buffer. -/
def primary_holds (state : state_t) (b : Bytes) : Prop :=
  state.ssl ≠ none ∧ state.valid = true ∧ state.send_buffer = some b ∧
  state.send_buffer_len = b.length

/-- The overflow pending buffer of the session holds exactly `acc`: it is absent
when `acc` is empty, and otherwise it is `acc` with its length recorded and a
capacity that holds it. -/
def overflow_holds (state : state_t) (acc : Bytes) : Prop :=
  (acc = [] ∧ state.send_buffer2 = none) ∨
  (acc ≠ [] ∧ state.send_buffer2 = some acc ∧ state.send_buffer2_len = acc.length ∧
    acc.length ≤ state.send_buffer2_size)

/-- A script in which the engine's first write signals would-block. -/
def script_would_block : engine_script :=
  { script_idle with
    write1 := { events := [], consumed := 0, produced := [], result := .want } }

/-- Two inputs submitted after a first one, each with an idle engine. -/
def submit_inputs_more : List (engine_script × Bytes) :=
  [(script_idle, bytes ", "), (script_idle, bytes "world")]

/-- A file system with the two certificate files `a.pem` and `b.pem`, both with
modification time 100. -/
def stat_a_b_pem (file : Bytes) : Option Int :=
  if file = bytes "a.pem" then some 100
  else if file = bytes "b.pem" then some 100
  else none

/-- The directory in which `a.example` is mapped to `a.pem` and `b.example` to
`b.pem`. -/
def directory_a_b : List cert_info_t :=
  built_by [.add true true true (bytes "a.example") (bytes "a.pem"),
            .add true true true (bytes "b.example") (bytes "b.pem")]

/-- The resolve with which `open_nif` creates a session for `a.pem`, on the
empty cache. -/
def open_a : resolved :=
  create_ssl_for_cert (env_good stat_a_b_pem 1) [] (bytes "a.pem")
    (session_for (bytes "a.pem") [] 0 [] [])

/-- A first hostname callback on that session, for `b.example`. -/
def sni_to_b : sni_outcome :=
  ssl_sni_callback (env_good stat_a_b_pem 2) directory_a_b open_a.certs_map
    (some (bytes "b.example")) open_a.state

/-- A second hostname callback on the session, for `a.example`. -/
def sni_back_to_a : sni_outcome :=
  ssl_sni_callback (env_good stat_a_b_pem 3) directory_a_b sni_to_b.certs_map
    (some (bytes "a.example")) sni_to_b.state

/-- A second hostname callback on the session, for `b.example` again. -/
def sni_b_again : sni_outcome :=
  ssl_sni_callback (env_good stat_a_b_pem 3) directory_a_b sni_to_b.certs_map
    (some (bytes "b.example")) sni_to_b.state

/-- The certificate file of the context to which the session's engine is bound:
`none` without an engine, `some none` for a context without a certificate. -/
def active_cert_file (state : state_t) : Option (Option Bytes) :=
  state.ssl.map (fun ssl => ssl.ctx.cert_file)

/-! ## Facts about the hash table -/

theorem c_str_eq_self {b : Bytes} (h : 0 ∉ b) : c_str b = b := by
  unfold c_str
  rw [List.takeWhile_eq_self_iff]
  intro x hx
  have : x ≠ 0 := fun h0 => h (h0 ▸ hx)
  simpa using this

theorem tolower_eq_zero {c : Nat} : tolower c = 0 ↔ c = 0 := by
  unfold tolower
  split <;> omega

theorem zero_not_mem_lower {b : Bytes} (h : 0 ∉ b) : 0 ∉ b.map tolower := by
  intro h0
  rcases List.mem_map.1 h0 with ⟨c, hc, hc0⟩
  exact h (tolower_eq_zero.1 hc0 ▸ hc)

theorem find_del_ne (head : List cert_info_t) {key key2 : Bytes} (h : key2 ≠ key) :
    HASH_FIND_STR (HASH_DEL head key) key2 = HASH_FIND_STR head key2 := by
  unfold HASH_FIND_STR HASH_DEL
  induction head with
  | nil => rfl
  | cons e t ih =>
    by_cases he : e.key = key
    · have hne : ¬ e.key = key2 := fun h2 => h (h2 ▸ he)
      rw [List.eraseP_cons_of_pos (by simpa using he),
        List.find?_cons_of_neg _ (by simpa using hne)]
    · rw [List.eraseP_cons_of_neg (by simpa using he)]
      by_cases he2 : e.key = key2
      · rw [List.find?_cons_of_pos _ (by simpa using he2),
          List.find?_cons_of_pos _ (by simpa using he2)]
      · rw [List.find?_cons_of_neg _ (by simpa using he2),
          List.find?_cons_of_neg _ (by simpa using he2), ih]

theorem find_replace_same (head : List cert_info_t) (add : cert_info_t) :
    HASH_FIND_STR (HASH_REPLACE_STR head add).1 add.key = some add := by
  simp [HASH_FIND_STR, HASH_REPLACE_STR]

theorem find_replace_ne (head : List cert_info_t) (add : cert_info_t) {key : Bytes}
    (h : key ≠ add.key) :
    HASH_FIND_STR (HASH_REPLACE_STR head add).1 key = HASH_FIND_STR head key := by
  have h2 : ¬ add.key = key := fun e => h e.symm
  have := find_del_ne head h
  simpa [HASH_FIND_STR, HASH_REPLACE_STR, List.find?_cons, h2] using this

/-- What `get_certfile_nif` computes on a query without NUL, in terms of the
two table reads. -/
theorem get_certfile_nif_eq (b : Bool) (m : List cert_info_t) (q : Bytes) (hq0 : 0 ∉ q) :
    get_certfile_nif b m q =
      if q = [] then none
      else if has_file (HASH_FIND_STR m (q.map tolower)) then
        (if b then (HASH_FIND_STR m (q.map tolower)).bind (fun i => i.file) else none)
      else if 46 ∈ q.map tolower ∧ (q.map tolower).head? ≠ some 46 then
        (if has_file (HASH_FIND_STR m (42 :: (q.map tolower).dropWhile (fun c => c != 46))) then
          (if b then (HASH_FIND_STR m (42 :: (q.map tolower).dropWhile (fun c => c != 46))).bind
            (fun i => i.file) else none)
         else none)
      else none := by
  unfold get_certfile_nif lookup_certfile
  rw [c_str_eq_self hq0]
  by_cases hq : q = []
  · simp [hq]
  · simp only [List.length_eq_zero, hq, if_false]
    generalize HASH_FIND_STR m (q.map tolower) = r1
    generalize HASH_FIND_STR m (42 :: (q.map tolower).dropWhile (fun c => c != 46)) = r2
    by_cases hdot : 46 ∈ q.map tolower ∧ (q.map tolower).head? ≠ some 46
    · simp only [if_pos hdot]
      rcases r1 with _ | ⟨k1, _ | f1, _, _, _, _⟩ <;>
        rcases r2 with _ | ⟨k2, _ | f2, _, _, _, _⟩ <;> cases b <;> simp [has_file]
    · simp only [if_neg hdot]
      rcases r1 with _ | ⟨k1, _ | f1, _, _, _, _⟩ <;> cases b <;> simp [has_file]

theorem tolower_eq_dot {c : Nat} : tolower c = 46 ↔ c = 46 := by
  unfold tolower
  split <;> omega

theorem bytes_dot : bytes "." = [46] := by decide

theorem bytes_star_dot : bytes "*." = [42, 46] := by decide

/-- After a successful `add_certfile_nif` of `d`, any query whose lower-cased
form is `d` finds the file just stored. -/
theorem get_after_add (m : List cert_info_t) (d f q : Bytes) (hq0 : 0 ∉ q) (hf0 : 0 ∉ f)
    (hne : q ≠ []) (hlow : q.map tolower = d) :
    get_certfile_nif true (add_certfile_nif true true true m d f) q = some f := by
  have hd0 : 0 ∉ d := hlow ▸ zero_not_mem_lower hq0
  rw [get_certfile_nif_eq _ _ _ hq0, if_neg hne, hlow]
  unfold add_certfile_nif
  simp only [if_true, and_self, c_str_eq_self hd0, c_str_eq_self hf0]
  have h := find_replace_same m
    { key := d, file := some f, key_mtime := 0, dh_mtime := 0, ca_mtime := 0, ssl_ctx := none }
  simp only at h
  rw [h]
  simp [has_file]

/-- Every item of a directory built by administrative calls has a non-null
file pointer. -/
theorem built_by_file_isSome (calls : List sni_call) :
    ∀ e ∈ built_by calls, e.file.isSome = true := by
  unfold built_by
  suffices h : ∀ (m : List cert_info_t), (∀ e ∈ m, e.file.isSome = true) →
      ∀ e ∈ calls.foldl sni_call.run m, e.file.isSome = true from h [] (by simp)
  induction calls with
  | nil => intro m hm; simpa using hm
  | cons c t ih =>
    intro m hm
    rw [List.foldl_cons]
    apply ih
    intro e he
    cases c with
    | add i k f domain file =>
      simp only [sni_call.run, add_certfile_nif, HASH_REPLACE_STR, HASH_DEL] at he
      split_ifs at he
      · rcases List.mem_cons.1 he with rfl | he2
        · rfl
        · exact hm e (List.eraseP_subset _ he2)
      · exact hm e he
      · exact hm e he
    | del domain =>
      simp only [sni_call.run, delete_certfile_nif, HASH_DEL] at he
      split at he
      · exact hm e (List.eraseP_subset _ he)
      · exact hm e he

/-! ## The SNI directory: claims -/

/-- C1, as amended: `add_certfile_nif` stores the domain as it is given, and
`get_certfile_nif` lower-cases the query only.  For every non-empty domain `d`
that is its own lower-cased form, every file path `f` and every directory,
after `add_mapping(d, f)` the lookup of any spelling `q` of `d` (any `q` with
`lower q = d`, `d` itself included) returns `f`.  Domains, queries and paths are
C strings (no NUL byte). -/
theorem add_then_lookup_lower (m : List cert_info_t) (d f q : Bytes)
    (hq0 : 0 ∉ q) (hf0 : 0 ∉ f) (hne : d ≠ []) (hlow : q.map tolower = d) :
    get_certfile_nif true (add_certfile_nif true true true m d f) q = some f :=
  get_after_add m d f q hq0 hf0 (fun h => hne (by rw [← hlow, h]; rfl)) hlow

/-- C1, witness: after `add_mapping("example.com", "x.pem")` on the empty
directory, `lookup_mapping("Example.COM")` returns `"x.pem"`. -/
theorem add_then_lookup_lower_witness :
    get_certfile_nif true
      (add_certfile_nif true true true [] (bytes "example.com") (bytes "x.pem"))
      (bytes "Example.COM") = some (bytes "x.pem") :=
  add_then_lookup_lower [] (bytes "example.com") (bytes "x.pem") (bytes "Example.COM")
    (by decide) (by decide) (by decide) (by decide)

/-- C1, as stated, fails: after `add_mapping("Example.COM", "x.pem")` on the
empty directory the lookup of the lower-cased form `"example.com"` returns
nothing; and after `add_mapping("", "x.pem")` the lookup of `""` returns
nothing. -/
theorem add_mixed_case_then_lookup_fails :
    (bytes "Example.COM").map tolower = bytes "example.com" ∧
    get_certfile_nif true
      (add_certfile_nif true true true [] (bytes "Example.COM") (bytes "x.pem"))
      (bytes "example.com") = none ∧
    get_certfile_nif true
      (add_certfile_nif true true true [] (bytes "") (bytes "x.pem"))
      ((bytes "").map tolower) = none := by
  decide

/-- C2: wildcard fallback matches one label.  In every directory that holds an
item keyed `"*." ++ rest` with file `f` (`rest` lower-case) and no item keyed
`lower label ++ "." ++ rest`, the lookup of `label ++ "." ++ rest` returns `f`,
for every non-empty `label` without a dot.  Labels and `rest` are C strings
(no NUL byte). -/
theorem wildcard_matches_one_label (m : List cert_info_t) (label rest f : Bytes)
    (hl0 : 0 ∉ label) (hr0 : 0 ∉ rest) (hlne : label ≠ []) (hldot : 46 ∉ label)
    (hrlow : rest.map tolower = rest)
    (hwild : ∃ e, HASH_FIND_STR m (bytes "*." ++ rest) = some e ∧ e.file = some f)
    (hexact : ∀ e ∈ m, e.key ≠ label.map tolower ++ bytes "." ++ rest) :
    get_certfile_nif true m (label ++ bytes "." ++ rest) = some f := by
  rw [bytes_dot] at hexact ⊢
  rw [bytes_star_dot] at hwild
  obtain ⟨e, he, hef⟩ := hwild
  have hq0 : 0 ∉ label ++ [46] ++ rest := by
    simp only [List.mem_append, List.mem_singleton, not_or]
    exact ⟨⟨hl0, by decide⟩, hr0⟩
  have hqne : label ++ [46] ++ rest ≠ [] := by
    cases label with
    | nil => exact absurd rfl hlne
    | cons a t => simp
  have hlow : (label ++ [46] ++ rest).map tolower = label.map tolower ++ [46] ++ rest := by
    simp only [List.map_append, hrlow, List.map_cons, List.map_nil]
    rfl
  have hfind : HASH_FIND_STR m (label.map tolower ++ [46] ++ rest) = none := by
    unfold HASH_FIND_STR
    rw [List.find?_eq_none]
    intro x hx
    simpa using hexact x hx
  have hdotmem : 46 ∈ label.map tolower ++ [46] ++ rest := by simp
  have hhead : (label.map tolower ++ [46] ++ rest).head? ≠ some 46 := by
    cases label with
    | nil => exact absurd rfl hlne
    | cons a t =>
      have ha : a ≠ 46 := fun h => hldot (h ▸ List.mem_cons_self _ _)
      simpa [tolower_eq_dot] using ha
  have hdrop : (label.map tolower ++ [46] ++ rest).dropWhile (fun c => c != 46) = 46 :: rest := by
    rw [List.append_assoc, List.dropWhile_append_of_pos]
    · simp
    · intro a ha
      rcases List.mem_map.1 ha with ⟨c, hc, rfl⟩
      have : c ≠ 46 := fun h => hldot (h ▸ hc)
      simpa [tolower_eq_dot] using this
  have he2 : HASH_FIND_STR m (42 :: 46 :: rest) = some e := he
  rw [get_certfile_nif_eq _ _ _ hq0, if_neg hqne, hlow, hfind, hdrop, he2,
    if_pos (And.intro hdotmem hhead)]
  simp [has_file, hef]

/-- C2, witness: after `add_mapping("*.example.com", "wild.pem")` on the empty
directory, `lookup_mapping("a.example.com")` returns `"wild.pem"`. -/
theorem wildcard_matches_one_label_witness :
    get_certfile_nif true
      (add_certfile_nif true true true [] (bytes "*.example.com") (bytes "wild.pem"))
      (bytes "a" ++ bytes "." ++ bytes "example.com") = some (bytes "wild.pem") :=
  wildcard_matches_one_label
    (add_certfile_nif true true true [] (bytes "*.example.com") (bytes "wild.pem"))
    (bytes "a") (bytes "example.com") (bytes "wild.pem")
    (by decide) (by decide) (by decide) (by decide) (by decide)
    ⟨{ key := bytes "*.example.com", file := some (bytes "wild.pem"),
       key_mtime := 0, dh_mtime := 0, ca_mtime := 0, ssl_ctx := none },
      by decide, by decide⟩ (by decide)

theorem find_some_key {m : List cert_info_t} {k : Bytes} {e : cert_info_t}
    (h : HASH_FIND_STR m k = some e) : e ∈ m ∧ e.key = k := by
  unfold HASH_FIND_STR at h
  exact ⟨List.mem_of_find?_eq_some h, by simpa using List.find?_some h⟩

/-- C3: exactly one wildcard fallback, never recursing up the label chain.  The
answer of `lookup_mapping(q)` is determined by the item keyed `lower q` and,
when `lower q` contains a `.` and does not start with one, the item keyed
`"*"` followed by the suffix of `lower q` that starts at its first `.`: two
directories that agree on these reads give the same answer.  When `q` is empty,
has no `.` or starts with `.`, the read of `lower q` alone determines the
answer.  Hence with only `"*.example.com"` registered, `"example.com"` and
`"a.b.example.com"` find nothing.  The query is a C string (no NUL byte). -/
theorem lookup_consults_exact_and_one_wildcard (b : Bool) (m1 m2 : List cert_info_t)
    (q : Bytes) (hq0 : 0 ∉ q)
    (hexact : HASH_FIND_STR m1 (q.map tolower) = HASH_FIND_STR m2 (q.map tolower))
    (hwild : 46 ∈ q.map tolower → (q.map tolower).head? ≠ some 46 →
      HASH_FIND_STR m1 (bytes "*" ++ (q.map tolower).dropWhile (fun c => c != 46)) =
      HASH_FIND_STR m2 (bytes "*" ++ (q.map tolower).dropWhile (fun c => c != 46))) :
    get_certfile_nif b m1 q = get_certfile_nif b m2 q ∧
    get_certfile_nif true
      (add_certfile_nif true true true [] (bytes "*.example.com") (bytes "wild.pem"))
      (bytes "example.com") = none ∧
    get_certfile_nif true
      (add_certfile_nif true true true [] (bytes "*.example.com") (bytes "wild.pem"))
      (bytes "a.b.example.com") = none := by
  refine ⟨?_, by decide, by decide⟩
  rw [get_certfile_nif_eq _ _ _ hq0, get_certfile_nif_eq _ _ _ hq0, hexact]
  by_cases hdot : 46 ∈ q.map tolower ∧ (q.map tolower).head? ≠ some 46
  · have h := hwild hdot.1 hdot.2
    have hs : bytes "*" = [42] := by decide
    rw [hs] at h
    have h2 : HASH_FIND_STR m1 (42 :: (q.map tolower).dropWhile (fun c => c != 46)) =
        HASH_FIND_STR m2 (42 :: (q.map tolower).dropWhile (fun c => c != 46)) := h
    rw [h2]
  · rw [if_neg hdot, if_neg hdot]

/-- C3, witness: the directory that holds only `"*.example.com"` and the empty
directory agree on the keys `"a.b.example.com"` and `"*.b.example.com"`, so they
answer the query `"a.b.example.com"` alike. -/
theorem lookup_consults_exact_and_one_wildcard_witness :
    get_certfile_nif true
      (add_certfile_nif true true true [] (bytes "*.example.com") (bytes "wild.pem"))
      (bytes "a.b.example.com") =
    get_certfile_nif true [] (bytes "a.b.example.com") :=
  (lookup_consults_exact_and_one_wildcard true
    (add_certfile_nif true true true [] (bytes "*.example.com") (bytes "wild.pem")) []
    (bytes "a.b.example.com") (by decide) (by decide) (fun _ _ => by decide)).1

/-- C4, as amended: the guard of `lookup_certfile` tests the file pointer for
null, not the path for emptiness, and `add_certfile_nif` never stores a null
pointer.  In every directory built from `add_mapping`/`remove_mapping` calls and
for every non-empty query `q` (a C string): the item keyed `lower q`, when there
is one, is returned with its stored path; when there is none and `lower q`
contains a `.` and does not start with one, the item keyed `"*"` followed by the
suffix from the first `.`, when there is one, is returned with its stored path;
and a returned path is always the stored path of one of these two items.  The
stored path may be empty. -/
theorem lookup_returns_stored_path (calls : List sni_call) (q : Bytes)
    (hq0 : 0 ∉ q) (hqne : q ≠ []) :
    (∀ e, HASH_FIND_STR (built_by calls) (q.map tolower) = some e →
      ∃ p, e.file = some p ∧ get_certfile_nif true (built_by calls) q = some p) ∧
    (HASH_FIND_STR (built_by calls) (q.map tolower) = none →
      46 ∈ q.map tolower → (q.map tolower).head? ≠ some 46 →
      ∀ e, HASH_FIND_STR (built_by calls)
          (bytes "*" ++ (q.map tolower).dropWhile (fun c => c != 46)) = some e →
        ∃ p, e.file = some p ∧ get_certfile_nif true (built_by calls) q = some p) ∧
    (∀ p, get_certfile_nif true (built_by calls) q = some p →
      ∃ e ∈ built_by calls, e.file = some p ∧
        (e.key = q.map tolower ∨
          e.key = bytes "*" ++ (q.map tolower).dropWhile (fun c => c != 46))) := by
  have hs : ∀ l : Bytes, bytes "*" ++ l = 42 :: l := fun _ => rfl
  simp only [hs]
  rw [get_certfile_nif_eq _ _ _ hq0, if_neg hqne]
  refine ⟨?_, ?_, ?_⟩
  · intro e he
    have hfile := built_by_file_isSome calls e (find_some_key he).1
    obtain ⟨p, hp⟩ := Option.isSome_iff_exists.1 hfile
    exact ⟨p, hp, by simp [he, has_file, hp]⟩
  · intro hnone hdot hhead e he
    have hfile := built_by_file_isSome calls e (find_some_key he).1
    obtain ⟨p, hp⟩ := Option.isSome_iff_exists.1 hfile
    refine ⟨p, hp, ?_⟩
    rw [hnone, he, if_pos (And.intro hdot hhead)]
    simp [has_file, hp]
  · intro p hp
    cases h1 : HASH_FIND_STR (built_by calls) (q.map tolower) with
    | some e =>
      have hfile := built_by_file_isSome calls e (find_some_key h1).1
      obtain ⟨p2, hp2⟩ := Option.isSome_iff_exists.1 hfile
      rw [h1] at hp
      simp only [has_file, hp2, Option.isSome_some, if_true, Option.bind] at hp
      exact ⟨e, (find_some_key h1).1, by rw [hp2, ← hp], Or.inl (find_some_key h1).2⟩
    | none =>
      rw [h1] at hp
      simp only [has_file, Bool.false_eq_true, if_false] at hp
      split_ifs at hp with hdot hf2
      cases h2 : HASH_FIND_STR (built_by calls)
          (42 :: (q.map tolower).dropWhile (fun c => c != 46)) with
      | none => rw [h2] at hp; simp at hp
      | some e =>
        rw [h2] at hp
        exact ⟨e, (find_some_key h2).1, by simpa using hp, Or.inr (find_some_key h2).2⟩

/-- C4, witness: the directory built by `add_mapping("example.com", "")` and
the query `"example.com"`. -/
theorem lookup_returns_stored_path_witness :
    get_certfile_nif true
      (built_by [sni_call.add true true true (bytes "example.com") (bytes "")])
      (bytes "example.com") = some [] := by
  obtain ⟨p, hp, hget⟩ :=
    (lookup_returns_stored_path
      [sni_call.add true true true (bytes "example.com") (bytes "")]
      (bytes "example.com") (by decide) (by decide)).1
      { key := bytes "example.com", file := some [],
        key_mtime := 0, dh_mtime := 0, ca_mtime := 0, ssl_ctx := none } (by decide)
  have hp2 : p = [] := by simpa using hp.symm
  rw [hget, hp2]

/-- C4, as stated, fails: an item registered with the empty path is returned,
with the empty path, as an exact match and as the wildcard fallback. -/
theorem lookup_returns_empty_path :
    get_certfile_nif true
      (built_by [sni_call.add true true true (bytes "example.com") (bytes "")])
      (bytes "example.com") = some [] ∧
    get_certfile_nif true
      (built_by [sni_call.add true true true (bytes "*.example.com") (bytes "")])
      (bytes "a.example.com") = some [] := by
  decide


/-! ## Facts about the cache key -/

theorem unhex_hex_digit {d : Nat} (h : d < 16) : unhex (hex_digit d) = d := by
  unfold unhex hex_digit
  split_ifs <;> omega

theorem lx_digits_length (fuel k n : Nat) (h : n < 16 ^ k) : (lx_digits fuel n).length ≤ k := by
  induction fuel generalizing k n with
  | zero => simp [lx_digits]
  | succ fuel ih =>
    unfold lx_digits
    split_ifs with h0
    · simp
    · cases k with
      | zero => simp at h; exact absurd h h0
      | succ k =>
        have : n / 16 < 16 ^ k := by
          rw [Nat.div_lt_iff_lt_mul (by norm_num)]
          rw [pow_succ] at h
          exact h
        simpa using ih k (n / 16) this

theorem lx_digits_value (fuel n : Nat) (h : n < 16 ^ fuel) :
    (lx_digits fuel n).foldr (fun d acc => acc * 16 + unhex (hex_digit d)) 0 = n := by
  induction fuel generalizing n with
  | zero => simp at h; simp [lx_digits, h]
  | succ fuel ih =>
    unfold lx_digits
    split_ifs with h0
    · simp [h0]
    · have hlt : n / 16 < 16 ^ fuel := by
        rw [Nat.div_lt_iff_lt_mul (by norm_num)]
        rw [pow_succ] at h
        exact h
      rw [List.foldr_cons, ih _ hlt, unhex_hex_digit (Nat.mod_lt _ (by norm_num))]
      omega

theorem hex_value_fmt_08lx (n : Nat) (h : n < 2 ^ 64) : hex_value (fmt_08lx n) = n := by
  unfold hex_value fmt_08lx
  rw [Nat.mod_eq_of_lt h]
  simp only [List.foldl_append]
  have hz : ∀ k : Nat, (List.replicate k 48).foldl (fun acc c => acc * 16 + unhex c) 0 = 0 := by
    intro k
    induction k with
    | zero => rfl
    | succ k ih => rw [List.replicate_succ, List.foldl_cons]; simpa [unhex] using ih
  rw [hz, List.foldl_map, List.foldl_reverse]
  exact lx_digits_value 16 n (by norm_num at h ⊢; exact h)

theorem fmt_08lx_length (n : Nat) (h : n < 2 ^ 32) : (fmt_08lx n).length = 8 := by
  unfold fmt_08lx
  have h64 : n < 2 ^ 64 := lt_trans h (by norm_num)
  rw [Nat.mod_eq_of_lt h64]
  have := lx_digits_length 16 8 n (by norm_num at h ⊢; exact h)
  simp only [List.length_append, List.length_replicate, List.length_map, List.length_reverse]
  omega

theorem fmt_08lx_injective {n1 n2 : Nat} (h1 : n1 < 2 ^ 32) (h2 : n2 < 2 ^ 32)
    (h : fmt_08lx n1 = fmt_08lx n2) : n1 = n2 := by
  have e1 := hex_value_fmt_08lx n1 (lt_trans h1 (by norm_num))
  have e2 := hex_value_fmt_08lx n2 (lt_trans h2 (by norm_num))
  rw [← e1, ← e2, h]

/-! ## The certificate-context cache: claims -/

/-- C9, as amended: the key is the plain concatenation of its five parts, so
it identifies the configuration only when the boundaries between the parts are
known.  Two five-tuples with option bitmasks below `2^32` whose certificate
paths have the same length, whose cipher lists have the same length and whose
DH paths have the same length, and that differ in at least one component, have
different keys. -/
theorem cache_key_injective_of_aligned (c1 c2 p1 p2 d1 d2 a1 a2 : Bytes) (o1 o2 : Nat)
    (ho1 : o1 < 2 ^ 32) (ho2 : o2 < 2 ^ 32)
    (hc : c1.length = c2.length) (hp : p1.length = p2.length) (hd : d1.length = d2.length)
    (hne : (c1, p1, o1, d1, a1) ≠ (c2, p2, o2, d2, a2)) :
    cache_key c1 p1 o1 d1 a1 ≠ cache_key c2 p2 o2 d2 a2 := by
  intro h
  apply hne
  unfold cache_key at h
  simp only [List.append_assoc] at h
  obtain ⟨e1, h⟩ := List.append_inj h hc
  obtain ⟨e2, h⟩ := List.append_inj h hp
  obtain ⟨e3, h⟩ := List.append_inj h
    (by rw [fmt_08lx_length _ ho1, fmt_08lx_length _ ho2])
  obtain ⟨e4, e5⟩ := List.append_inj h hd
  rw [e1, e2, fmt_08lx_injective ho1 ho2 e3, e4, e5]

/-- C9, witness: the tuples `("a", "b", 0, "", "")` and `("b", "a", 0, "", "")`. -/
theorem cache_key_injective_of_aligned_witness :
    cache_key (bytes "a") (bytes "b") 0 [] [] ≠ cache_key (bytes "b") (bytes "a") 0 [] [] :=
  cache_key_injective_of_aligned (bytes "a") (bytes "b") (bytes "b") (bytes "a") [] [] [] [] 0 0
    (by decide) (by decide) (by decide) (by decide) (by decide) (by decide)

/-- C9, as stated, fails: the configurations `("a", "b", 0, "", "")` and
`("ab", "", 0, "", "")` differ and have the same key; after a resolve of the
first, a resolve of the second (both files with the same modification time)
compiles nothing and binds its session to the context compiled for the
certificate `a`. -/
theorem cache_key_collision :
    ((bytes "a", bytes "b", 0, ([] : Bytes), ([] : Bytes)) ≠
      (bytes "ab", ([] : Bytes), 0, ([] : Bytes), ([] : Bytes))) ∧
    cache_key (bytes "a") (bytes "b") 0 [] [] = cache_key (bytes "ab") [] 0 [] [] ∧
    resolve_a_b.ret = none ∧ resolve_ab.ret = none ∧ resolve_ab.compiled = false ∧
    resolve_ab.certs_map = resolve_a_b.certs_map ∧
    resolve_ab.state.ssl = resolve_a_b.state.ssl ∧
    resolve_ab.state.ssl.map (fun x => x.ctx.cert_file) = some (some (bytes "a")) := by
  decide

theorem create_new_ctx_ok_iff (env : Env) (c : Option Bytes) (p : Bytes) (d a : Option Bytes) :
    (∃ ctx, create_new_ctx env c p d a = .ok ctx) ↔
      (env.SSL_CTX_new ≠ none ∧
        (∀ f, c = some f → env.SSL_CTX_use_certificate_chain_file f = true ∧
          env.SSL_CTX_use_PrivateKey_file f = true ∧ env.SSL_CTX_check_private_key f = true) ∧
        setup_dh env d = true) := by
  unfold create_new_ctx
  cases hn : env.SSL_CTX_new with
  | none => simp
  | some id =>
    cases c with
    | none =>
      by_cases hd : setup_dh env d = true <;> simp [hd]
    | some f =>
      by_cases h1 : env.SSL_CTX_use_certificate_chain_file f = true <;>
        by_cases h2 : env.SSL_CTX_use_PrivateKey_file f = true <;>
        by_cases h3 : env.SSL_CTX_check_private_key f = true <;>
        by_cases hd : setup_dh env d = true <;> simp [h1, h2, h3, hd]

theorem create_new_ctx_ciphers (env : Env) (c : Option Bytes) (p : Bytes) (d a : Option Bytes)
    (ctx : SSL_CTX) (h : create_new_ctx env c p d a = .ok ctx) :
    ctx.ciphers = (if p.head? = none then CIPHERS else p) := by
  unfold create_new_ctx at h
  cases hn : env.SSL_CTX_new with
  | none => rw [hn] at h; simp at h
  | some id =>
    rw [hn] at h
    simp only at h
    split at h
    · simp at h
    · split_ifs at h with hd hp <;>
        (simp only [Except.ok.injEq] at h; subst h; simp [hp])

/-- C8, as amended: a bad cipher string is not a compile failure.  The program
does not look at the result of the cipher-list installation.  For every resolve
that compiles and whose cipher-list installation the engine rejects: resolve
returns no error exactly when every step that the program checks succeeds
(`SSL_CTX_new`, for a non-empty certificate path the chain load, the key load
and the key/chain check, the DH setup, and the two allocations), and then the
new context, configured with the rejected list, is published under the key;
and the whole outcome is the one the same resolve has with any other answer of
the engine to the cipher list (the rejection plays no part in the proof). -/
theorem rejected_cipher_list_is_no_failure (env : Env) (certs_map : List cert_info_t)
    (cert_file : Bytes) (state : state_t)
    (_hrejected : env.SSL_CTX_set_cipher_list
      (if state.ciphers.head? = none then CIPHERS else state.ciphers) = false)
    (hcompiled : (create_ssl_for_cert env certs_map cert_file state).compiled = true) :
    ((create_ssl_for_cert env certs_map cert_file state).ret = none ↔
      (env.SSL_CTX_new ≠ none ∧
        (cert_file ≠ [] → env.SSL_CTX_use_certificate_chain_file cert_file = true ∧
          env.SSL_CTX_use_PrivateKey_file cert_file = true ∧
          env.SSL_CTX_check_private_key cert_file = true) ∧
        setup_dh env (null_if_empty state.dh_file) = true ∧
        env.alloc_info = true ∧ env.alloc_key = true)) ∧
    ((create_ssl_for_cert env certs_map cert_file state).ret = none →
      ∃ info ctx, HASH_FIND_STR (create_ssl_for_cert env certs_map cert_file state).certs_map
          (cache_key cert_file state.ciphers state.options state.dh_file state.ca_file)
          = some info ∧
        info.ssl_ctx = some ctx ∧
        ctx.ciphers = (if state.ciphers.head? = none then CIPHERS else state.ciphers)) ∧
    (∀ verdict : Bytes → Bool,
      create_ssl_for_cert { env with SSL_CTX_set_cipher_list := verdict } certs_map cert_file state
        = create_ssl_for_cert env certs_map cert_file state) := by
  refine ⟨?_, ?_, fun _ => rfl⟩
  · have hiff := create_new_ctx_ok_iff env (null_if_empty cert_file) state.ciphers
      (null_if_empty state.dh_file) (null_if_empty state.ca_file)
    have hcert : (∀ f, null_if_empty cert_file = some f →
          env.SSL_CTX_use_certificate_chain_file f = true ∧
          env.SSL_CTX_use_PrivateKey_file f = true ∧ env.SSL_CTX_check_private_key f = true) ↔
        (cert_file ≠ [] → env.SSL_CTX_use_certificate_chain_file cert_file = true ∧
          env.SSL_CTX_use_PrivateKey_file cert_file = true ∧
          env.SSL_CTX_check_private_key cert_file = true) := by
      unfold null_if_empty
      by_cases hc : cert_file = []
      · simp [hc]
      · simp [hc]
    rw [hcert] at hiff
    revert hcompiled
    unfold create_ssl_for_cert
    simp only
    rcases any_modified env (null_if_empty cert_file) (null_if_empty state.dh_file)
        (null_if_empty state.ca_file) _ _ _ with ⟨m, k1, k2, k3⟩
    have hbranch : ∀ r : Except String SSL_CTX,
        ((∃ ctx, r = .ok ctx) ↔ (env.SSL_CTX_new ≠ none ∧
          (cert_file ≠ [] → env.SSL_CTX_use_certificate_chain_file cert_file = true ∧
            env.SSL_CTX_use_PrivateKey_file cert_file = true ∧
            env.SSL_CTX_check_private_key cert_file = true) ∧
          setup_dh env (null_if_empty state.dh_file) = true)) →
        ((match r with
          | .error e =>
            ({ ret := some e, state := state, certs_map := certs_map, compiled := true }
              : resolved)
          | .ok ctx =>
            if env.alloc_info = true then
              if env.alloc_key = true then
                { ret := none, state := set_ctx env state ctx,
                  certs_map := (HASH_REPLACE_STR certs_map
                    { key := cache_key cert_file state.ciphers state.options state.dh_file
                        state.ca_file,
                      file := none, key_mtime := k1, dh_mtime := k2, ca_mtime := k3,
                      ssl_ctx := some ctx }).1, compiled := true }
              else
                { ret := some "Memory allocation failed", state := state,
                  certs_map := certs_map, compiled := true }
            else
              { ret := some "Memory allocation failed", state := state, certs_map := certs_map,
                compiled := true }).ret = none ↔
          (env.SSL_CTX_new ≠ none ∧
            (cert_file ≠ [] → env.SSL_CTX_use_certificate_chain_file cert_file = true ∧
              env.SSL_CTX_use_PrivateKey_file cert_file = true ∧
              env.SSL_CTX_check_private_key cert_file = true) ∧
            setup_dh env (null_if_empty state.dh_file) = true ∧
            env.alloc_info = true ∧ env.alloc_key = true)) := by
      intro r hr
      cases r with
      | error e =>
        have hno : ¬ ∃ ctx, (Except.error e : Except String SSL_CTX) = .ok ctx := by simp
        rw [hr] at hno
        constructor
        · intro h; simp at h
        · intro h; exact absurd ⟨h.1, h.2.1, h.2.2.1⟩ hno
      | ok ctx =>
        have hyes : ∃ c, (Except.ok ctx : Except String SSL_CTX) = .ok c := ⟨ctx, rfl⟩
        rw [hr] at hyes
        have h1 := hyes.1
        have h2 := hyes.2.1
        have h3 := hyes.2.2
        by_cases ha : env.alloc_info = true <;> by_cases hk : env.alloc_key = true
        · simp only [ha, hk, if_true, true_iff]
          exact ⟨h1, h2, h3, trivial, trivial⟩
        · simp [ha, hk]
        · simp [ha, hk]
        · simp [ha, hk]
    cases m with
    | true => intro _; exact hbranch _ hiff
    | false =>
      cases HASH_FIND_STR certs_map
          (cache_key cert_file state.ciphers state.options state.dh_file state.ca_file) with
      | none => intro _; exact hbranch _ hiff
      | some i => intro h; simp at h
  · revert hcompiled
    unfold create_ssl_for_cert
    simp only
    rcases any_modified env (null_if_empty cert_file) (null_if_empty state.dh_file)
        (null_if_empty state.ca_file) _ _ _ with ⟨m, k1, k2, k3⟩
    have hbranch : ∀ r : Except String SSL_CTX,
        r = create_new_ctx env (null_if_empty cert_file) state.ciphers
          (null_if_empty state.dh_file) (null_if_empty state.ca_file) →
        (match r with
          | .error e =>
            ({ ret := some e, state := state, certs_map := certs_map, compiled := true }
              : resolved)
          | .ok ctx =>
            if env.alloc_info = true then
              if env.alloc_key = true then
                { ret := none, state := set_ctx env state ctx,
                  certs_map := (HASH_REPLACE_STR certs_map
                    { key := cache_key cert_file state.ciphers state.options state.dh_file
                        state.ca_file,
                      file := none, key_mtime := k1, dh_mtime := k2, ca_mtime := k3,
                      ssl_ctx := some ctx }).1, compiled := true }
              else
                { ret := some "Memory allocation failed", state := state,
                  certs_map := certs_map, compiled := true }
            else
              { ret := some "Memory allocation failed", state := state, certs_map := certs_map,
                compiled := true }).ret = none →
        ∃ info ctx, HASH_FIND_STR (match r with
          | .error e =>
            ({ ret := some e, state := state, certs_map := certs_map, compiled := true }
              : resolved)
          | .ok ctx =>
            if env.alloc_info = true then
              if env.alloc_key = true then
                { ret := none, state := set_ctx env state ctx,
                  certs_map := (HASH_REPLACE_STR certs_map
                    { key := cache_key cert_file state.ciphers state.options state.dh_file
                        state.ca_file,
                      file := none, key_mtime := k1, dh_mtime := k2, ca_mtime := k3,
                      ssl_ctx := some ctx }).1, compiled := true }
              else
                { ret := some "Memory allocation failed", state := state,
                  certs_map := certs_map, compiled := true }
            else
              { ret := some "Memory allocation failed", state := state, certs_map := certs_map,
                compiled := true }).certs_map
            (cache_key cert_file state.ciphers state.options state.dh_file state.ca_file)
            = some info ∧
          info.ssl_ctx = some ctx ∧
          ctx.ciphers = (if state.ciphers.head? = none then CIPHERS else state.ciphers) := by
      intro r hr
      cases r with
      | error e => intro h; simp at h
      | ok ctx =>
        have hc := create_new_ctx_ciphers env _ _ _ _ ctx hr.symm
        by_cases ha : env.alloc_info = true <;> by_cases hk : env.alloc_key = true <;>
          simp only [ha, hk, if_true, if_false, Bool.false_eq_true, reduceCtorEq,
            false_implies, forall_true_left]
        exact ⟨_, ctx, find_replace_same certs_map _, rfl, hc⟩
    cases m with
    | true => intro _; exact hbranch _ rfl
    | false =>
      cases HASH_FIND_STR certs_map
          (cache_key cert_file state.ciphers state.options state.dh_file state.ca_file) with
      | none => intro _; exact hbranch _ rfl
      | some i => intro h; simp at h

/-- C8, witness: the engine rejects the list `NO-SUCH-CIPHER`, every checked
step succeeds, and the resolve on the empty cache returns no error. -/
theorem rejected_cipher_list_is_no_failure_witness :
    (create_ssl_for_cert (env_bad_ciphers stat_cert_dh 1) [] (bytes "cert.pem")
      (session_for (bytes "cert.pem") (bytes "NO-SUCH-CIPHER") 0 [] [])).ret = none :=
  (rejected_cipher_list_is_no_failure (env_bad_ciphers stat_cert_dh 1) [] (bytes "cert.pem")
    (session_for (bytes "cert.pem") (bytes "NO-SUCH-CIPHER") 0 [] [])
    (by decide) (by decide)).1.2 (by decide)

/-- C8, as stated, fails: with a cipher list that the engine rejects and every
other step succeeding, resolve returns no error and publishes the new context
into the cache. -/
theorem bad_ciphers_still_published :
    (env_bad_ciphers stat_cert_dh 1).SSL_CTX_set_cipher_list (bytes "NO-SUCH-CIPHER") = false ∧
    resolve_bad_ciphers.ret = none ∧ resolve_bad_ciphers.compiled = true ∧
    (HASH_FIND_STR resolve_bad_ciphers.certs_map
      (cache_key (bytes "cert.pem") (bytes "NO-SUCH-CIPHER") 0 [] [])).isSome = true ∧
    resolve_bad_ciphers.state.ssl.map (fun x => x.ctx.ciphers)
      = some (bytes "NO-SUCH-CIPHER") := by
  decide

theorem is_modified_null_if_empty (env : Env) (file : Bytes) (known : Int) :
    (is_modified env (null_if_empty file) known).1 = true ↔
      file ≠ [] ∧ env.stat file ≠ some known := by
  unfold is_modified null_if_empty
  by_cases hf : file = []
  · simp [hf]
  · simp only [List.length_eq_zero, hf, if_false]
    cases hs : env.stat file with
    | none => simp [hf]
    | some t =>
      by_cases ht : known = t
      · simp [ht]
      · have : ¬ t = known := fun h => ht h.symm
        simp [ht, this, hf]

theorem any_modified_fst (env : Env) (c d a : Option Bytes) (k1 k2 k3 : Int) :
    (any_modified env c d a k1 k2 k3).1 =
      ((is_modified env c k1).1 || (is_modified env d k2).1 || (is_modified env a k3).1) := by
  unfold any_modified
  rcases is_modified env c k1 with ⟨_ | _, t1⟩ <;>
    rcases is_modified env d k2 with ⟨_ | _, t2⟩ <;>
    rcases is_modified env a k3 with ⟨_ | _, t3⟩ <;> rfl

/-- C5, evaluated: the certificate `cert.pem` and the DH parameters `dh.pem`
exist and their modification times never change.  The first resolve of
`("cert.pem", "", "dh.pem", "", 0)` succeeds and records the modification time
of the certificate only (the `||` stops at the first changed file); the second
resolve of the same tuple finds the recorded DH time `0` different from the
file's `200`, compiles again and binds its session to the new context. -/
theorem second_resolve_recompiles :
    first_resolve.ret = none ∧
    (HASH_FIND_STR first_resolve.certs_map
      (cache_key (bytes "cert.pem") [] 0 (bytes "dh.pem") [])).map
      (fun i => (i.key_mtime, i.dh_mtime)) = some (100, 0) ∧
    second_resolve.ret = none ∧ second_resolve.compiled = true ∧
    second_resolve.state.ssl ≠ first_resolve.state.ssl ∧
    first_resolve.state.ssl.map (fun x => x.ctx.id) = some 1 ∧
    second_resolve.state.ssl.map (fun x => x.ctx.id) = some 2 := by
  decide

/-- C6: staleness triggers recompilation.  Given the cache item `info` of the
key, call the item stale when one of the three watched paths is non-empty and
its current `stat` time differs from the recorded one or `stat` fails.  A
resolve on a stale item calls `create_new_ctx` and, when it returns no error,
binds the session to the new context and replaces the item under the same key
by one that carries the new context.  A resolve on an item that is not stale
(empty paths never count) compiles nothing and leaves the cache alone.
`is_modified` answers no for a `NULL` path, and answers yes with the time reset
to zero when `stat` fails. -/
theorem stale_entry_recompiles (env : Env) (certs_map : List cert_info_t) (cert_file : Bytes)
    (state : state_t) (info : cert_info_t)
    (hfind : HASH_FIND_STR certs_map
      (cache_key cert_file state.ciphers state.options state.dh_file state.ca_file) = some info) :
    (((cert_file ≠ [] ∧ env.stat cert_file ≠ some info.key_mtime) ∨
      (state.dh_file ≠ [] ∧ env.stat state.dh_file ≠ some info.dh_mtime) ∨
      (state.ca_file ≠ [] ∧ env.stat state.ca_file ≠ some info.ca_mtime)) →
      (create_ssl_for_cert env certs_map cert_file state).compiled = true ∧
      ((create_ssl_for_cert env certs_map cert_file state).ret = none →
        ∃ ctx new_info,
          create_new_ctx env (null_if_empty cert_file) state.ciphers
            (null_if_empty state.dh_file) (null_if_empty state.ca_file) = .ok ctx ∧
          new_info.key =
            cache_key cert_file state.ciphers state.options state.dh_file state.ca_file ∧
          new_info.ssl_ctx = some ctx ∧
          (create_ssl_for_cert env certs_map cert_file state).certs_map =
            new_info :: HASH_DEL certs_map new_info.key ∧
          HASH_FIND_STR (create_ssl_for_cert env certs_map cert_file state).certs_map
            new_info.key = some new_info ∧
          (create_ssl_for_cert env certs_map cert_file state).state = set_ctx env state ctx)) ∧
    (¬ ((cert_file ≠ [] ∧ env.stat cert_file ≠ some info.key_mtime) ∨
      (state.dh_file ≠ [] ∧ env.stat state.dh_file ≠ some info.dh_mtime) ∨
      (state.ca_file ≠ [] ∧ env.stat state.ca_file ≠ some info.ca_mtime)) →
      (create_ssl_for_cert env certs_map cert_file state).compiled = false ∧
      (create_ssl_for_cert env certs_map cert_file state).ret = none ∧
      (create_ssl_for_cert env certs_map cert_file state).certs_map = certs_map) ∧
    (∀ t, is_modified env none t = (false, t)) ∧
    (∀ f t, env.stat f = none → is_modified env (some f) t = (true, 0)) := by
  have hm := any_modified_fst env (null_if_empty cert_file) (null_if_empty state.dh_file)
    (null_if_empty state.ca_file) info.key_mtime info.dh_mtime info.ca_mtime
  have e1 := is_modified_null_if_empty env cert_file info.key_mtime
  have e2 := is_modified_null_if_empty env state.dh_file info.dh_mtime
  have e3 := is_modified_null_if_empty env state.ca_file info.ca_mtime
  refine ⟨?_, ?_, fun t => rfl, fun f t h => by simp [is_modified, h]⟩
  · intro hstale
    have hmod : (any_modified env (null_if_empty cert_file) (null_if_empty state.dh_file)
        (null_if_empty state.ca_file) info.key_mtime info.dh_mtime info.ca_mtime).1 = true := by
      rw [hm]
      rcases hstale with h | h | h
      · simp [e1.2 h]
      · simp [e2.2 h]
      · simp [e3.2 h]
    unfold create_ssl_for_cert
    simp only [hfind]
    rcases hres : any_modified env (null_if_empty cert_file) (null_if_empty state.dh_file)
        (null_if_empty state.ca_file) info.key_mtime info.dh_mtime info.ca_mtime
      with ⟨m, k1, k2, k3⟩
    rw [hres] at hmod
    simp only at hmod
    subst hmod
    simp only
    cases hc : create_new_ctx env (null_if_empty cert_file) state.ciphers
        (null_if_empty state.dh_file) (null_if_empty state.ca_file) with
    | error e => simp
    | ok ctx =>
      by_cases ha : env.alloc_info = true <;> by_cases hk : env.alloc_key = true <;>
        simp only [ha, hk, if_true, if_false, true_and, false_implies, reduceCtorEq,
          Bool.false_eq_true, implies_true, and_self]
      intro _
      exact ⟨ctx, _, rfl, rfl, rfl, rfl, find_replace_same certs_map _, rfl⟩
  · intro hfresh
    have hmod : (any_modified env (null_if_empty cert_file) (null_if_empty state.dh_file)
        (null_if_empty state.ca_file) info.key_mtime info.dh_mtime info.ca_mtime).1 = false := by
      rw [hm]
      simp only [not_or] at hfresh
      have h1 : (is_modified env (null_if_empty cert_file) info.key_mtime).1 = false :=
        Bool.eq_false_iff.2 (fun h => hfresh.1 (e1.1 h))
      have h2 : (is_modified env (null_if_empty state.dh_file) info.dh_mtime).1 = false :=
        Bool.eq_false_iff.2 (fun h => hfresh.2.1 (e2.1 h))
      have h3 : (is_modified env (null_if_empty state.ca_file) info.ca_mtime).1 = false :=
        Bool.eq_false_iff.2 (fun h => hfresh.2.2 (e3.1 h))
      rw [h1, h2, h3]
      rfl
    unfold create_ssl_for_cert
    simp only [hfind]
    rcases hres : any_modified env (null_if_empty cert_file) (null_if_empty state.dh_file)
        (null_if_empty state.ca_file) info.key_mtime info.dh_mtime info.ca_mtime
      with ⟨m, k1, k2, k3⟩
    rw [hres] at hmod
    simp only at hmod
    subst hmod
    simp

/-- C6, witness: the cache holds the item compiled for `cert.pem` at time 100;
the file now has time 101, and the resolve compiles again. -/
theorem stale_entry_recompiles_witness :
    (create_ssl_for_cert (env_good stat_touched 2)
      (create_ssl_for_cert (env_good stat_cert_dh 1) [] (bytes "cert.pem")
        (session_for (bytes "cert.pem") [] 0 [] [])).certs_map
      (bytes "cert.pem") (session_for (bytes "cert.pem") [] 0 [] [])).compiled = true :=
  ((stale_entry_recompiles (env_good stat_touched 2)
      (create_ssl_for_cert (env_good stat_cert_dh 1) [] (bytes "cert.pem")
        (session_for (bytes "cert.pem") [] 0 [] [])).certs_map
      (bytes "cert.pem") (session_for (bytes "cert.pem") [] 0 [] [])
      { key := cache_key (bytes "cert.pem") [] 0 [] [], file := none, key_mtime := 100,
        dh_mtime := 0, ca_mtime := 0,
        ssl_ctx := some { id := 1, cert_file := some (bytes "cert.pem"), ciphers := CIPHERS,
                          dh_file := none, ca_file := none } }
      (by decide)).1 (Or.inl (by decide))).1

/-- The function `create_new_ctx` returns a context exactly when no step that
it checks fails, and otherwise one of its five texts. -/
theorem create_new_ctx_cases (env : Env) (c : Option Bytes) (p : Bytes) (d a : Option Bytes) :
    (∃ ctx, create_new_ctx env c p d a = .ok ctx ∧ env.SSL_CTX_new ≠ none ∧
      (∀ f, c = some f → env.SSL_CTX_use_certificate_chain_file f = true ∧
        env.SSL_CTX_use_PrivateKey_file f = true ∧ env.SSL_CTX_check_private_key f = true) ∧
      setup_dh env d = true) ∨
    (∃ msg, create_new_ctx env c p d a = .error msg ∧ msg ∈ resolve_errors) := by
  unfold create_new_ctx
  cases hn : env.SSL_CTX_new with
  | none => right; exact ⟨_, rfl, by decide⟩
  | some id =>
    cases c with
    | none =>
      by_cases hd : setup_dh env d = true
      · left; simp [hd]
      · right; simp only [hd]; exact ⟨_, rfl, by decide⟩
    | some f =>
      by_cases h1 : env.SSL_CTX_use_certificate_chain_file f = true
      · by_cases h2 : env.SSL_CTX_use_PrivateKey_file f = true
        · by_cases h3 : env.SSL_CTX_check_private_key f = true
          · by_cases hd : setup_dh env d = true
            · left; simp [h1, h2, h3, hd]
            · right; simp only [h1, h2, h3, hd]; exact ⟨_, rfl, by decide⟩
          · right; simp only [h1, h2, h3]; exact ⟨_, rfl, by decide⟩
        · right; simp only [h1, h2]; exact ⟨_, rfl, by decide⟩
      · right; simp only [h1]; exact ⟨_, rfl, by decide⟩

/-- C7: compile failure is atomic for the cache.  Whenever a resolve compiles
and the compilation fails (`SSL_CTX_new` fails, or for a non-empty certificate
path the chain load, the private-key load or the key/chain check fails, or the
DH setup fails, or an allocation fails), it returns one of its six non-empty
error texts, the cache is the one from before the call, and the session,
its bound context included, is not changed. -/
theorem compile_failure_atomic (env : Env) (certs_map : List cert_info_t) (cert_file : Bytes)
    (state : state_t)
    (hcompiled : (create_ssl_for_cert env certs_map cert_file state).compiled = true)
    (hfail : env.SSL_CTX_new = none ∨
      (cert_file ≠ [] ∧ (env.SSL_CTX_use_certificate_chain_file cert_file = false ∨
        env.SSL_CTX_use_PrivateKey_file cert_file = false ∨
        env.SSL_CTX_check_private_key cert_file = false)) ∨
      setup_dh env (null_if_empty state.dh_file) = false ∨
      env.alloc_info = false ∨ env.alloc_key = false) :
    ∃ msg, (create_ssl_for_cert env certs_map cert_file state).ret = some msg ∧
      msg ∈ resolve_errors ∧ msg ≠ "" ∧
      (create_ssl_for_cert env certs_map cert_file state).certs_map = certs_map ∧
      (create_ssl_for_cert env certs_map cert_file state).state = state ∧
      (create_ssl_for_cert env certs_map cert_file state).state.ssl = state.ssl := by
  have hne : ∀ msg ∈ resolve_errors, msg ≠ "" := by decide
  suffices h : ∃ msg, (create_ssl_for_cert env certs_map cert_file state).ret = some msg ∧
      msg ∈ resolve_errors ∧
      (create_ssl_for_cert env certs_map cert_file state).certs_map = certs_map ∧
      (create_ssl_for_cert env certs_map cert_file state).state = state by
    obtain ⟨msg, h1, h2, h3, h4⟩ := h
    exact ⟨msg, h1, h2, hne msg h2, h3, h4, by rw [h4]⟩
  revert hcompiled
  unfold create_ssl_for_cert
  simp only
  rcases any_modified env (null_if_empty cert_file) (null_if_empty state.dh_file)
      (null_if_empty state.ca_file) _ _ _ with ⟨m, k1, k2, k3⟩
  have hcompile_branch :
      ∃ msg, (match create_new_ctx env (null_if_empty cert_file) state.ciphers
          (null_if_empty state.dh_file) (null_if_empty state.ca_file) with
        | .error e =>
          ({ ret := some e, state := state, certs_map := certs_map, compiled := true } : resolved)
        | .ok ctx =>
          if env.alloc_info = true then
            if env.alloc_key = true then
              { ret := none, state := set_ctx env state ctx,
                certs_map := (HASH_REPLACE_STR certs_map
                  { key := cache_key cert_file state.ciphers state.options state.dh_file
                      state.ca_file,
                    file := none, key_mtime := k1, dh_mtime := k2, ca_mtime := k3,
                    ssl_ctx := some ctx }).1, compiled := true }
            else
              { ret := some "Memory allocation failed", state := state, certs_map := certs_map,
                compiled := true }
          else
            { ret := some "Memory allocation failed", state := state, certs_map := certs_map,
              compiled := true }).ret = some msg ∧ msg ∈ resolve_errors ∧
        (match create_new_ctx env (null_if_empty cert_file) state.ciphers
          (null_if_empty state.dh_file) (null_if_empty state.ca_file) with
        | .error e =>
          ({ ret := some e, state := state, certs_map := certs_map, compiled := true } : resolved)
        | .ok ctx =>
          if env.alloc_info = true then
            if env.alloc_key = true then
              { ret := none, state := set_ctx env state ctx,
                certs_map := (HASH_REPLACE_STR certs_map
                  { key := cache_key cert_file state.ciphers state.options state.dh_file
                      state.ca_file,
                    file := none, key_mtime := k1, dh_mtime := k2, ca_mtime := k3,
                    ssl_ctx := some ctx }).1, compiled := true }
            else
              { ret := some "Memory allocation failed", state := state, certs_map := certs_map,
                compiled := true }
          else
            { ret := some "Memory allocation failed", state := state, certs_map := certs_map,
              compiled := true }).certs_map = certs_map ∧
        (match create_new_ctx env (null_if_empty cert_file) state.ciphers
          (null_if_empty state.dh_file) (null_if_empty state.ca_file) with
        | .error e =>
          ({ ret := some e, state := state, certs_map := certs_map, compiled := true } : resolved)
        | .ok ctx =>
          if env.alloc_info = true then
            if env.alloc_key = true then
              { ret := none, state := set_ctx env state ctx,
                certs_map := (HASH_REPLACE_STR certs_map
                  { key := cache_key cert_file state.ciphers state.options state.dh_file
                      state.ca_file,
                    file := none, key_mtime := k1, dh_mtime := k2, ca_mtime := k3,
                    ssl_ctx := some ctx }).1, compiled := true }
            else
              { ret := some "Memory allocation failed", state := state, certs_map := certs_map,
                compiled := true }
          else
            { ret := some "Memory allocation failed", state := state, certs_map := certs_map,
              compiled := true }).state = state := by
    rcases create_new_ctx_cases env (null_if_empty cert_file) state.ciphers
        (null_if_empty state.dh_file) (null_if_empty state.ca_file)
      with ⟨ctx, hok, hnew, hcert, hdh⟩ | ⟨msg, herr, hmem⟩
    · rw [hok]
      rcases hfail with h | ⟨hcf, h⟩ | h | h | h
      · exact absurd h hnew
      · have hsome : null_if_empty cert_file = some cert_file := by
          simp [null_if_empty, hcf]
        obtain ⟨a1, a2, a3⟩ := hcert cert_file hsome
        rcases h with h | h | h
        · rw [a1] at h; exact absurd h (by decide)
        · rw [a2] at h; exact absurd h (by decide)
        · rw [a3] at h; exact absurd h (by decide)
      · rw [hdh] at h; exact absurd h (by decide)
      · simp only [h, Bool.false_eq_true, if_false]
        exact ⟨_, rfl, by decide, by trivial, by trivial⟩
      · by_cases hi : env.alloc_info = true
        · simp only [hi, h, Bool.false_eq_true, if_false, if_true]
          exact ⟨_, rfl, by decide, by trivial, by trivial⟩
        · simp only [hi, if_false]
          exact ⟨_, rfl, by decide, by trivial, by trivial⟩
    · rw [herr]
      exact ⟨msg, rfl, hmem, rfl, rfl⟩
  cases m with
  | true => intro _; exact hcompile_branch
  | false =>
    cases HASH_FIND_STR certs_map
        (cache_key cert_file state.ciphers state.options state.dh_file state.ca_file) with
    | none => intro _; exact hcompile_branch
    | some i => intro h; simp at h

/-- C7, witness: the key of `cert.pem` does not match its chain; the resolve
on the empty cache compiles and fails. -/
theorem compile_failure_atomic_witness :
    ∃ msg, (create_ssl_for_cert (env_key_mismatch stat_cert_dh 1) [] (bytes "cert.pem")
        (session_for (bytes "cert.pem") [] 0 [] [])).ret = some msg ∧
      msg ∈ resolve_errors ∧ msg ≠ "" ∧
      (create_ssl_for_cert (env_key_mismatch stat_cert_dh 1) [] (bytes "cert.pem")
        (session_for (bytes "cert.pem") [] 0 [] [])).certs_map = [] ∧
      (create_ssl_for_cert (env_key_mismatch stat_cert_dh 1) [] (bytes "cert.pem")
        (session_for (bytes "cert.pem") [] 0 [] [])).state =
        session_for (bytes "cert.pem") [] 0 [] [] ∧
      (create_ssl_for_cert (env_key_mismatch stat_cert_dh 1) [] (bytes "cert.pem")
        (session_for (bytes "cert.pem") [] 0 [] [])).state.ssl =
        (session_for (bytes "cert.pem") [] 0 [] []).ssl :=
  compile_failure_atomic (env_key_mismatch stat_cert_dh 1) [] (bytes "cert.pem")
    (session_for (bytes "cert.pem") [] 0 [] []) (by decide)
    (Or.inr (Or.inl ⟨by decide, Or.inr (Or.inr (by decide))⟩))

/-! ## The hostname callback: claims -/

theorem set_ctx_sni_error (env : Env) (state : state_t) (ctx : SSL_CTX) :
    (set_ctx env state ctx).sni_error = state.sni_error := by
  unfold set_ctx
  cases state.ssl <;> rfl

theorem create_ssl_for_cert_sni_error (env : Env) (certs_map : List cert_info_t)
    (cert_file : Bytes) (state : state_t) :
    (create_ssl_for_cert env certs_map cert_file state).state.sni_error = state.sni_error := by
  unfold create_ssl_for_cert
  simp only
  rcases any_modified env (null_if_empty cert_file) (null_if_empty state.dh_file)
      (null_if_empty state.ca_file) _ _ _ with ⟨m, k1, k2, k3⟩
  have hb : ∀ r : Except String SSL_CTX,
      (match r with
        | .error e =>
          ({ ret := some e, state := state, certs_map := certs_map, compiled := true } : resolved)
        | .ok ctx =>
          if env.alloc_info = true then
            if env.alloc_key = true then
              { ret := none, state := set_ctx env state ctx,
                certs_map := (HASH_REPLACE_STR certs_map
                  { key := cache_key cert_file state.ciphers state.options state.dh_file
                      state.ca_file,
                    file := none, key_mtime := k1, dh_mtime := k2, ca_mtime := k3,
                    ssl_ctx := some ctx }).1, compiled := true }
            else
              { ret := some "Memory allocation failed", state := state, certs_map := certs_map,
                compiled := true }
          else
            { ret := some "Memory allocation failed", state := state, certs_map := certs_map,
              compiled := true }).state.sni_error = state.sni_error := by
    intro r
    cases r with
    | error e => rfl
    | ok ctx =>
      by_cases ha : env.alloc_info = true <;> by_cases hk : env.alloc_key = true <;>
        simp only [ha, hk, if_true, if_false, Bool.false_eq_true, set_ctx_sni_error]
  cases m with
  | true => exact hb _
  | false =>
    cases HASH_FIND_STR certs_map
        (cache_key cert_file state.ciphers state.options state.dh_file state.ca_file) with
    | none => exact hb _
    | some i =>
      simp only
      cases i.ssl_ctx with
      | none => rfl
      | some ctx => exact set_ctx_sni_error env state ctx

theorem lookup_certfile_file (m : List cert_info_t) (d : Option Bytes) (info : cert_info_t)
    (h : lookup_certfile m d = some info) : ∃ f, info.file = some f := by
  have key : ∀ r : Option cert_info_t, has_file r = true → r = some info →
      ∃ f, info.file = some f := by
    intro r hr he
    subst he
    exact Option.isSome_iff_exists.1 hr
  unfold lookup_certfile at h
  cases d with
  | none => simp at h
  | some d =>
    simp only at h
    split_ifs at h with h0 h1 h2 h3
    · exact key _ h1 h
    · exact key _ h3 h

/-- C10: the hostname callback returns the fatal alert exactly in two cases:
(a) the directory resolves the hostname to a file that differs from the
session's certificate file and the resolve for that file returns an error, and
then the recorded SNI failure message is that error; (b) no directory item
matches (or no hostname was sent) and the session's certificate file is empty,
and then the recorded message is the text about no matching certificate.  In
every other case the callback returns OK and the recorded message is the one
from before the call. -/
theorem sni_callback_fatal_exactly (env : Env) (certfiles_map certs_map : List cert_info_t)
    (servername : Option Bytes) (state : state_t) :
    ((ssl_sni_callback env certfiles_map certs_map servername state).ret
        = SSL_TLSEXT_ERR_ALERT_FATAL ↔
      ((∃ info file, lookup_certfile certfiles_map servername = some info ∧
          info.file = some file ∧ file ≠ state.cert_file ∧
          (create_ssl_for_cert env certs_map file state).ret ≠ none) ∨
        (lookup_certfile certfiles_map servername = none ∧ state.cert_file = []))) ∧
    (∀ info file msg, lookup_certfile certfiles_map servername = some info →
      info.file = some file → file ≠ state.cert_file →
      (create_ssl_for_cert env certs_map file state).ret = some msg →
      (ssl_sni_callback env certfiles_map certs_map servername state).ret
        = SSL_TLSEXT_ERR_ALERT_FATAL ∧
      (ssl_sni_callback env certfiles_map certs_map servername state).state.sni_error
        = some msg) ∧
    (lookup_certfile certfiles_map servername = none → state.cert_file = [] →
      (ssl_sni_callback env certfiles_map certs_map servername state).ret
        = SSL_TLSEXT_ERR_ALERT_FATAL ∧
      (ssl_sni_callback env certfiles_map certs_map servername state).state.sni_error
        = some "Failed to find a certificate matching the domain in SNI extension") ∧
    (¬ ((∃ info file, lookup_certfile certfiles_map servername = some info ∧
          info.file = some file ∧ file ≠ state.cert_file ∧
          (create_ssl_for_cert env certs_map file state).ret ≠ none) ∨
        (lookup_certfile certfiles_map servername = none ∧ state.cert_file = [])) →
      (ssl_sni_callback env certfiles_map certs_map servername state).ret = SSL_TLSEXT_ERR_OK ∧
      (ssl_sni_callback env certfiles_map certs_map servername state).state.sni_error
        = state.sni_error) := by
  unfold ssl_sni_callback
  cases hl : lookup_certfile certfiles_map servername with
  | none =>
    by_cases hc : state.cert_file = []
    · simp [hc, SSL_TLSEXT_ERR_ALERT_FATAL]
    · simp [hc, SSL_TLSEXT_ERR_ALERT_FATAL, SSL_TLSEXT_ERR_OK]
  | some info =>
    obtain ⟨file, hf⟩ := lookup_certfile_file _ _ _ hl
    simp only [hf]
    by_cases hd : file = state.cert_file
    · simp [hd, hf, SSL_TLSEXT_ERR_ALERT_FATAL, SSL_TLSEXT_ERR_OK]
      intro i f m hi hfi hne
      subst hi
      have hff : f = file := by rw [hf] at hfi; exact (Option.some.inj hfi).symm
      subst hff
      exact absurd hd hne
    · cases hr : (create_ssl_for_cert env certs_map file state).ret with
      | none =>
        have hs := create_ssl_for_cert_sni_error env certs_map file state
        simp [hd, hf, hr, hs, SSL_TLSEXT_ERR_ALERT_FATAL, SSL_TLSEXT_ERR_OK]
        intro i f m hi hfi hne
        subst hi
        have hff : f = file := by rw [hf] at hfi; exact (Option.some.inj hfi).symm
        subst hff
        rw [hr]
        simp
      | some msg =>
        simp [hd, hf, hr, SSL_TLSEXT_ERR_ALERT_FATAL]
        intro i f m hi hfi hne
        subst hi
        have hff : f = file := by rw [hf] at hfi; exact (Option.some.inj hfi).symm
        subst hff
        intro h
        rw [hr] at h
        exact Option.some.inj h

/-! ## The session operations: claims -/

/-- C18: the cache key fits its buffer.  For all strings `cert_file`, `ciphers`,
`dh_file`, `ca_file` and every option bitmask below `2^32`, the key that
`sprintf` formats has length `key_size - 1`, so the key and its terminating NUL
occupy exactly the `key_size` bytes of the array `key`. -/
theorem cache_key_fits_buffer (cert_file ciphers dh_file ca_file : Bytes) (options : Nat)
    (hoptions : options < 2 ^ 32) :
    (cache_key cert_file ciphers options dh_file ca_file).length
        = key_size cert_file ciphers dh_file ca_file - 1 ∧
    (cache_key cert_file ciphers options dh_file ca_file).length + 1
        = key_size cert_file ciphers dh_file ca_file ∧
    (fmt_08lx options).length = 8 := by
  have h := fmt_08lx_length options hoptions
  unfold cache_key key_size
  simp only [List.length_append, h]
  exact ⟨by omega, trivial, trivial⟩

/-- C18, witness: the key of `("cert.pem", "", 0x300, "dh.pem", "")`. -/
theorem cache_key_fits_buffer_witness :
    (cache_key (bytes "cert.pem") [] 0x300 (bytes "dh.pem") []).length
        = key_size (bytes "cert.pem") [] (bytes "dh.pem") [] - 1 ∧
    (cache_key (bytes "cert.pem") [] 0x300 (bytes "dh.pem") []).length + 1
        = key_size (bytes "cert.pem") [] (bytes "dh.pem") [] ∧
    (fmt_08lx 0x300).length = 8 :=
  cache_key_fits_buffer (bytes "cert.pem") [] (bytes "dh.pem") [] 0x300 (by decide)

theorem nif_call_run_of_invalid (certfiles_map certs_map : List cert_info_t) (state : state_t)
    (hcreated : state.ssl ≠ none) (hinvalid : state.valid = false) (call : nif_call)
    (hcall : call.invalidates = false) :
    call.run certfiles_map (state, certs_map) =
      { term := .error_atom "closed", state := state, certs_map := certs_map,
        engine_ops := [] } := by
  obtain ⟨ssl, hssl⟩ := Option.ne_none_iff_exists'.1 hcreated
  cases call with
  | invalidate => exact absurd hcall (by decide)
  | set_encrypted_input input =>
    simp [nif_call.run, set_encrypted_input_nif, hssl, hinvalid]
  | get_encrypted_output script =>
    simp [nif_call.run, get_encrypted_output_nif, hssl, hinvalid]
  | set_decrypted_output script input =>
    simp [nif_call.run, set_decrypted_output_nif, hssl, hinvalid]
  | get_decrypted_input script req_size =>
    simp [nif_call.run, get_decrypted_input_nif, hssl, hinvalid]
  | get_verify_result script =>
    simp [nif_call.run, get_verify_result_nif, hssl, hinvalid]
  | get_peer_certificate script =>
    simp [nif_call.run, get_peer_certificate_nif, hssl, hinvalid]

theorem nif_call_run_valid_false (certfiles_map certs_map : List cert_info_t) (state : state_t)
    (hinvalid : state.valid = false) (call : nif_call) :
    (call.run certfiles_map (state, certs_map)).state.valid = false := by
  cases hssl : state.ssl with
  | none =>
    cases call <;>
      simp [nif_call.run, set_encrypted_input_nif, get_encrypted_output_nif,
        set_decrypted_output_nif, get_decrypted_input_nif, get_verify_result_nif,
        get_peer_certificate_nif, invalidate_nif, hssl, hinvalid]
  | some ssl =>
    cases call <;>
      simp [nif_call.run, set_encrypted_input_nif, get_encrypted_output_nif,
        set_decrypted_output_nif, get_decrypted_input_nif, get_verify_result_nif,
        get_peer_certificate_nif, invalidate_nif, hssl, hinvalid]

theorem run_calls_valid_false (certfiles_map : List cert_info_t) (calls : List nif_call) :
    ∀ (w : state_t × List cert_info_t), w.1.valid = false →
      (run_calls certfiles_map w calls).1.valid = false := by
  induction calls with
  | nil => intro w h; exact h
  | cons c rest ih =>
    intro w h
    unfold run_calls
    rw [List.foldl_cons]
    exact ih _ (nif_call_run_valid_false certfiles_map w.2 w.1 h c)

theorem invalidate_nif_of_invalid (certs_map : List cert_info_t) (state : state_t)
    (hcreated : state.ssl ≠ none) (hinvalid : state.valid = false) :
    invalidate_nif certs_map state =
      { term := .atom "ok", state := state, certs_map := certs_map, engine_ops := [] } := by
  obtain ⟨ssl, hssl⟩ := Option.ne_none_iff_exists'.1 hcreated
  cases state
  simp only at hssl hinvalid
  subst hinvalid
  simp [invalidate_nif, hssl]

theorem run_calls_of_invalid (certfiles_map : List cert_info_t) (calls : List nif_call)
    (certs_map : List cert_info_t) (state : state_t)
    (hcreated : state.ssl ≠ none) (hinvalid : state.valid = false) :
    run_calls certfiles_map (state, certs_map) calls = (state, certs_map) := by
  induction calls with
  | nil => rfl
  | cons c rest ih =>
    unfold run_calls at ih ⊢
    rw [List.foldl_cons]
    cases hc : c.invalidates with
    | false =>
      rw [nif_call_run_of_invalid certfiles_map certs_map state hcreated hinvalid c hc]
      exact ih
    | true =>
      cases c <;> simp [nif_call.invalidates] at hc
      simp only [nif_call.run]
      rw [invalidate_nif_of_invalid certs_map state hcreated hinvalid]
      exact ih

/-- C12: invalidate is terminal.  On a created session (one with an engine
handle) `invalidate_nif` returns `ok` and clears the validity flag, and a second
invalidation changes nothing more.  No sequence of calls sets a cleared flag
again.  On a created session whose flag is cleared, each of the six other
operations returns `{error, closed}`, leaves the session (buffers, pending
writes, handshake counter, engine handle) and the cache as they are, and makes
no call into the engine; and this stays so after any further calls. -/
theorem invalidate_is_terminal (certfiles_map certs_map : List cert_info_t) (state : state_t)
    (hcreated : state.ssl ≠ none) :
    (invalidate_nif certs_map state).term = .atom "ok" ∧
    (invalidate_nif certs_map state).state = { state with valid := false } ∧
    (invalidate_nif certs_map (invalidate_nif certs_map state).state).state
      = (invalidate_nif certs_map state).state ∧
    (∀ (session : state_t) (cache : List cert_info_t) (calls : List nif_call),
      session.valid = false → (run_calls certfiles_map (session, cache) calls).1.valid = false) ∧
    (state.valid = false → ∀ call : nif_call, call.invalidates = false →
      call.run certfiles_map (state, certs_map) =
        { term := .error_atom "closed", state := state, certs_map := certs_map,
          engine_ops := [] }) ∧
    (∀ (calls : List nif_call) (call : nif_call), call.invalidates = false →
      call.run certfiles_map
          (run_calls certfiles_map ((invalidate_nif certs_map state).state, certs_map) calls) =
        { term := .error_atom "closed", state := (invalidate_nif certs_map state).state,
          certs_map := certs_map, engine_ops := [] }) := by
  obtain ⟨ssl, hssl⟩ := Option.ne_none_iff_exists'.1 hcreated
  have hinv : (invalidate_nif certs_map state).state = { state with valid := false } := by
    simp [invalidate_nif, hssl]
  have hcreated2 : ({ state with valid := false } : state_t).ssl ≠ none := hcreated
  refine ⟨by simp [invalidate_nif, hssl], hinv, ?_, ?_, ?_, ?_⟩
  · rw [hinv, invalidate_nif_of_invalid certs_map _ hcreated2 rfl]
  · intro session cache calls h
    exact run_calls_valid_false certfiles_map calls (session, cache) h
  · intro h call hcall
    exact nif_call_run_of_invalid certfiles_map certs_map state hcreated h call hcall
  · intro calls call hcall
    rw [hinv, run_calls_of_invalid certfiles_map calls certs_map _ hcreated2 rfl]
    exact nif_call_run_of_invalid certfiles_map certs_map _ hcreated2 rfl call hcall

/-- C12, witness: on an invalidated session with bytes in both memory buffers,
`read_plaintext` returns `{error, closed}` and changes nothing. -/
theorem invalidate_is_terminal_witness :
    get_decrypted_input_nif [] script_idle [] session_invalidated 0 =
      { term := .error_atom "closed", state := session_invalidated, certs_map := [],
        engine_ops := [] } :=
  (invalidate_is_terminal [] [] session_invalidated (by decide)).2.2.2.2.1 (by decide)
    (.get_decrypted_input script_idle 0) rfl

/-! ## Facts about the engine's callbacks -/

theorem engine_touched_refl (s : state_t) : engine_touched s s :=
  ⟨rfl, rfl, rfl, rfl, rfl, rfl, rfl, rfl, rfl, rfl, rfl, rfl, fun h => h, le_refl _⟩

theorem engine_touched_trans {s1 s2 s3 : state_t} (h12 : engine_touched s1 s2)
    (h23 : engine_touched s2 s3) : engine_touched s1 s3 :=
  ⟨h23.valid.trans h12.valid, h23.send_buffer.trans h12.send_buffer,
   h23.send_buffer_size.trans h12.send_buffer_size,
   h23.send_buffer_len.trans h12.send_buffer_len,
   h23.send_buffer2.trans h12.send_buffer2,
   h23.send_buffer2_size.trans h12.send_buffer2_size,
   h23.send_buffer2_len.trans h12.send_buffer2_len,
   h23.cert_file.trans h12.cert_file, h23.ciphers.trans h12.ciphers,
   h23.dh_file.trans h12.dh_file, h23.ca_file.trans h12.ca_file,
   h23.options.trans h12.options, fun h => h23.ssl (h12.ssl h),
   le_trans h12.handshakes h23.handshakes⟩

theorem engine_touched_of_fields (s : state_t) (ssl : Option SSL) (e : Option String)
    (n : Int) (r w : Bytes) (hssl : s.ssl ≠ none → ssl ≠ none) (hn : s.handshakes ≤ n) :
    engine_touched s
      { s with ssl := ssl, sni_error := e, handshakes := n, bio_read := r, bio_write := w } :=
  ⟨rfl, rfl, rfl, rfl, rfl, rfl, rfl, rfl, rfl, rfl, rfl, rfl, hssl, hn⟩

theorem set_ctx_touched (env : Env) (state : state_t) (ctx : SSL_CTX) :
    engine_touched state (set_ctx env state ctx) := by
  unfold set_ctx
  cases hs : state.ssl with
  | none =>
    exact ⟨rfl, rfl, rfl, rfl, rfl, rfl, rfl, rfl, rfl, rfl, rfl, rfl,
      fun h => absurd hs h, le_refl _⟩
  | some ssl =>
    exact ⟨rfl, rfl, rfl, rfl, rfl, rfl, rfl, rfl, rfl, rfl, rfl, rfl,
      fun _ => by simp, le_refl _⟩

theorem create_ssl_for_cert_state (env : Env) (certs_map : List cert_info_t)
    (cert_file : Bytes) (state : state_t) :
    (create_ssl_for_cert env certs_map cert_file state).state = state ∨
      ∃ ctx, (create_ssl_for_cert env certs_map cert_file state).state = set_ctx env state ctx := by
  unfold create_ssl_for_cert
  simp only
  rcases any_modified env (null_if_empty cert_file) (null_if_empty state.dh_file)
      (null_if_empty state.ca_file) _ _ _ with ⟨m, k1, k2, k3⟩
  have hb : ∀ r : Except String SSL_CTX,
      (match r with
        | .error e =>
          ({ ret := some e, state := state, certs_map := certs_map, compiled := true } : resolved)
        | .ok ctx =>
          if env.alloc_info = true then
            if env.alloc_key = true then
              { ret := none, state := set_ctx env state ctx,
                certs_map := (HASH_REPLACE_STR certs_map
                  { key := cache_key cert_file state.ciphers state.options state.dh_file
                      state.ca_file,
                    file := none, key_mtime := k1, dh_mtime := k2, ca_mtime := k3,
                    ssl_ctx := some ctx }).1, compiled := true }
            else
              { ret := some "Memory allocation failed", state := state, certs_map := certs_map,
                compiled := true }
          else
            { ret := some "Memory allocation failed", state := state, certs_map := certs_map,
              compiled := true }).state = state ∨
      ∃ ctx, (match r with
        | .error e =>
          ({ ret := some e, state := state, certs_map := certs_map, compiled := true } : resolved)
        | .ok ctx =>
          if env.alloc_info = true then
            if env.alloc_key = true then
              { ret := none, state := set_ctx env state ctx,
                certs_map := (HASH_REPLACE_STR certs_map
                  { key := cache_key cert_file state.ciphers state.options state.dh_file
                      state.ca_file,
                    file := none, key_mtime := k1, dh_mtime := k2, ca_mtime := k3,
                    ssl_ctx := some ctx }).1, compiled := true }
            else
              { ret := some "Memory allocation failed", state := state, certs_map := certs_map,
                compiled := true }
          else
            { ret := some "Memory allocation failed", state := state, certs_map := certs_map,
              compiled := true }).state = set_ctx env state ctx := by
    intro r
    cases r with
    | error e => left; rfl
    | ok ctx =>
      by_cases ha : env.alloc_info = true <;> by_cases hk : env.alloc_key = true
      · right; exact ⟨ctx, by simp only [ha, hk, if_true]⟩
      · left; simp only [ha, hk, if_true, if_false, Bool.false_eq_true]
      · left; simp only [ha, if_false, Bool.false_eq_true]
      · left; simp only [ha, if_false, Bool.false_eq_true]
  cases m with
  | true => exact hb _
  | false =>
    cases HASH_FIND_STR certs_map
        (cache_key cert_file state.ciphers state.options state.dh_file state.ca_file) with
    | none => exact hb _
    | some i =>
      simp only
      cases i.ssl_ctx with
      | none => left; rfl
      | some ctx => right; exact ⟨ctx, rfl⟩

theorem create_ssl_for_cert_touched (env : Env) (certs_map : List cert_info_t)
    (cert_file : Bytes) (state : state_t) :
    engine_touched state (create_ssl_for_cert env certs_map cert_file state).state := by
  rcases create_ssl_for_cert_state env certs_map cert_file state with h | ⟨ctx, h⟩
  · rw [h]; exact engine_touched_refl state
  · rw [h]; exact set_ctx_touched env state ctx

theorem sni_error_touched (s : state_t) (e : Option String) :
    engine_touched s { s with sni_error := e } :=
  ⟨rfl, rfl, rfl, rfl, rfl, rfl, rfl, rfl, rfl, rfl, rfl, rfl, fun h => h, le_refl _⟩

theorem ssl_sni_callback_touched (env : Env) (certfiles_map certs_map : List cert_info_t)
    (servername : Option Bytes) (state : state_t) :
    engine_touched state (ssl_sni_callback env certfiles_map certs_map servername state).state := by
  unfold ssl_sni_callback
  cases lookup_certfile certfiles_map servername with
  | none =>
    simp only
    split_ifs
    · exact sni_error_touched state _
    · exact engine_touched_refl state
  | some info =>
    simp only
    cases info.file with
    | none => exact engine_touched_refl state
    | some file =>
      simp only
      split_ifs
      · have ht := create_ssl_for_cert_touched env certs_map file state
        cases (create_ssl_for_cert env certs_map file state).ret with
        | none => exact ht
        | some e => exact engine_touched_trans ht (sni_error_touched _ _)
      · exact engine_touched_refl state

theorem ssl_info_callback_touched (d : state_t) (mask : Nat) :
    engine_touched d (ssl_info_callback d mask) := by
  unfold ssl_info_callback
  split_ifs
  · exact ⟨rfl, rfl, rfl, rfl, rfl, rfl, rfl, rfl, rfl, rfl, rfl, rfl, fun h => h, by simp⟩
  · exact ⟨rfl, rfl, rfl, rfl, rfl, rfl, rfl, rfl, rfl, rfl, rfl, rfl, fun h => h, by simp⟩
  · exact engine_touched_refl d

theorem engine_event_run_touched (certfiles_map : List cert_info_t)
    (w : state_t × List cert_info_t) (e : engine_event) :
    engine_touched w.1 (e.run certfiles_map w).1 := by
  cases e with
  | info mask => exact ssl_info_callback_touched w.1 mask
  | servername env name => exact ssl_sni_callback_touched env certfiles_map w.2 name w.1

theorem engine_events_touched (certfiles_map : List cert_info_t) (events : List engine_event) :
    ∀ w : state_t × List cert_info_t,
      engine_touched w.1 (events.foldl (engine_event.run certfiles_map) w).1 := by
  induction events with
  | nil => intro w; exact engine_touched_refl w.1
  | cons e rest ih =>
    intro w
    rw [List.foldl_cons]
    exact engine_touched_trans (engine_event_run_touched certfiles_map w e) (ih _)

theorem engine_call_run_touched {α : Type} (certfiles_map : List cert_info_t)
    (w : state_t × List cert_info_t) (c : engine_call α) :
    engine_touched w.1 (c.run certfiles_map w).1 := by
  unfold engine_call.run
  exact engine_touched_trans (engine_events_touched certfiles_map c.events w)
    ⟨rfl, rfl, rfl, rfl, rfl, rfl, rfl, rfl, rfl, rfl, rfl, rfl, fun h => h, le_refl _⟩

/-! ## Facts about `get_decrypted_input_nif` -/

theorem read_loop_touched (certfiles_map : List cert_info_t) (req_size : Nat)
    (reads : List (engine_call Bytes)) :
    ∀ l : read_loop_t,
      engine_touched l.world.1 (read_loop certfiles_map req_size reads l).world.1 := by
  induction reads with
  | nil =>
    intro l
    unfold read_loop
    split_ifs <;> exact engine_touched_refl _
  | cons c rest ih =>
    intro l
    unfold read_loop
    have hc := engine_call_run_touched certfiles_map l.world c
    simp only
    split_ifs
    · exact engine_touched_trans hc (ih ⟨_, _, _, _, _⟩)
    · exact engine_touched_trans hc (ih ⟨_, _, _, _, _⟩)
    · exact hc
    · exact engine_touched_refl _

theorem read_loop_ops (certfiles_map : List cert_info_t) (req_size : Nat)
    (reads : List (engine_call Bytes)) :
    ∀ l : read_loop_t, ∃ extra,
      (read_loop certfiles_map req_size reads l).engine_ops = l.engine_ops ++ extra ∧
      (∀ op ∈ extra, ∃ s r n d, op = engine_op.SSL_read s r n d) ∧
      ((req_size = 0 ∨ l.rlen < req_size) → extra ≠ []) := by
  induction reads with
  | nil =>
    intro l
    unfold read_loop
    split_ifs with h
    · exact ⟨[_], rfl, by simp, fun _ => by simp⟩
    · exact ⟨[], by simp, by simp, fun h2 => absurd h2 h⟩
  | cons c rest ih =>
    intro l
    unfold read_loop
    simp only
    split_ifs with h h1 h2
    · obtain ⟨extra, he, hall, _⟩ := ih
        { output := (l.output.take l.rlen ++ c.result.take (read_count req_size l.size l.rlen) ++
              l.output.drop (l.rlen + (c.result.take (read_count req_size l.size l.rlen)).length))
              ++ List.replicate l.size 0,
          size := l.size * 2,
          rlen := l.rlen + (c.result.take (read_count req_size l.size l.rlen)).length,
          world := c.run certfiles_map l.world,
          engine_ops := l.engine_ops ++ [.SSL_read l.size l.rlen
            (read_count req_size l.size l.rlen)
            (c.result.take (read_count req_size l.size l.rlen))] }
      refine ⟨engine_op.SSL_read l.size l.rlen (read_count req_size l.size l.rlen)
          (c.result.take (read_count req_size l.size l.rlen)) :: extra, ?_, ?_,
        fun _ => by simp⟩
      · rw [he]; simp
      · intro op hop
        rcases List.mem_cons.1 hop with rfl | hop
        · exact ⟨_, _, _, _, rfl⟩
        · exact hall op hop
    · obtain ⟨extra, he, hall, _⟩ := ih
        { output := l.output.take l.rlen ++ c.result.take (read_count req_size l.size l.rlen) ++
              l.output.drop (l.rlen + (c.result.take (read_count req_size l.size l.rlen)).length),
          size := l.size,
          rlen := l.rlen + (c.result.take (read_count req_size l.size l.rlen)).length,
          world := c.run certfiles_map l.world,
          engine_ops := l.engine_ops ++ [.SSL_read l.size l.rlen
            (read_count req_size l.size l.rlen)
            (c.result.take (read_count req_size l.size l.rlen))] }
      refine ⟨engine_op.SSL_read l.size l.rlen (read_count req_size l.size l.rlen)
          (c.result.take (read_count req_size l.size l.rlen)) :: extra, ?_, ?_,
        fun _ => by simp⟩
      · rw [he]; simp
      · intro op hop
        rcases List.mem_cons.1 hop with rfl | hop
        · exact ⟨_, _, _, _, rfl⟩
        · exact hall op hop
    · exact ⟨[_], rfl, by simp, fun _ => by simp⟩
    · exact ⟨[], by simp, by simp, fun h2 => absurd h2 h⟩

theorem promote_send_buffer2_handshakes (state : state_t) :
    (promote_send_buffer2 state).handshakes = state.handshakes := rfl

/-- What the loop over the pending buffers leaves behind: it never lowers the
handshake counter and calls nothing but `SSL_write`. -/
theorem flush_send_buffer_spec (certfiles_map : List cert_info_t) (script : engine_script)
    (retcode : Nat) (w : state_t × List cert_info_t) (ops : List engine_op) :
    match flush_send_buffer certfiles_map script retcode w ops with
    | .error r =>
      r.term = .error_string "SSL_write failed" ∧ w.1.handshakes ≤ r.state.handshakes ∧
      ∃ extra, r.engine_ops = ops ++ extra ∧ extra ≠ [] ∧
        ∀ op ∈ extra, ∃ b, op = engine_op.SSL_write b
    | .ok (retcode2, w2, ops2) =>
      w.1.handshakes ≤ w2.1.handshakes ∧
      (w.1.send_buffer = none → retcode2 = retcode ∧ w2 = w ∧ ops2 = ops) ∧
      (w.1.send_buffer ≠ none → retcode2 = 2) ∧
      ∃ extra, ops2 = ops ++ extra ∧ (w.1.send_buffer ≠ none → extra ≠ []) ∧
        ∀ op ∈ extra, ∃ b, op = engine_op.SSL_write b := by
  unfold flush_send_buffer
  cases hb : w.1.send_buffer with
  | none => simp
  | some buffer =>
    have h1 := (engine_call_run_touched certfiles_map w script.write1).handshakes
    simp only
    cases script.write1.result with
    | want => exact ⟨rfl, h1, [_], rfl, by simp, by simp⟩
    | failed => exact ⟨rfl, h1, [_], rfl, by simp, by simp⟩
    | written =>
      simp only
      cases hb2 : (promote_send_buffer2 (script.write1.run certfiles_map w).1).send_buffer with
      | none =>
        simp only
        exact ⟨h1, by simp, by simp, [_], rfl, by simp, by simp⟩
      | some buffer2 =>
        have h2 := (engine_call_run_touched certfiles_map
          (promote_send_buffer2 (script.write1.run certfiles_map w).1,
            (script.write1.run certfiles_map w).2) script.write2).handshakes
        simp only at h2
        rw [promote_send_buffer2_handshakes] at h2
        simp only
        cases script.write2.result with
        | want =>
          exact ⟨rfl, le_trans h1 h2, [_, _], List.append_assoc _ [_] [_], by simp, by simp⟩
        | failed =>
          exact ⟨rfl, le_trans h1 h2, [_, _], List.append_assoc _ [_] [_], by simp, by simp⟩
        | written =>
          exact ⟨le_trans h1 h2, by simp, by simp, [_, _], List.append_assoc _ [_] [_],
            by simp, by simp⟩

theorem get_decrypted_input_rest_handshakes (certfiles_map : List cert_info_t)
    (script : engine_script) (req_size : Nat) (finished : Bool) (retcode : Nat)
    (w : state_t × List cert_info_t) (ops : List engine_op) :
    w.1.handshakes ≤
      (get_decrypted_input_rest certfiles_map script req_size finished retcode w ops
        ).state.handshakes := by
  unfold get_decrypted_input_rest
  cases finished with
  | false => simp
  | true =>
    have hf := flush_send_buffer_spec certfiles_map script retcode w ops
    cases hfl : flush_send_buffer certfiles_map script retcode w ops with
    | error r =>
      rw [hfl] at hf
      simpa using hf.2.1
    | ok x =>
      rcases x with ⟨rc2, w2, ops2⟩
      rw [hfl] at hf
      simp only at hf
      have hl := (read_loop_touched certfiles_map req_size script.reads
        { output := List.replicate BUF_SIZE 0, size := BUF_SIZE, rlen := 0, world := w2,
          engine_ops := ops2 }).handshakes
      simp only at hl
      simp only [if_true]
      split_ifs <;> exact le_trans hf.1 hl

/-- Once the handshake counter exceeds one, the part of `get_decrypted_input_nif`
after the handshake step returns no data, and the renegotiation error when it
reads. -/
theorem get_decrypted_input_rest_renegotiated (certfiles_map : List cert_info_t)
    (script : engine_script) (req_size : Nat) (finished : Bool) (retcode : Nat)
    (w : state_t × List cert_info_t) (ops : List engine_op)
    (h : 1 < w.1.handshakes)
    (hops : ∀ op ∈ ops, ∀ s r n d, op ≠ engine_op.SSL_read s r n d) :
    (∀ data, (get_decrypted_input_rest certfiles_map script req_size finished retcode w ops
        ).term ≠ .ok_binary data) ∧
    (∀ data, (get_decrypted_input_rest certfiles_map script req_size finished retcode w ops
        ).term = .send_binary data → data = []) ∧
    ((∃ s r n d, engine_op.SSL_read s r n d ∈
        (get_decrypted_input_rest certfiles_map script req_size finished retcode w ops
          ).engine_ops) →
      (get_decrypted_input_rest certfiles_map script req_size finished retcode w ops).term
        = .error_string "client renegotiations forbidden") := by
  unfold get_decrypted_input_rest
  cases finished with
  | false =>
    refine ⟨by simp, ?_, ?_⟩
    · intro data hd
      simp at hd
      exact hd ▸ rfl
    · rintro ⟨s, r, n, d, hmem⟩
      simp only [Bool.false_eq_true, if_false] at hmem
      exact absurd rfl (hops _ hmem s r n d)
  | true =>
    have hf := flush_send_buffer_spec certfiles_map script retcode w ops
    cases hfl : flush_send_buffer certfiles_map script retcode w ops with
    | error r =>
      rw [hfl] at hf
      simp only at hf
      obtain ⟨hterm, _, extra, hextra, _, hall⟩ := hf
      simp only [if_true]
      refine ⟨by simp [hterm], by simp [hterm], ?_⟩
      rintro ⟨s, r2, n, d, hmem⟩
      rw [hextra] at hmem
      rcases List.mem_append.1 hmem with hm | hm
      · exact absurd rfl (hops _ hm s r2 n d)
      · obtain ⟨b, hb⟩ := hall _ hm
        cases hb
    | ok x =>
      rcases x with ⟨rc2, w2, ops2⟩
      rw [hfl] at hf
      simp only at hf
      have hl := (read_loop_touched certfiles_map req_size script.reads
        { output := List.replicate BUF_SIZE 0, size := BUF_SIZE, rlen := 0, world := w2,
          engine_ops := ops2 }).handshakes
      simp only at hl
      have hgt : 1 < (read_loop certfiles_map req_size script.reads
          { output := List.replicate BUF_SIZE 0, size := BUF_SIZE, rlen := 0, world := w2,
            engine_ops := ops2 }).world.1.handshakes :=
        lt_of_lt_of_le h (le_trans hf.1 hl)
      simp only [if_true, hgt]
      simp

theorem get_decrypted_input_nif_established (certfiles_map : List cert_info_t)
    (script : engine_script) (certs_map : List cert_info_t) (state : state_t) (req_size : Nat)
    (hssl : state.ssl ≠ none) (hvalid : state.valid = true)
    (hfinished : script.init_finished = true) :
    get_decrypted_input_nif certfiles_map script certs_map state req_size =
      get_decrypted_input_rest certfiles_map script req_size true 0 (state, certs_map) [] := by
  obtain ⟨ssl, hs⟩ := Option.ne_none_iff_exists'.1 hssl
  unfold get_decrypted_input_nif
  simp [hs, hvalid, hfinished]

theorem get_decrypted_input_nif_handshake (certfiles_map : List cert_info_t)
    (script : engine_script) (certs_map : List cert_info_t) (state : state_t) (req_size : Nat)
    (hssl : state.ssl ≠ none) (hvalid : state.valid = true)
    (hfinished : script.init_finished = false)
    (hresult : ∀ reason, script.handshake.result ≠ .failed reason) :
    get_decrypted_input_nif certfiles_map script certs_map state req_size =
      get_decrypted_input_rest certfiles_map script req_size script.init_finished_after 2
        (script.handshake.run certfiles_map (state, certs_map)) [.SSL_do_handshake] := by
  obtain ⟨ssl, hs⟩ := Option.ne_none_iff_exists'.1 hssl
  unfold get_decrypted_input_nif
  cases hr : script.handshake.result with
  | failed reason => exact absurd hr (hresult reason)
  | done => simp [hs, hvalid, hfinished]
  | want_read => simp [hs, hvalid, hfinished]

theorem get_decrypted_input_nif_failed (certfiles_map : List cert_info_t)
    (script : engine_script) (certs_map : List cert_info_t) (state : state_t) (req_size : Nat)
    (reason : Nat)
    (hssl : state.ssl ≠ none) (hvalid : state.valid = true)
    (hfinished : script.init_finished = false)
    (hresult : script.handshake.result = .failed reason) :
    get_decrypted_input_nif certfiles_map script certs_map state req_size =
      { term :=
          if reason ∈ malformed_reasons then .error_atom "closed"
          else
            match (script.handshake.run certfiles_map (state, certs_map)).1.sni_error with
            | some sni_error => ssl_error script sni_error
            | none => ssl_error script "SSL_do_handshake failed",
        state := (script.handshake.run certfiles_map (state, certs_map)).1,
        certs_map := (script.handshake.run certfiles_map (state, certs_map)).2,
        engine_ops := [.SSL_do_handshake] } := by
  obtain ⟨ssl, hs⟩ := Option.ne_none_iff_exists'.1 hssl
  unfold get_decrypted_input_nif
  simp [hs, hvalid, hfinished, hresult]

theorem nif_call_run_handshakes (certfiles_map : List cert_info_t)
    (w : state_t × List cert_info_t) (call : nif_call) :
    w.1.handshakes ≤ (call.run certfiles_map w).state.handshakes := by
  cases call with
  | set_encrypted_input input =>
    cases hssl : w.1.ssl <;> cases hv : w.1.valid <;>
      simp [nif_call.run, set_encrypted_input_nif, hssl, hv]
  | get_encrypted_output script =>
    cases hssl : w.1.ssl <;> cases hv : w.1.valid <;> cases ha : script.alloc_binary <;>
      simp [nif_call.run, get_encrypted_output_nif, hssl, hv, ha]
  | get_verify_result script =>
    cases hssl : w.1.ssl <;> cases hv : w.1.valid <;>
      simp [nif_call.run, get_verify_result_nif, hssl, hv]
  | get_peer_certificate script =>
    cases hssl : w.1.ssl <;> cases hv : w.1.valid <;> cases ha : script.alloc_binary <;>
      rcases hp : script.peer_certificate with _ | _ | _ <;>
      simp [nif_call.run, get_peer_certificate_nif, hssl, hv, ha, hp]
  | invalidate =>
    cases hssl : w.1.ssl <;> simp [nif_call.run, invalidate_nif, hssl]
  | set_decrypted_output script input =>
    have h1 := (engine_call_run_touched certfiles_map (w.1, w.2) script.write1).handshakes
    cases hssl : w.1.ssl with
    | none => simp [nif_call.run, set_decrypted_output_nif, hssl]
    | some ssl =>
      cases hv : w.1.valid with
      | false => simp [nif_call.run, set_decrypted_output_nif, hssl, hv]
      | true =>
        by_cases hi : input.length > 0
        · cases hb : w.1.send_buffer with
          | some buffer =>
            cases hb2 : w.1.send_buffer2 <;>
              simp [nif_call.run, set_decrypted_output_nif, hssl, hv, hi, hb, hb2]
          | none =>
            cases hr : script.write1.result <;>
              simpa [nif_call.run, set_decrypted_output_nif, hssl, hv, hi, hb, hr] using h1
        · simp [nif_call.run, set_decrypted_output_nif, hssl, hv, hi]
  | get_decrypted_input script req_size =>
    have h1 := (engine_call_run_touched certfiles_map (w.1, w.2) script.handshake).handshakes
    cases hssl : w.1.ssl with
    | none => simp [nif_call.run, get_decrypted_input_nif, hssl]
    | some ssl =>
      cases hv : w.1.valid with
      | false => simp [nif_call.run, get_decrypted_input_nif, hssl, hv]
      | true =>
        have hs : w.1.ssl ≠ none := by rw [hssl]; simp
        cases hf : script.init_finished with
        | true =>
          simp only [nif_call.run]
          rw [get_decrypted_input_nif_established _ _ _ _ _ hs hv hf]
          exact get_decrypted_input_rest_handshakes _ _ _ _ _ _ _
        | false =>
          cases hr : script.handshake.result with
          | failed reason =>
            simp only [nif_call.run]
            rw [get_decrypted_input_nif_failed _ _ _ _ _ reason hs hv hf hr]
            exact h1
          | done =>
            simp only [nif_call.run]
            rw [get_decrypted_input_nif_handshake _ _ _ _ _ hs hv hf (by rw [hr]; simp)]
            exact le_trans h1 (get_decrypted_input_rest_handshakes _ _ _ _ _ _ _)
          | want_read =>
            simp only [nif_call.run]
            rw [get_decrypted_input_nif_handshake _ _ _ _ _ hs hv hf (by rw [hr]; simp)]
            exact le_trans h1 (get_decrypted_input_rest_handshakes _ _ _ _ _ _ _)

theorem run_calls_handshakes (certfiles_map : List cert_info_t) (calls : List nif_call) :
    ∀ w : state_t × List cert_info_t,
      w.1.handshakes ≤ (run_calls certfiles_map w calls).1.handshakes := by
  induction calls with
  | nil => intro w; exact le_refl _
  | cons c rest ih =>
    intro w
    unfold run_calls
    rw [List.foldl_cons]
    exact le_trans (nif_call_run_handshakes certfiles_map w c) (ih _)

/-- C14: renegotiation rejection is permanent.  The handshake counter starts at
`0`; the info callback makes it `1` at the first handshake completion and
raises it by one at every handshake start observed after that; no sequence of
calls lowers it.  Once it exceeds `1`, after any further calls, a
`read_plaintext` never returns `{ok, Data}`, returns `{send, Data}` only with
empty data, and returns the error `client renegotiations forbidden` whenever
it gets as far as calling `SSL_read`, whatever the engine has to deliver. -/
theorem renegotiation_rejection_permanent (certfiles_map certs_map : List cert_info_t)
    (state : state_t) (hexceeds : 1 < state.handshakes) :
    init_tls_state.handshakes = 0 ∧
    (∀ (d : state_t) (mask : Nat), d.handshakes = 0 → mask &&& SSL_CB_HANDSHAKE_DONE ≠ 0 →
      (ssl_info_callback d mask).handshakes = 1) ∧
    (∀ (d : state_t) (mask : Nat), 1 ≤ d.handshakes → mask &&& SSL_CB_HANDSHAKE_START ≠ 0 →
      (ssl_info_callback d mask).handshakes = d.handshakes + 1) ∧
    (∀ (session : state_t) (cache : List cert_info_t) (calls : List nif_call),
      session.handshakes ≤ (run_calls certfiles_map (session, cache) calls).1.handshakes) ∧
    (∀ (calls : List nif_call) (script : engine_script) (req_size : Nat),
      (∀ data, (get_decrypted_input_nif certfiles_map script
          (run_calls certfiles_map (state, certs_map) calls).2
          (run_calls certfiles_map (state, certs_map) calls).1 req_size).term
            ≠ .ok_binary data) ∧
      (∀ data, (get_decrypted_input_nif certfiles_map script
          (run_calls certfiles_map (state, certs_map) calls).2
          (run_calls certfiles_map (state, certs_map) calls).1 req_size).term
            = .send_binary data → data = []) ∧
      ((∃ s r n d, engine_op.SSL_read s r n d ∈
          (get_decrypted_input_nif certfiles_map script
            (run_calls certfiles_map (state, certs_map) calls).2
            (run_calls certfiles_map (state, certs_map) calls).1 req_size).engine_ops) →
        (get_decrypted_input_nif certfiles_map script
          (run_calls certfiles_map (state, certs_map) calls).2
          (run_calls certfiles_map (state, certs_map) calls).1 req_size).term
            = .error_string "client renegotiations forbidden")) := by
  refine ⟨rfl, ?_, ?_, ?_, ?_⟩
  · intro d mask h0 hmask
    unfold ssl_info_callback
    have hne : ¬ (mask &&& SSL_CB_HANDSHAKE_START ≠ 0 ∧ d.handshakes ≠ 0) :=
      fun h => h.2 h0
    rw [if_neg hne, if_pos (And.intro hmask h0)]
    simp [h0]
  · intro d mask h1 hmask
    unfold ssl_info_callback
    have hne : d.handshakes ≠ 0 := by omega
    rw [if_pos (And.intro hmask hne)]
  · intro session cache calls
    exact run_calls_handshakes certfiles_map calls (session, cache)
  · intro calls script req_size
    have hw := run_calls_handshakes certfiles_map calls (state, certs_map)
    generalize run_calls certfiles_map (state, certs_map) calls = w at hw ⊢
    have h : 1 < w.1.handshakes := lt_of_lt_of_le hexceeds hw
    cases hssl : w.1.ssl with
    | none => simp [get_decrypted_input_nif, hssl]
    | some ssl =>
      have hs : w.1.ssl ≠ none := by rw [hssl]; simp
      cases hv : w.1.valid with
      | false => simp [get_decrypted_input_nif, hssl, hv]
      | true =>
        cases hf : script.init_finished with
        | true =>
          rw [get_decrypted_input_nif_established _ _ _ _ _ hs hv hf]
          exact get_decrypted_input_rest_renegotiated _ _ _ _ _ _ _ h (by simp)
        | false =>
          have h1 := (engine_call_run_touched certfiles_map (w.1, w.2)
            script.handshake).handshakes
          cases hr : script.handshake.result with
          | failed reason =>
            rw [get_decrypted_input_nif_failed _ _ _ _ _ reason hs hv hf hr]
            refine ⟨?_, ?_, by simp⟩
            · intro data
              simp only
              split_ifs
              · simp
              · cases (script.handshake.run certfiles_map (w.1, w.2)).1.sni_error <;>
                  simp [ssl_error] <;> cases script.error_string <;> simp
            · intro data
              simp only
              split_ifs
              · simp
              · cases (script.handshake.run certfiles_map (w.1, w.2)).1.sni_error <;>
                  simp [ssl_error] <;> cases script.error_string <;> simp
          | done =>
            rw [get_decrypted_input_nif_handshake _ _ _ _ _ hs hv hf (by rw [hr]; simp)]
            exact get_decrypted_input_rest_renegotiated _ _ _ _ _ _ _
              (lt_of_lt_of_le h h1) (by simp)
          | want_read =>
            rw [get_decrypted_input_nif_handshake _ _ _ _ _ hs hv hf (by rw [hr]; simp)]
            exact get_decrypted_input_rest_renegotiated _ _ _ _ _ _ _
              (lt_of_lt_of_le h h1) (by simp)

/-- C14, witness: a session whose counter is `2`, established, with the
plaintext `secret` ready in the engine: `read_plaintext` calls `SSL_read` and
returns the renegotiation error. -/
theorem renegotiation_rejection_permanent_witness :
    (get_decrypted_input_nif [] script_plaintext [] session_renegotiated 0).term
      = .error_string "client renegotiations forbidden" :=
  ((renegotiation_rejection_permanent [] [] session_renegotiated (by decide)).2.2.2.2
    [] script_plaintext 0).2.2 ⟨1024, 0, 1024, bytes "secret", by decide⟩

/-- C15: handshake-failure classification in `read_plaintext`, for a valid,
created session whose handshake is not finished at entry.  When the handshake
step fails with anything but needs-more-input: for one of the five reasons of
malformed input the call returns the bare `{error, closed}`, whatever SNI
failure is recorded; for any other reason it returns `{error, Message}` where
the message begins with the recorded SNI failure message when there is one
(also one recorded during this very step), and with `SSL_do_handshake failed`
when there is none.  When the step only needs more input, and the engine then
reports the handshake unfinished, the call returns `{send, <<>>}`, no error. -/
theorem handshake_failure_classification (certfiles_map : List cert_info_t)
    (script : engine_script) (certs_map : List cert_info_t) (state : state_t) (req_size : Nat)
    (hssl : state.ssl ≠ none) (hvalid : state.valid = true)
    (hunfinished : script.init_finished = false) :
    (∀ reason, script.handshake.result = .failed reason → reason ∈ malformed_reasons →
      (get_decrypted_input_nif certfiles_map script certs_map state req_size).term
        = .error_atom "closed") ∧
    (∀ reason msg, script.handshake.result = .failed reason → reason ∉ malformed_reasons →
      (script.handshake.run certfiles_map (state, certs_map)).1.sni_error = some msg →
      ∃ rest, (get_decrypted_input_nif certfiles_map script certs_map state req_size).term
        = .error_binary (msg ++ rest)) ∧
    (∀ reason, script.handshake.result = .failed reason → reason ∉ malformed_reasons →
      (script.handshake.run certfiles_map (state, certs_map)).1.sni_error = none →
      ∃ rest, (get_decrypted_input_nif certfiles_map script certs_map state req_size).term
        = .error_binary ("SSL_do_handshake failed" ++ rest)) ∧
    (script.handshake.result = .want_read → script.init_finished_after = false →
      (get_decrypted_input_nif certfiles_map script certs_map state req_size).term
        = .send_binary []) := by
  have herr : ∀ errstr : String, ∃ rest, ssl_error script errstr = .error_binary (errstr ++ rest) := by
    intro errstr
    unfold ssl_error
    cases script.error_string with
    | none => exact ⟨"", by simp⟩
    | some e => exact ⟨": " ++ e, by simp [String.append_assoc]⟩
  refine ⟨?_, ?_, ?_, ?_⟩
  · intro reason hr hmem
    rw [get_decrypted_input_nif_failed _ _ _ _ _ reason hssl hvalid hunfinished hr]
    simp [hmem]
  · intro reason msg hr hmem hsni
    rw [get_decrypted_input_nif_failed _ _ _ _ _ reason hssl hvalid hunfinished hr]
    simp only [hmem, if_false, hsni]
    exact herr msg
  · intro reason hr hmem hsni
    rw [get_decrypted_input_nif_failed _ _ _ _ _ reason hssl hvalid hunfinished hr]
    simp only [hmem, if_false, hsni]
    exact herr _
  · intro hr hafter
    rw [get_decrypted_input_nif_handshake _ _ _ _ _ hssl hvalid hunfinished (by rw [hr]; simp)]
    simp [get_decrypted_input_rest, hafter]

/-- C15, witness: a session without certificate, a hostname that matches no
directory item, and a handshake that fails for a reason other than the five:
the message begins with the text that the hostname callback recorded. -/
theorem handshake_failure_classification_witness :
    ∃ rest, (get_decrypted_input_nif [] script_sni_failure [] session_no_cert 0).term
      = .error_binary
          ("Failed to find a certificate matching the domain in SNI extension" ++ rest) :=
  (handshake_failure_classification [] script_sni_failure [] session_no_cert 0
    (by decide) (by decide) (by decide)).2.1 234
    "Failed to find a certificate matching the domain in SNI extension"
    (by decide) (by decide) (by decide)

theorem get_decrypted_input_rest_tag (certfiles_map : List cert_info_t)
    (script : engine_script) (req_size : Nat) (finished : Bool) (retcode : Nat)
    (w : state_t × List cert_info_t) (ops : List engine_op)
    (hops : ∀ b, engine_op.SSL_write b ∉ ops) (data : Bytes)
    (hterm :
      (get_decrypted_input_rest certfiles_map script req_size finished retcode w ops).term
          = .ok_binary data ∨
      (get_decrypted_input_rest certfiles_map script req_size finished retcode w ops).term
          = .send_binary data) :
    ((∃ d, (get_decrypted_input_rest certfiles_map script req_size finished retcode w ops).term
          = .ok_binary d) ↔
      (finished = true ∧ retcode = 0 ∧ ∀ b, engine_op.SSL_write b ∉
        (get_decrypted_input_rest certfiles_map script req_size finished retcode w ops
          ).engine_ops)) ∧
    (finished = false → data = []) := by
  revert hterm
  unfold get_decrypted_input_rest
  cases finished with
  | false =>
    intro hterm
    simp only [Bool.false_eq_true, if_false] at hterm ⊢
    refine ⟨by simp, fun _ => ?_⟩
    rcases hterm with h | h
    · cases h
    · injection h with h
      exact h.symm
  | true =>
    have hf := flush_send_buffer_spec certfiles_map script retcode w ops
    cases hfl : flush_send_buffer certfiles_map script retcode w ops with
    | error r =>
      rw [hfl] at hf
      simp only at hf
      intro hterm
      simp only [if_true, hf.1] at hterm
      rcases hterm with h | h <;> cases h
    | ok x =>
      rcases x with ⟨rc2, w2, ops2⟩
      rw [hfl] at hf
      simp only at hf
      obtain ⟨_, hnone, hsome, extraW, hops2, hextraW, hallW⟩ := hf
      obtain ⟨extraR, hopsR, hallR, _⟩ := read_loop_ops certfiles_map req_size script.reads
        { output := List.replicate BUF_SIZE 0, size := BUF_SIZE, rlen := 0, world := w2,
          engine_ops := ops2 }
      simp only at hopsR
      have hnoR : ∀ b, engine_op.SSL_write b ∉ extraR := by
        intro b hm
        obtain ⟨s, r, n, d2, he⟩ := hallR _ hm
        cases he
      simp only [if_true]
      by_cases hre : (read_loop certfiles_map req_size script.reads
          { output := List.replicate BUF_SIZE 0, size := BUF_SIZE, rlen := 0, world := w2,
            engine_ops := ops2 }).world.1.handshakes > 1
      · intro hterm
        simp only [hre, if_true] at hterm
        rcases hterm with h | h <;> cases h
      · intro _
        simp only [hre, if_false, hopsR, true_and]
        refine ⟨?_, by simp⟩
        by_cases hrc : rc2 = 0
        · simp only [hrc, if_true]
          refine ⟨fun _ => ?_, fun _ => ⟨_, rfl⟩⟩
          cases hb : w.1.send_buffer with
          | some buf =>
            have := hsome (by rw [hb]; simp)
            omega
          | none =>
            obtain ⟨h1, _, h3⟩ := hnone hb
            refine ⟨by omega, ?_⟩
            intro b hmem
            rw [h3] at hmem
            rcases List.mem_append.1 hmem with hm | hm
            · exact hops b hm
            · exact hnoR b hm
        · simp only [hrc, if_false]
          constructor
          · rintro ⟨d, hd⟩
            cases hd
          · rintro ⟨hret, hno⟩
            exfalso
            cases hb : w.1.send_buffer with
            | some buf =>
              have hne := hextraW (by rw [hb]; simp)
              obtain ⟨op, rest, hcons⟩ := List.exists_cons_of_ne_nil hne
              obtain ⟨b, hb2⟩ := hallW op (by rw [hcons]; simp)
              apply hno b
              rw [hops2, hcons, hb2]
              simp
            | none =>
              obtain ⟨h1, _, _⟩ := hnone hb
              omega

theorem ssl_error_no_data (script : engine_script) (errstr : String) (data : Bytes) :
    ssl_error script errstr ≠ .ok_binary data ∧ ssl_error script errstr ≠ .send_binary data := by
  unfold ssl_error
  cases script.error_string <;> simp

/-- C17: the result tag of `read_plaintext`.  For a call that returns data
(`{ok, Data}` or `{send, Data}`): the tag is `ok` exactly when the handshake was
finished at entry and the call handed no pending write to the engine; the tag
is `send` when the handshake was advanced during the call (it was not finished
at entry) or a pending write was flushed; and when the handshake is unfinished
at both tests of the call, the data is empty. -/
theorem read_result_tag (certfiles_map : List cert_info_t) (script : engine_script)
    (certs_map : List cert_info_t) (state : state_t) (req_size : Nat) (data : Bytes)
    (hterm :
      (get_decrypted_input_nif certfiles_map script certs_map state req_size).term
        = .ok_binary data ∨
      (get_decrypted_input_nif certfiles_map script certs_map state req_size).term
        = .send_binary data) :
    ((get_decrypted_input_nif certfiles_map script certs_map state req_size).term
        = .ok_binary data ↔
      (script.init_finished = true ∧ ∀ b, engine_op.SSL_write b ∉
        (get_decrypted_input_nif certfiles_map script certs_map state req_size).engine_ops)) ∧
    ((script.init_finished = false ∨ ∃ b, engine_op.SSL_write b ∈
        (get_decrypted_input_nif certfiles_map script certs_map state req_size).engine_ops) →
      (get_decrypted_input_nif certfiles_map script certs_map state req_size).term
        = .send_binary data) ∧
    (script.init_finished = false → script.init_finished_after = false → data = []) := by
  have hmain : ((∃ d, (get_decrypted_input_nif certfiles_map script certs_map state req_size).term
        = .ok_binary d) ↔
      (script.init_finished = true ∧ ∀ b, engine_op.SSL_write b ∉
        (get_decrypted_input_nif certfiles_map script certs_map state req_size).engine_ops)) ∧
      (script.init_finished = false → script.init_finished_after = false → data = []) := by
    revert hterm
    cases hssl : state.ssl with
    | none =>
      intro hterm
      simp [get_decrypted_input_nif, hssl] at hterm
    | some ssl =>
      have hs : state.ssl ≠ none := by rw [hssl]; simp
      cases hv : state.valid with
      | false =>
        intro hterm
        simp [get_decrypted_input_nif, hssl, hv] at hterm
      | true =>
        cases hf : script.init_finished with
        | true =>
          rw [get_decrypted_input_nif_established _ _ _ _ _ hs hv hf]
          intro hterm
          have h := get_decrypted_input_rest_tag certfiles_map script req_size true 0
            (state, certs_map) [] (by simp) data hterm
          refine ⟨?_, by simp⟩
          rw [h.1]
          constructor
          · rintro ⟨_, _, h3⟩
            exact ⟨rfl, h3⟩
          · rintro ⟨_, h3⟩
            exact ⟨rfl, rfl, h3⟩
        | false =>
          cases hr : script.handshake.result with
          | failed reason =>
            rw [get_decrypted_input_nif_failed _ _ _ _ _ reason hs hv hf hr]
            intro hterm
            exfalso
            simp only at hterm
            split_ifs at hterm
            · rcases hterm with h | h <;> cases h
            · cases hsni : (script.handshake.run certfiles_map (state, certs_map)).1.sni_error with
              | none =>
                rw [hsni] at hterm
                rcases hterm with h | h
                · exact (ssl_error_no_data script _ data).1 h
                · exact (ssl_error_no_data script _ data).2 h
              | some msg =>
                rw [hsni] at hterm
                rcases hterm with h | h
                · exact (ssl_error_no_data script _ data).1 h
                · exact (ssl_error_no_data script _ data).2 h
          | done =>
            rw [get_decrypted_input_nif_handshake _ _ _ _ _ hs hv hf (by rw [hr]; simp)]
            intro hterm
            have h := get_decrypted_input_rest_tag certfiles_map script req_size
              script.init_finished_after 2 _ [.SSL_do_handshake] (by simp) data hterm
            refine ⟨?_, fun _ ha => h.2 ha⟩
            rw [h.1]
            constructor
            · rintro ⟨_, h2, _⟩
              exact absurd h2 (by decide)
            · rintro ⟨h1, _⟩
              exact absurd h1 (by decide)
          | want_read =>
            rw [get_decrypted_input_nif_handshake _ _ _ _ _ hs hv hf (by rw [hr]; simp)]
            intro hterm
            have h := get_decrypted_input_rest_tag certfiles_map script req_size
              script.init_finished_after 2 _ [.SSL_do_handshake] (by simp) data hterm
            refine ⟨?_, fun _ ha => h.2 ha⟩
            rw [h.1]
            constructor
            · rintro ⟨_, h2, _⟩
              exact absurd h2 (by decide)
            · rintro ⟨h1, _⟩
              exact absurd h1 (by decide)
  obtain ⟨hiff, hempty⟩ := hmain
  have hok : (get_decrypted_input_nif certfiles_map script certs_map state req_size).term
        = .ok_binary data ↔
      ∃ d, (get_decrypted_input_nif certfiles_map script certs_map state req_size).term
        = .ok_binary d := by
    constructor
    · intro h; exact ⟨data, h⟩
    · rintro ⟨d, hd⟩
      rcases hterm with h | h
      · exact h
      · rw [hd] at h; cases h
  refine ⟨hok.trans hiff, ?_, hempty⟩
  intro hsend
  rcases hterm with h | h
  · exfalso
    have h2 := (hok.trans hiff).1 h
    rcases hsend with hf | ⟨b, hb⟩
    · rw [h2.1] at hf; cases hf
    · exact h2.2 b hb
  · exact h

/-- C17, witness: an established session with `hello` pending; the engine takes
the write and has nothing to read; the call returns `{send, <<>>}`. -/
theorem read_result_tag_witness :
    (get_decrypted_input_nif [] script_flush [] session_pending 0).term = .send_binary [] :=
  (read_result_tag [] script_flush [] session_pending 0 [] (Or.inr (by decide))).2.1
    (Or.inr ⟨bytes "hello", by decide⟩)

theorem read_chunks_append (a b : List engine_op) :
    read_chunks (a ++ b) = read_chunks a ++ read_chunks b := by
  induction a with
  | nil => rfl
  | cons op rest ih =>
    cases op <;> simp [read_chunks, ih]

theorem read_count_bounds (req_size size rlen : Nat) (hfree : BUF_SIZE ≤ size - rlen)
    (hcond : req_size = 0 ∨ rlen < req_size) :
    1 ≤ read_count req_size size rlen ∧ read_count req_size size rlen ≤ size - rlen ∧
    rlen + read_count req_size size rlen ≤ size ∧
    (req_size ≠ 0 → rlen + read_count req_size size rlen ≤ req_size) := by
  unfold BUF_SIZE at hfree
  unfold read_count
  split_ifs with h
  · refine ⟨by omega, le_refl _, by omega, ?_⟩
    intro hne
    rcases h with h | h
    · exact absurd h hne
    · omega
  · simp only [not_or, not_le] at h
    refine ⟨by omega, by omega, by omega, fun _ => by omega⟩

/-- The invariant of the read loop of `get_decrypted_input_nif`. -/
theorem read_loop_spec (certfiles_map : List cert_info_t) (req_size : Nat)
    (reads : List (engine_call Bytes)) :
    ∀ l : read_loop_t, l.output.length = l.size → BUF_SIZE ≤ l.size - l.rlen →
      (∃ k, l.size = BUF_SIZE * 2 ^ k) → l.size ≤ 2 * l.rlen + 2 * BUF_SIZE →
      (req_size ≠ 0 → l.rlen ≤ req_size) →
      ∃ extra,
        (read_loop certfiles_map req_size reads l).engine_ops = l.engine_ops ++ extra ∧
        (∀ op ∈ extra, (∃ s r n d, op = engine_op.SSL_read s r n d) ∧ read_within_buffer op) ∧
        (read_loop certfiles_map req_size reads l).output.length
          = (read_loop certfiles_map req_size reads l).size ∧
        BUF_SIZE ≤ (read_loop certfiles_map req_size reads l).size
          - (read_loop certfiles_map req_size reads l).rlen ∧
        (∃ k, (read_loop certfiles_map req_size reads l).size = BUF_SIZE * 2 ^ k) ∧
        (read_loop certfiles_map req_size reads l).size
          ≤ 2 * (read_loop certfiles_map req_size reads l).rlen + 2 * BUF_SIZE ∧
        (req_size ≠ 0 → (read_loop certfiles_map req_size reads l).rlen ≤ req_size) ∧
        (read_loop certfiles_map req_size reads l).output.take
            (read_loop certfiles_map req_size reads l).rlen
          = l.output.take l.rlen ++ (read_chunks extra).flatten ∧
        (∀ c ∈ (read_chunks extra).dropLast, c ≠ []) ∧
        (req_size = 0 → (read_chunks extra).getLast? = some []) := by
  induction reads with
  | nil =>
    intro l hlen hfree hpow hcap hreq
    unfold read_loop
    by_cases hcond : req_size = 0 ∨ l.rlen < req_size
    · obtain ⟨b1, b2, b3, _⟩ := read_count_bounds req_size l.size l.rlen hfree hcond
      rw [if_pos hcond]
      refine ⟨[.SSL_read l.size l.rlen (read_count req_size l.size l.rlen) []], rfl, ?_,
        hlen, hfree, hpow, hcap, hreq, by simp [read_chunks], by simp [read_chunks],
        fun _ => by simp [read_chunks]⟩
      intro op hop
      rw [List.mem_singleton] at hop
      subst hop
      exact ⟨⟨_, _, _, _, rfl⟩, hfree, b1, b2, b3, hpow, hcap, by simp⟩
    · rw [if_neg hcond]
      refine ⟨[], by simp, by simp, hlen, hfree, hpow, hcap, hreq, by simp [read_chunks],
        by simp [read_chunks], ?_⟩
      intro h0
      exact absurd (Or.inl h0) hcond
  | cons c rest ih =>
    intro l hlen hfree hpow hcap hreq
    unfold read_loop
    by_cases hcond : req_size = 0 ∨ l.rlen < req_size
    · obtain ⟨b1, b2, b3, b4⟩ := read_count_bounds req_size l.size l.rlen hfree hcond
      rw [if_pos hcond]
      simp only
      generalize hnum : read_count req_size l.size l.rlen = num at b1 b2 b3 b4 ⊢
      have hchunk : (c.result.take num).length ≤ num := List.length_take_le _ _
      generalize hck : c.result.take num = chunk at hchunk ⊢
      have hop : (∃ s r n d, engine_op.SSL_read l.size l.rlen num chunk
            = engine_op.SSL_read s r n d) ∧
          read_within_buffer (engine_op.SSL_read l.size l.rlen num chunk) :=
        ⟨⟨_, _, _, _, rfl⟩, hfree, b1, b2, b3, hpow, hcap, hchunk⟩
      by_cases hpos : chunk.length > 0
      · rw [if_pos hpos]
        have hne : chunk ≠ [] := by
          intro h; rw [h] at hpos; simp at hpos
        have hfree2 := hfree
        unfold BUF_SIZE at hfree2
        have hlen2 : (l.output.take l.rlen ++ chunk ++
            l.output.drop (l.rlen + chunk.length)).length = l.size := by
          simp only [List.length_append, List.length_take, List.length_drop, hlen]
          omega
        have htake2 : (l.output.take l.rlen ++ chunk ++
            l.output.drop (l.rlen + chunk.length)).take (l.rlen + chunk.length)
            = l.output.take l.rlen ++ chunk := by
          apply List.take_left'
          simp only [List.length_append, List.length_take, hlen]
          omega
        have hcompose : ∀ (l2 : read_loop_t),
            l2.engine_ops = l.engine_ops ++ [.SSL_read l.size l.rlen num chunk] →
            l2.output.length = l2.size → BUF_SIZE ≤ l2.size - l2.rlen →
            (∃ k, l2.size = BUF_SIZE * 2 ^ k) → l2.size ≤ 2 * l2.rlen + 2 * BUF_SIZE →
            (req_size ≠ 0 → l2.rlen ≤ req_size) →
            l2.output.take l2.rlen = l.output.take l.rlen ++ chunk →
            ∃ extra,
              (read_loop certfiles_map req_size rest l2).engine_ops = l.engine_ops ++ extra ∧
              (∀ op ∈ extra, (∃ s r n d, op = engine_op.SSL_read s r n d) ∧
                read_within_buffer op) ∧
              (read_loop certfiles_map req_size rest l2).output.length
                = (read_loop certfiles_map req_size rest l2).size ∧
              BUF_SIZE ≤ (read_loop certfiles_map req_size rest l2).size
                - (read_loop certfiles_map req_size rest l2).rlen ∧
              (∃ k, (read_loop certfiles_map req_size rest l2).size = BUF_SIZE * 2 ^ k) ∧
              (read_loop certfiles_map req_size rest l2).size
                ≤ 2 * (read_loop certfiles_map req_size rest l2).rlen + 2 * BUF_SIZE ∧
              (req_size ≠ 0 → (read_loop certfiles_map req_size rest l2).rlen ≤ req_size) ∧
              (read_loop certfiles_map req_size rest l2).output.take
                  (read_loop certfiles_map req_size rest l2).rlen
                = l.output.take l.rlen ++ (read_chunks extra).flatten ∧
              (∀ c ∈ (read_chunks extra).dropLast, c ≠ []) ∧
              (req_size = 0 → (read_chunks extra).getLast? = some []) := by
          intro l2 hops2 hl2 hf2 hp2 hc2 hr2 ht2
          obtain ⟨extra, e1, e2, e3, e4, e5, ec, e6, e7, e8, e9⟩ := ih l2 hl2 hf2 hp2 hc2 hr2
          refine ⟨.SSL_read l.size l.rlen num chunk :: extra, ?_, ?_, e3, e4, e5, ec, e6,
            ?_, ?_, ?_⟩
          · rw [e1, hops2]; simp
          · intro op hmem
            rcases List.mem_cons.1 hmem with h | h
            · rw [h]; exact hop
            · exact e2 op h
          · rw [e7, ht2]; simp [read_chunks]
          · intro x hx
            simp only [read_chunks] at hx
            cases hrc : read_chunks extra with
            | nil => rw [hrc] at hx; simp at hx
            | cons y ys =>
              rw [hrc, List.dropLast_cons₂] at hx
              rcases List.mem_cons.1 hx with h | h
              · rw [h]; exact hne
              · exact e8 x (by rw [hrc]; exact h)
          · intro h0
            have h9 := e9 h0
            simp only [read_chunks]
            cases hrc : read_chunks extra with
            | nil => rw [hrc] at h9; simp at h9
            | cons y ys => rw [hrc] at h9; rw [List.getLast?_cons_cons]; exact h9
        by_cases hgrow : l.size - (l.rlen + chunk.length) < BUF_SIZE
        · rw [if_pos hgrow]
          unfold BUF_SIZE at hgrow
          obtain ⟨k, hk⟩ := hpow
          refine hcompose _ rfl ?_ ?_ ⟨k + 1, ?_⟩ ?_ ?_ ?_
          · rw [List.length_append, hlen2, List.length_replicate]
            show l.size + l.size = l.size * 2
            omega
          · simp only; unfold BUF_SIZE; omega
          · simp only; rw [hk, pow_succ]; ring
          · simp only; unfold BUF_SIZE; omega
          · intro h; simp only; omega
          · simp only
            rw [List.take_append_of_le_length (by rw [hlen2]; omega)]
            exact htake2
        · rw [if_neg hgrow]
          refine hcompose _ rfl hlen2 ?_ hpow ?_ ?_ htake2
          · simp only; omega
          · simp only; omega
          · intro h; simp only; omega
      · rw [if_neg hpos]
        have hnil : chunk = [] := by
          cases chunk with
          | nil => rfl
          | cons a t => simp at hpos
        refine ⟨[.SSL_read l.size l.rlen num chunk], rfl, ?_, hlen, hfree, hpow, hcap, hreq,
          by simp [read_chunks, hnil], by simp [read_chunks], fun _ => by simp [read_chunks, hnil]⟩
        intro op hmem
        rw [List.mem_singleton] at hmem
        rw [hmem]; exact hop
    · rw [if_neg hcond]
      refine ⟨[], by simp, by simp, hlen, hfree, hpow, hcap, hreq, by simp [read_chunks],
        by simp [read_chunks], ?_⟩
      intro h0
      exact absurd (Or.inl h0) hcond

theorem read_chunks_of_no_read (ops : List engine_op)
    (h : ∀ op ∈ ops, ∀ s r n d, op ≠ engine_op.SSL_read s r n d) : read_chunks ops = [] := by
  induction ops with
  | nil => rfl
  | cons op rest ih =>
    have hrest := ih (fun o ho => h o (List.mem_cons_of_mem _ ho))
    cases op with
    | SSL_read s r n d => exact absurd rfl (h _ (List.mem_cons_self _ _) s r n d)
    | SSL_do_handshake => simpa [read_chunks] using hrest
    | SSL_write b => simpa [read_chunks] using hrest
    | SSL_get_verify_result => simpa [read_chunks] using hrest
    | SSL_get_peer_certificate => simpa [read_chunks] using hrest

theorem read_loop_start_spec (certfiles_map : List cert_info_t) (req_size : Nat)
    (reads : List (engine_call Bytes)) (w : state_t × List cert_info_t) (ops : List engine_op) :
    ∃ extra,
      (read_loop certfiles_map req_size reads (read_loop_start w ops)).engine_ops = ops ++ extra ∧
      (∀ op ∈ extra, (∃ s r n d, op = engine_op.SSL_read s r n d) ∧ read_within_buffer op) ∧
      (read_loop certfiles_map req_size reads (read_loop_start w ops)).output.length
        = (read_loop certfiles_map req_size reads (read_loop_start w ops)).size ∧
      BUF_SIZE ≤ (read_loop certfiles_map req_size reads (read_loop_start w ops)).size
        - (read_loop certfiles_map req_size reads (read_loop_start w ops)).rlen ∧
      (∃ k, (read_loop certfiles_map req_size reads (read_loop_start w ops)).size
        = BUF_SIZE * 2 ^ k) ∧
      (read_loop certfiles_map req_size reads (read_loop_start w ops)).size
        ≤ 2 * (read_loop certfiles_map req_size reads (read_loop_start w ops)).rlen
          + 2 * BUF_SIZE ∧
      (req_size ≠ 0 →
        (read_loop certfiles_map req_size reads (read_loop_start w ops)).rlen ≤ req_size) ∧
      (read_loop certfiles_map req_size reads (read_loop_start w ops)).output.take
          (read_loop certfiles_map req_size reads (read_loop_start w ops)).rlen
        = (read_chunks extra).flatten ∧
      (∀ c ∈ (read_chunks extra).dropLast, c ≠ []) ∧
      (req_size = 0 → (read_chunks extra).getLast? = some []) := by
  obtain ⟨extra, e1, e2, e3, e4, e5, ec, e6, e7, e8, e9⟩ :=
    read_loop_spec certfiles_map req_size reads (read_loop_start w ops)
      (by simp [read_loop_start]) (by simp [read_loop_start]) ⟨0, by simp [read_loop_start]⟩
      (by show BUF_SIZE ≤ 2 * 0 + 2 * BUF_SIZE; omega) (fun _ => by simp [read_loop_start])
  refine ⟨extra, e1, e2, e3, e4, e5, ec, e6, ?_, e8, e9⟩
  rw [e7]
  simp [read_loop_start]

/-- C19: the read loop of `read_plaintext` never reads past its output buffer.
For every maximum `req_size` and every sequence of engine reads, started as
`get_decrypted_input_nif` starts it: at every call of `SSL_read` the buffer has
at least `BUF_SIZE` (1024) free bytes, the requested count `n` satisfies
`1 ≤ n ≤ size - rlen`, the capacity is 1024 times a power of two (and at most
`2 * rlen + 2048`) and the engine delivers no more than `n`; when the loop ends
the capacity is 1024 times a power of two and at most `2 * rlen + 2048`,
`rlen ≤ size`, and the binary has `size` bytes. -/
theorem read_loop_within_buffer (certfiles_map : List cert_info_t) (req_size : Nat)
    (reads : List (engine_call Bytes)) (w : state_t × List cert_info_t) :
    (∀ op ∈ (read_loop certfiles_map req_size reads (read_loop_start w [])).engine_ops,
      (∃ s r n d, op = engine_op.SSL_read s r n d) ∧ read_within_buffer op) ∧
    (∃ k, (read_loop certfiles_map req_size reads (read_loop_start w [])).size
      = 1024 * 2 ^ k) ∧
    (read_loop certfiles_map req_size reads (read_loop_start w [])).size
      ≤ 2 * (read_loop certfiles_map req_size reads (read_loop_start w [])).rlen + 2048 ∧
    (read_loop certfiles_map req_size reads (read_loop_start w [])).rlen
      ≤ (read_loop certfiles_map req_size reads (read_loop_start w [])).size ∧
    (read_loop certfiles_map req_size reads (read_loop_start w [])).output.length
      = (read_loop certfiles_map req_size reads (read_loop_start w [])).size := by
  obtain ⟨extra, e1, e2, e3, e4, e5, ec, _⟩ :=
    read_loop_start_spec certfiles_map req_size reads w []
  refine ⟨?_, e5, ?_, ?_, e3⟩
  · rw [e1]
    simpa using e2
  · unfold BUF_SIZE at ec
    omega
  · unfold BUF_SIZE at e4
    omega

theorem get_decrypted_input_rest_data (certfiles_map : List cert_info_t)
    (script : engine_script) (req_size : Nat) (finished : Bool) (retcode : Nat)
    (w : state_t × List cert_info_t) (ops : List engine_op)
    (hops : read_chunks ops = []) (data : Bytes)
    (hterm :
      (get_decrypted_input_rest certfiles_map script req_size finished retcode w ops).term
          = .ok_binary data ∨
      (get_decrypted_input_rest certfiles_map script req_size finished retcode w ops).term
          = .send_binary data) :
    data = (read_chunks (get_decrypted_input_rest certfiles_map script req_size finished
      retcode w ops).engine_ops).flatten ∧
    (req_size ≠ 0 → data.length ≤ req_size) ∧
    (∀ c ∈ (read_chunks (get_decrypted_input_rest certfiles_map script req_size finished
      retcode w ops).engine_ops).dropLast, c ≠ []) ∧
    (finished = true → req_size = 0 →
      (read_chunks (get_decrypted_input_rest certfiles_map script req_size finished
        retcode w ops).engine_ops).getLast? = some []) := by
  revert hterm
  unfold get_decrypted_input_rest
  cases finished with
  | false =>
    intro hterm
    simp only [Bool.false_eq_true, if_false] at hterm ⊢
    have hd : data = [] := by
      rcases hterm with h | h
      · cases h
      · injection h with h
        exact h.symm
    rw [hd, hops]
    simp
  | true =>
    have hf := flush_send_buffer_spec certfiles_map script retcode w ops
    cases hfl : flush_send_buffer certfiles_map script retcode w ops with
    | error r =>
      rw [hfl] at hf
      simp only at hf
      intro hterm
      simp only [if_true, hf.1] at hterm
      rcases hterm with h | h <;> cases h
    | ok x =>
      rcases x with ⟨rc2, w2, ops2⟩
      rw [hfl] at hf
      simp only at hf
      obtain ⟨_, _, _, extraW, hops2, _, hallW⟩ := hf
      have hchunks2 : read_chunks ops2 = [] := by
        rw [hops2, read_chunks_append, hops, List.nil_append]
        apply read_chunks_of_no_read
        intro op hop s r n d he
        obtain ⟨b, hb⟩ := hallW op hop
        rw [hb] at he
        cases he
      have hs := read_loop_start_spec certfiles_map req_size script.reads w2 ops2
      simp only [read_loop_start] at hs
      obtain ⟨extra, e1, _, e3, _, _, _, e6, e7, e8, e9⟩ := hs
      simp only [if_true]
      by_cases hre : (read_loop certfiles_map req_size script.reads
          { output := List.replicate BUF_SIZE 0, size := BUF_SIZE, rlen := 0, world := w2,
            engine_ops := ops2 }).world.1.handshakes > 1
      · intro hterm
        simp only [hre, if_true] at hterm
        rcases hterm with h | h <;> cases h
      · intro hterm
        simp only [hre, if_false] at hterm ⊢
        have hd : data = (read_chunks extra).flatten := by
          rw [← e7]
          by_cases hrc : rc2 = 0
          · simp only [hrc, if_true] at hterm
            rcases hterm with h | h
            · injection h with h
              exact h.symm
            · cases h
          · simp only [hrc, if_false] at hterm
            rcases hterm with h | h
            · cases h
            · injection h with h
              exact h.symm
        rw [e1, read_chunks_append, hchunks2, List.nil_append]
        refine ⟨hd, ?_, e8, fun _ h0 => e9 h0⟩
        intro hne
        rw [hd, ← e7, List.length_take]
        exact le_trans (Nat.min_le_left _ _) (e6 hne)

theorem get_decrypted_input_nif_data_cases (certfiles_map : List cert_info_t)
    (script : engine_script) (certs_map : List cert_info_t) (state : state_t)
    (req_size : Nat) (data : Bytes)
    (hterm :
      (get_decrypted_input_nif certfiles_map script certs_map state req_size).term
        = .ok_binary data ∨
      (get_decrypted_input_nif certfiles_map script certs_map state req_size).term
        = .send_binary data) :
    ∃ finished retcode w ops,
      get_decrypted_input_nif certfiles_map script certs_map state req_size
        = get_decrypted_input_rest certfiles_map script req_size finished retcode w ops ∧
      read_chunks ops = [] ∧
      (script.init_finished = true → finished = true) := by
  revert hterm
  cases hssl : state.ssl with
  | none =>
    intro hterm
    simp [get_decrypted_input_nif, hssl] at hterm
  | some ssl =>
    have hs : state.ssl ≠ none := by rw [hssl]; simp
    cases hv : state.valid with
    | false =>
      intro hterm
      simp [get_decrypted_input_nif, hssl, hv] at hterm
    | true =>
      cases hf : script.init_finished with
      | true =>
        intro _
        exact ⟨true, 0, (state, certs_map), [],
          get_decrypted_input_nif_established _ _ _ _ _ hs hv hf, rfl, fun _ => rfl⟩
      | false =>
        cases hr : script.handshake.result with
        | failed reason =>
          rw [get_decrypted_input_nif_failed _ _ _ _ _ reason hs hv hf hr]
          intro hterm
          exfalso
          simp only at hterm
          split_ifs at hterm
          · rcases hterm with h | h <;> cases h
          · cases hsni : (script.handshake.run certfiles_map (state, certs_map)).1.sni_error with
            | none =>
              rw [hsni] at hterm
              rcases hterm with h | h
              · exact (ssl_error_no_data script _ data).1 h
              · exact (ssl_error_no_data script _ data).2 h
            | some msg =>
              rw [hsni] at hterm
              rcases hterm with h | h
              · exact (ssl_error_no_data script _ data).1 h
              · exact (ssl_error_no_data script _ data).2 h
        | done =>
          intro _
          exact ⟨script.init_finished_after, 2, _, [.SSL_do_handshake],
            get_decrypted_input_nif_handshake _ _ _ _ _ hs hv hf (by rw [hr]; simp), rfl,
            fun h => by cases h⟩
        | want_read =>
          intro _
          exact ⟨script.init_finished_after, 2, _, [.SSL_do_handshake],
            get_decrypted_input_nif_handshake _ _ _ _ _ hs hv hf (by rw [hr]; simp), rfl,
            fun h => by cases h⟩

/-- C16: `read_plaintext` respects the caller's maximum.  For every `req_size`
and every behaviour of the engine, a call of `get_decrypted_input_nif` that
returns data (`{ok, Data}` or `{send, Data}`) returns exactly the concatenation,
in order, of the chunks that `SSL_read` delivered during the call; with
`req_size > 0` the data has at most `req_size` bytes; every chunk but the last
is a positive read; and on an established session with `req_size = 0` the last
call of `SSL_read` is one with a non-positive result, so the data is everything
the engine delivered until then. -/
theorem read_respects_max_bytes (certfiles_map : List cert_info_t) (script : engine_script)
    (certs_map : List cert_info_t) (state : state_t) (req_size : Nat) (data : Bytes)
    (hterm :
      (get_decrypted_input_nif certfiles_map script certs_map state req_size).term
        = .ok_binary data ∨
      (get_decrypted_input_nif certfiles_map script certs_map state req_size).term
        = .send_binary data) :
    data = (read_chunks (get_decrypted_input_nif certfiles_map script certs_map state
      req_size).engine_ops).flatten ∧
    (req_size > 0 → data.length ≤ req_size) ∧
    (∀ c ∈ (read_chunks (get_decrypted_input_nif certfiles_map script certs_map state
      req_size).engine_ops).dropLast, c ≠ []) ∧
    (script.init_finished = true → req_size = 0 →
      (read_chunks (get_decrypted_input_nif certfiles_map script certs_map state
        req_size).engine_ops).getLast? = some []) := by
  obtain ⟨finished, retcode, w, ops, heq, hops, hfin⟩ :=
    get_decrypted_input_nif_data_cases certfiles_map script certs_map state req_size data hterm
  rw [heq] at hterm ⊢
  obtain ⟨h1, h2, h3, h4⟩ := get_decrypted_input_rest_data certfiles_map script req_size
    finished retcode w ops hops data hterm
  exact ⟨h1, fun hpos => h2 (by omega), h3, fun hf h0 => h4 (hfin hf) h0⟩

/-- C16, witness: an established session whose engine has `secret` to deliver,
read with a maximum of three bytes, returns `{ok, <<"sec">>}`. -/
theorem read_respects_max_bytes_witness :
    (get_decrypted_input_nif [] script_plaintext [] session_open 3).term
        = .ok_binary (bytes "sec") ∧
    (bytes "sec").length ≤ 3 :=
  ⟨by decide,
    (read_respects_max_bytes [] script_plaintext [] session_open 3 (bytes "sec")
      (Or.inl (by decide))).2.1 (by decide)⟩

/-! ## Facts about the pending-write buffers -/

theorem grow_size_reaches (needed : Nat) :
    ∀ (fuel size : Nat), needed ≤ size * 2 ^ fuel → needed ≤ grow_size fuel size needed := by
  intro fuel
  induction fuel with
  | zero =>
    intro size h
    simpa [grow_size] using h
  | succ fuel ih =>
    intro size h
    unfold grow_size
    split_ifs with hlt
    · apply ih
      rw [pow_succ] at h
      calc needed ≤ size * (2 ^ fuel * 2) := h
        _ = size * 2 * 2 ^ fuel := by ring
    · omega

theorem grow_size_enough (size needed : Nat) (hsize : 1 ≤ size) :
    needed ≤ grow_size needed size needed := by
  apply grow_size_reaches
  have h1 : needed < 2 ^ needed := Nat.lt_two_pow needed
  calc needed ≤ 1 * 2 ^ needed := by omega
    _ ≤ size * 2 ^ needed := Nat.mul_le_mul_right _ hsize

theorem written_buffers_append (a b : List engine_op) :
    written_buffers (a ++ b) = written_buffers a ++ written_buffers b := by
  induction a with
  | nil => rfl
  | cons op rest ih =>
    cases op <;> simp [written_buffers, ih]

theorem written_buffers_of_reads (ops : List engine_op)
    (h : ∀ op ∈ ops, ∃ s r n d, op = engine_op.SSL_read s r n d) : written_buffers ops = [] := by
  induction ops with
  | nil => rfl
  | cons op rest ih =>
    have hrest := ih (fun o ho => h o (List.mem_cons_of_mem _ ho))
    obtain ⟨s, r, n, d, he⟩ := h op (List.mem_cons_self _ _)
    rw [he]
    simpa [written_buffers] using hrest

theorem submit_first_stashes (certfiles_map : List cert_info_t) (script : engine_script)
    (certs_map : List cert_info_t) (state : state_t) (input : Bytes)
    (hssl : state.ssl ≠ none) (hvalid : state.valid = true)
    (hnone : state.send_buffer = none) (hnone2 : state.send_buffer2 = none)
    (hinput : input ≠ []) (hwant : script.write1.result = .want) :
    (set_decrypted_output_nif certfiles_map script certs_map state input).term = .atom "ok" ∧
    (set_decrypted_output_nif certfiles_map script certs_map state input).engine_ops
      = [.SSL_write input] ∧
    primary_holds (set_decrypted_output_nif certfiles_map script certs_map state input).state
      input ∧
    overflow_holds (set_decrypted_output_nif certfiles_map script certs_map state input).state
      [] := by
  obtain ⟨ssl, hs⟩ := Option.ne_none_iff_exists'.1 hssl
  have ht := engine_call_run_touched certfiles_map (state, certs_map) script.write1
  have hlen : input.length > 0 := List.length_pos.2 hinput
  unfold set_decrypted_output_nif
  simp only [hs, hvalid, hnone, hlen, hwant, not_true_eq_false, if_false, if_true]
  refine ⟨by simp, by simp, ⟨ht.ssl hssl, ?_, by simp, by simp⟩, Or.inl ⟨rfl, ?_⟩⟩
  · exact ht.valid.trans hvalid
  · exact ht.send_buffer2.trans hnone2

theorem submit_more_appends (certfiles_map : List cert_info_t) (script : engine_script)
    (certs_map : List cert_info_t) (state : state_t) (input b acc : Bytes)
    (hprimary : primary_holds state b) (hoverflow : overflow_holds state acc)
    (hinput : input ≠ []) :
    (set_decrypted_output_nif certfiles_map script certs_map state input).term = .atom "ok" ∧
    (set_decrypted_output_nif certfiles_map script certs_map state input).engine_ops = [] ∧
    primary_holds (set_decrypted_output_nif certfiles_map script certs_map state input).state
      b ∧
    overflow_holds (set_decrypted_output_nif certfiles_map script certs_map state input).state
      (acc ++ input) := by
  obtain ⟨hssl, hvalid, hbuf, hlenb⟩ := hprimary
  obtain ⟨ssl, hs⟩ := Option.ne_none_iff_exists'.1 hssl
  have hlen : input.length > 0 := List.length_pos.2 hinput
  have hne : acc ++ input ≠ [] := by simp [hinput]
  unfold set_decrypted_output_nif
  simp only [hs, hvalid, hbuf, hlen, not_true_eq_false, if_false, if_true]
  rcases hoverflow with ⟨hacc, h2⟩ | ⟨hacc, h2, hl2, hs2⟩
  · simp only [h2]
    refine ⟨by simp, by simp, ⟨by simp, by simp, by simp, by simp [hlenb]⟩,
      Or.inr ⟨hne, ?_, ?_, ?_⟩⟩
    · simp [hacc]
    · simp [hacc]
    · simp [hacc]
  · simp only [h2]
    have hpos : 1 ≤ state.send_buffer2_size := by
      have : 0 < acc.length := List.length_pos.2 hacc
      omega
    refine ⟨by simp, by simp, ⟨by simp, by simp, by simp, by simp [hlenb]⟩,
      Or.inr ⟨hne, ?_, ?_, ?_⟩⟩
    · simp [hl2]
    · simp [hl2]
    · simp only [List.length_append, ← hl2]
      exact grow_size_enough _ _ hpos

theorem submit_rest_appends (certfiles_map : List cert_info_t) (b : Bytes) :
    ∀ (rest : List (engine_script × Bytes)) (w : state_t × List cert_info_t) (acc : Bytes),
      primary_holds w.1 b → overflow_holds w.1 acc → (∀ p ∈ rest, p.2 ≠ []) →
      (∀ r ∈ run_calls_trace certfiles_map w (submit_calls rest), r.term = .atom "ok") ∧
      (run_calls_trace certfiles_map w (submit_calls rest)).map nif_result.engine_ops
        = rest.map (fun _ => []) ∧
      primary_holds (run_calls certfiles_map w (submit_calls rest)).1 b ∧
      overflow_holds (run_calls certfiles_map w (submit_calls rest)).1
        (acc ++ (rest.map Prod.snd).flatten) := by
  intro rest
  induction rest with
  | nil =>
    intro w acc hp ho _
    refine ⟨?_, rfl, hp, ?_⟩
    · intro r hr
      simp [submit_calls, run_calls_trace] at hr
    · simpa [submit_calls, run_calls] using ho
  | cons p rest ih =>
    intro w acc hp ho hall
    obtain ⟨h1, h2, h3, h4⟩ := submit_more_appends certfiles_map p.1 w.2 w.1 p.2 b acc hp ho
      (hall p (List.mem_cons_self _ _))
    obtain ⟨i1, i2, i3, i4⟩ := ih
      ((set_decrypted_output_nif certfiles_map p.1 w.2 w.1 p.2).state,
        (set_decrypted_output_nif certfiles_map p.1 w.2 w.1 p.2).certs_map)
      (acc ++ p.2) h3 h4 (fun q hq => hall q (List.mem_cons_of_mem _ hq))
    have hcalls : submit_calls (p :: rest)
        = nif_call.set_decrypted_output p.1 p.2 :: submit_calls rest := rfl
    rw [hcalls]
    unfold run_calls_trace run_calls
    rw [List.foldl_cons]
    refine ⟨?_, ?_, i3, ?_⟩
    · intro r hr
      rcases List.mem_cons.1 hr with h | h
      · rw [h]; exact h1
      · exact i1 r h
    · rw [List.map_cons, List.map_cons]
      exact congrArg₂ List.cons h2 i2
    · rw [List.map_cons, List.flatten_cons, ← List.append_assoc]
      exact i4

theorem flush_send_buffer_written (certfiles_map : List cert_info_t) (script : engine_script)
    (w : state_t × List cert_info_t) (b acc : Bytes)
    (hb : w.1.send_buffer = some b) (hl : w.1.send_buffer_len = b.length)
    (ho : overflow_holds w.1 acc)
    (hw1 : script.write1.result = .written) (hw2 : script.write2.result = .written) :
    ∃ w2, flush_send_buffer certfiles_map script 0 w []
        = .ok (2, w2, .SSL_write b :: (if acc = [] then [] else [.SSL_write acc])) ∧
      w2.1.send_buffer = none ∧ w2.1.send_buffer2 = none := by
  have t1 := engine_call_run_touched certfiles_map w script.write1
  unfold flush_send_buffer
  simp only [hb, hw1, hl, List.take_length, List.nil_append]
  rcases ho with ⟨hacc, h2⟩ | ⟨hacc, h2, hl2, _⟩
  · have hp : (promote_send_buffer2 (script.write1.run certfiles_map w).1).send_buffer = none := by
      simp [promote_send_buffer2, t1.send_buffer2, h2]
    simp only [hp, hacc, if_true]
    exact ⟨_, rfl, hp, by simp [promote_send_buffer2]⟩
  · have hp : (promote_send_buffer2 (script.write1.run certfiles_map w).1).send_buffer
        = some acc := by
      simp [promote_send_buffer2, t1.send_buffer2, h2]
    have hpl : (promote_send_buffer2 (script.write1.run certfiles_map w).1).send_buffer_len
        = acc.length := by
      simp [promote_send_buffer2, t1.send_buffer2_len, hl2]
    have t2 := engine_call_run_touched certfiles_map
      (promote_send_buffer2 (script.write1.run certfiles_map w).1,
        (script.write1.run certfiles_map w).2) script.write2
    simp only [hp, hpl, hw2, hacc, if_false, List.take_length]
    refine ⟨_, rfl, ?_, by simp [promote_send_buffer2]⟩
    exact t2.send_buffer2.trans rfl

theorem read_flushes_pending (certfiles_map : List cert_info_t) (script : engine_script)
    (certs_map : List cert_info_t) (state : state_t) (req_size : Nat) (b acc : Bytes)
    (hp : primary_holds state b) (ho : overflow_holds state acc)
    (hfin : script.init_finished = true)
    (hw1 : script.write1.result = .written) (hw2 : script.write2.result = .written) :
    written_buffers
        (get_decrypted_input_nif certfiles_map script certs_map state req_size).engine_ops
      = b :: (if acc = [] then [] else [acc]) ∧
    (get_decrypted_input_nif certfiles_map script certs_map state req_size).state.send_buffer
      = none ∧
    (get_decrypted_input_nif certfiles_map script certs_map state req_size).state.send_buffer2
      = none := by
  obtain ⟨hssl, hvalid, hbuf, hlen⟩ := hp
  rw [get_decrypted_input_nif_established _ _ _ _ _ hssl hvalid hfin]
  obtain ⟨w2, hfl, hn1, hn2⟩ := flush_send_buffer_written certfiles_map script
    (state, certs_map) b acc hbuf hlen ho hw1 hw2
  unfold get_decrypted_input_rest
  simp only [if_true, hfl]
  obtain ⟨extra, hops, hreads, _⟩ := read_loop_ops certfiles_map req_size script.reads
    { output := List.replicate BUF_SIZE 0, size := BUF_SIZE, rlen := 0, world := w2,
      engine_ops := .SSL_write b :: (if acc = [] then [] else [.SSL_write acc]) }
  have ht := read_loop_touched certfiles_map req_size script.reads
    { output := List.replicate BUF_SIZE 0, size := BUF_SIZE, rlen := 0, world := w2,
      engine_ops := .SSL_write b :: (if acc = [] then [] else [.SSL_write acc]) }
  simp only at hops ht
  have hwb : written_buffers ((engine_op.SSL_write b ::
      (if acc = [] then [] else [engine_op.SSL_write acc])) ++ extra)
      = b :: (if acc = [] then [] else [acc]) := by
    rw [written_buffers_append, written_buffers_of_reads extra hreads, List.append_nil]
    by_cases hacc : acc = []
    · simp [hacc, written_buffers]
    · simp [hacc, written_buffers]
  by_cases hre : (read_loop certfiles_map req_size script.reads
      { output := List.replicate BUF_SIZE 0, size := BUF_SIZE, rlen := 0, world := w2,
        engine_ops := .SSL_write b :: (if acc = [] then [] else [.SSL_write acc]) }
      ).world.1.handshakes > 1
  · simp only [hre, if_true, hops]
    exact ⟨hwb, ht.send_buffer.trans hn1, ht.send_buffer2.trans hn2⟩
  · simp only [hre, if_false, hops]
    exact ⟨hwb, ht.send_buffer.trans hn1, ht.send_buffer2.trans hn2⟩

/-- C13: write ordering across the primary and the overflow buffer.  On a usable
session with no pending write, for non-empty inputs `b1` and `rest` submitted in
this order, where the engine's write of `b1` signals would-block: every call of
`set_decrypted_output_nif` returns `ok`; the engine is called once, for `b1`,
and not for the later inputs; afterwards the primary buffer holds `b1` and the
overflow buffer holds the concatenation of the later inputs (it is absent when
there are none), with a capacity that holds it.  A following call of
`get_decrypted_input_nif` on an established session whose writes succeed hands
the engine `b1` first and the overflow second, which together are the inputs in
submission order, and leaves both pending buffers empty. -/
theorem write_order_preserved (certfiles_map : List cert_info_t)
    (certs_map : List cert_info_t) (state : state_t) (s1 : engine_script) (b1 : Bytes)
    (rest : List (engine_script × Bytes)) (sr : engine_script) (req_size : Nat)
    (hssl : state.ssl ≠ none) (hvalid : state.valid = true)
    (hnone : state.send_buffer = none) (hnone2 : state.send_buffer2 = none)
    (hb1 : b1 ≠ []) (hrest : ∀ p ∈ rest, p.2 ≠ [])
    (hwant : s1.write1.result = .want)
    (hfin : sr.init_finished = true)
    (hw1 : sr.write1.result = .written) (hw2 : sr.write2.result = .written) :
    (∀ r ∈ run_calls_trace certfiles_map (state, certs_map) (submit_calls ((s1, b1) :: rest)),
      r.term = .atom "ok") ∧
    (run_calls_trace certfiles_map (state, certs_map) (submit_calls ((s1, b1) :: rest))).map
        nif_result.engine_ops
      = [.SSL_write b1] :: rest.map (fun _ => []) ∧
    primary_holds
      (run_calls certfiles_map (state, certs_map) (submit_calls ((s1, b1) :: rest))).1 b1 ∧
    overflow_holds
      (run_calls certfiles_map (state, certs_map) (submit_calls ((s1, b1) :: rest))).1
      (rest.map Prod.snd).flatten ∧
    written_buffers
        (get_decrypted_input_nif certfiles_map sr
          (run_calls certfiles_map (state, certs_map) (submit_calls ((s1, b1) :: rest))).2
          (run_calls certfiles_map (state, certs_map) (submit_calls ((s1, b1) :: rest))).1
          req_size).engine_ops
      = b1 :: (if (rest.map Prod.snd).flatten = [] then [] else [(rest.map Prod.snd).flatten]) ∧
    (written_buffers
        (get_decrypted_input_nif certfiles_map sr
          (run_calls certfiles_map (state, certs_map) (submit_calls ((s1, b1) :: rest))).2
          (run_calls certfiles_map (state, certs_map) (submit_calls ((s1, b1) :: rest))).1
          req_size).engine_ops).flatten
      = ((b1 :: rest.map Prod.snd)).flatten ∧
    (get_decrypted_input_nif certfiles_map sr
        (run_calls certfiles_map (state, certs_map) (submit_calls ((s1, b1) :: rest))).2
        (run_calls certfiles_map (state, certs_map) (submit_calls ((s1, b1) :: rest))).1
        req_size).state.send_buffer = none ∧
    (get_decrypted_input_nif certfiles_map sr
        (run_calls certfiles_map (state, certs_map) (submit_calls ((s1, b1) :: rest))).2
        (run_calls certfiles_map (state, certs_map) (submit_calls ((s1, b1) :: rest))).1
        req_size).state.send_buffer2 = none := by
  obtain ⟨f1, f2, f3, f4⟩ := submit_first_stashes certfiles_map s1 certs_map state b1
    hssl hvalid hnone hnone2 hb1 hwant
  obtain ⟨i1, i2, i3, i4⟩ := submit_rest_appends certfiles_map b1 rest
    ((set_decrypted_output_nif certfiles_map s1 certs_map state b1).state,
      (set_decrypted_output_nif certfiles_map s1 certs_map state b1).certs_map)
    [] f3 f4 hrest
  rw [List.nil_append] at i4
  have hcalls : submit_calls ((s1, b1) :: rest)
      = nif_call.set_decrypted_output s1 b1 :: submit_calls rest := rfl
  have hrun : run_calls certfiles_map (state, certs_map) (submit_calls ((s1, b1) :: rest))
      = run_calls certfiles_map
          ((set_decrypted_output_nif certfiles_map s1 certs_map state b1).state,
            (set_decrypted_output_nif certfiles_map s1 certs_map state b1).certs_map)
          (submit_calls rest) := by
    rw [hcalls]
    unfold run_calls
    rw [List.foldl_cons]
    rfl
  have htrace : run_calls_trace certfiles_map (state, certs_map)
        (submit_calls ((s1, b1) :: rest))
      = set_decrypted_output_nif certfiles_map s1 certs_map state b1 ::
        run_calls_trace certfiles_map
          ((set_decrypted_output_nif certfiles_map s1 certs_map state b1).state,
            (set_decrypted_output_nif certfiles_map s1 certs_map state b1).certs_map)
          (submit_calls rest) := by
    rw [hcalls]
    rfl
  obtain ⟨r1, r2, r3⟩ := read_flushes_pending certfiles_map sr
    (run_calls certfiles_map (state, certs_map) (submit_calls ((s1, b1) :: rest))).2
    (run_calls certfiles_map (state, certs_map) (submit_calls ((s1, b1) :: rest))).1
    req_size b1 (rest.map Prod.snd).flatten (by rw [hrun]; exact i3) (by rw [hrun]; exact i4)
    hfin hw1 hw2
  refine ⟨?_, ?_, by rw [hrun]; exact i3, by rw [hrun]; exact i4, r1, ?_, r2, r3⟩
  · intro r hr
    rw [htrace] at hr
    rcases List.mem_cons.1 hr with h | h
    · rw [h]; exact f1
    · exact i1 r h
  · rw [htrace, List.map_cons, i2, f2]
  · rw [r1, List.flatten_cons, List.flatten_cons]
    by_cases hacc : (rest.map Prod.snd).flatten = []
    · simp [hacc]
    · simp [hacc]

/-- C13, witness: `hello`, then `, ` and `world` are submitted on an open session
whose engine would block on the first write; a following read on the established
session hands the engine `hello` and then `, world`. -/
theorem write_order_preserved_witness :
    written_buffers
        (get_decrypted_input_nif [] script_idle
          (run_calls [] (session_open, [])
            (submit_calls ((script_would_block, bytes "hello") :: submit_inputs_more))).2
          (run_calls [] (session_open, [])
            (submit_calls ((script_would_block, bytes "hello") :: submit_inputs_more))).1
          0).engine_ops
      = bytes "hello" ::
        (if (submit_inputs_more.map Prod.snd).flatten = [] then []
         else [(submit_inputs_more.map Prod.snd).flatten]) :=
  (write_order_preserved [] [] session_open script_would_block (bytes "hello")
    submit_inputs_more script_idle 0 (by decide) (by decide) (by decide) (by decide)
    (by decide) (by decide) (by decide) (by decide) (by decide) (by decide)).2.2.2.2.1

/-! ## The hostname callback and the active certificate -/

theorem create_ssl_for_cert_binds (env : Env) (certs_map : List cert_info_t)
    (cert_file : Bytes) (state : state_t)
    (hret : (create_ssl_for_cert env certs_map cert_file state).ret = none) :
    ∃ info, HASH_FIND_STR (create_ssl_for_cert env certs_map cert_file state).certs_map
        (cache_key cert_file state.ciphers state.options state.dh_file state.ca_file)
          = some info ∧
      ∀ ctx, info.ssl_ctx = some ctx →
        (create_ssl_for_cert env certs_map cert_file state).state = set_ctx env state ctx := by
  revert hret
  unfold create_ssl_for_cert
  simp only
  generalize hfind : HASH_FIND_STR certs_map
    (cache_key cert_file state.ciphers state.options state.dh_file state.ca_file) = found
  rcases any_modified env (null_if_empty cert_file) (null_if_empty state.dh_file)
      (null_if_empty state.ca_file) _ _ _ with ⟨m, k1, k2, k3⟩
  generalize create_new_ctx env (null_if_empty cert_file) state.ciphers
    (null_if_empty state.dh_file) (null_if_empty state.ca_file) = r
  cases m <;> cases found <;> cases r <;> by_cases ha : env.alloc_info = true <;>
    by_cases hk : env.alloc_key = true <;>
    simp only [ha, hk, hfind, if_true, if_false, Bool.false_eq_true, reduceCtorEq,
      false_implies, forall_const, true_implies] <;>
    first
    | exact ⟨_, rfl, fun ctx hctx => by rw [hctx]⟩
    | exact ⟨_, find_replace_same _ _, fun ctx hctx => by cases hctx; rfl⟩

/-- C11, as amended: the hostname callback compares the file of the directory
entry with the certificate file the session was created with, which no rebind
changes, and not with the file of the context that is active.  For every
callback that finds a directory entry with file `f` and returns OK: a resolve
is performed exactly when `f` differs from the session's creation-time
certificate file; then the outcome is that of `create_ssl_for_cert` for `f`,
which returned no error, and the engine is bound to the context that the cache
then holds under the key of `f`; when `f` is the creation-time file, the session
and the cache are left as they were; in both cases the recorded certificate
file of the session stays the creation-time file. -/
theorem sni_rebind_compares_creation_file (env : Env)
    (certfiles_map certs_map : List cert_info_t) (servername : Option Bytes) (state : state_t)
    (f : Bytes)
    (hfound : (lookup_certfile certfiles_map servername).bind cert_info_t.file = some f)
    (hok : (ssl_sni_callback env certfiles_map certs_map servername state).ret
      = SSL_TLSEXT_ERR_OK) :
    ((ssl_sni_callback env certfiles_map certs_map servername state).resolved_for = some f ↔
      f ≠ state.cert_file) ∧
    ((ssl_sni_callback env certfiles_map certs_map servername state).resolved_for = none ↔
      f = state.cert_file) ∧
    (f ≠ state.cert_file →
      (create_ssl_for_cert env certs_map f state).ret = none ∧
      (ssl_sni_callback env certfiles_map certs_map servername state).state
        = (create_ssl_for_cert env certs_map f state).state ∧
      (ssl_sni_callback env certfiles_map certs_map servername state).certs_map
        = (create_ssl_for_cert env certs_map f state).certs_map ∧
      ∃ info,
        HASH_FIND_STR (ssl_sni_callback env certfiles_map certs_map servername state).certs_map
          (cache_key f state.ciphers state.options state.dh_file state.ca_file) = some info ∧
        ∀ ctx, info.ssl_ctx = some ctx →
          (ssl_sni_callback env certfiles_map certs_map servername state).state
            = set_ctx env state ctx) ∧
    (f = state.cert_file →
      (ssl_sni_callback env certfiles_map certs_map servername state).state = state ∧
      (ssl_sni_callback env certfiles_map certs_map servername state).certs_map = certs_map) ∧
    (ssl_sni_callback env certfiles_map certs_map servername state).state.cert_file
      = state.cert_file := by
  have htouched := (ssl_sni_callback_touched env certfiles_map certs_map servername state).cert_file
  cases hl : lookup_certfile certfiles_map servername with
  | none => rw [hl] at hfound; cases hfound
  | some info =>
    rw [hl] at hfound
    have hf : info.file = some f := hfound
    by_cases hd : f = state.cert_file
    · have hcb : ssl_sni_callback env certfiles_map certs_map servername state
          = { ret := SSL_TLSEXT_ERR_OK, state := state, certs_map := certs_map,
              resolved_for := none } := by
        unfold ssl_sni_callback
        simp [hl, hf, hd]
      rw [hcb]
      refine ⟨?_, ?_, fun h => absurd hd h, fun _ => ⟨rfl, rfl⟩, rfl⟩
      · simp [hd]
      · simp [hd]
    · cases hr : (create_ssl_for_cert env certs_map f state).ret with
      | some e =>
        exfalso
        have hfatal : (ssl_sni_callback env certfiles_map certs_map servername state).ret
            = SSL_TLSEXT_ERR_ALERT_FATAL := by
          unfold ssl_sni_callback
          simp [hl, hf, hd, hr]
        rw [hfatal] at hok
        exact absurd hok (by decide)
      | none =>
        have hcb : ssl_sni_callback env certfiles_map certs_map servername state
            = { ret := SSL_TLSEXT_ERR_OK,
                state := (create_ssl_for_cert env certs_map f state).state,
                certs_map := (create_ssl_for_cert env certs_map f state).certs_map,
                resolved_for := some f } := by
          unfold ssl_sni_callback
          simp [hl, hf, hd, hr]
        rw [hcb] at htouched ⊢
        refine ⟨?_, ?_, fun _ => ⟨rfl, rfl, rfl, ?_⟩, fun h => absurd h hd, htouched⟩
        · simp [hd]
        · simp [hd]
        · exact create_ssl_for_cert_binds env certs_map f state hr

/-- C11, witness: the first hostname callback of a session created with `a.pem`,
for `b.example`, performs a resolve for `b.pem`. -/
theorem sni_rebind_compares_creation_file_witness :
    (ssl_sni_callback (env_good stat_a_b_pem 2) directory_a_b open_a.certs_map
      (some (bytes "b.example")) open_a.state).resolved_for = some (bytes "b.pem") :=
  (sni_rebind_compares_creation_file (env_good stat_a_b_pem 2) directory_a_b open_a.certs_map
    (some (bytes "b.example")) open_a.state (bytes "b.pem") (by decide) (by decide)).1.2
    (by decide)

/-- C11, counterexample: rebinding does not follow the active certificate.  A
session created with `a.pem` is rebound by a callback for `b.example` to the
context of `b.pem`.  A second callback for `a.example` finds the file `a.pem`
and returns OK, yet it performs no resolve and the engine stays bound to the
context of `b.pem`; and a second callback for `b.example` performs a resolve for
`b.pem` although `b.pem` is the file already active. -/
theorem sni_rebind_ignores_active_file :
    sni_to_b.ret = SSL_TLSEXT_ERR_OK ∧
    active_cert_file sni_to_b.state = some (some (bytes "b.pem")) ∧
    (lookup_certfile directory_a_b (some (bytes "a.example"))).bind cert_info_t.file
      = some (bytes "a.pem") ∧
    sni_back_to_a.ret = SSL_TLSEXT_ERR_OK ∧
    sni_back_to_a.resolved_for = none ∧
    active_cert_file sni_back_to_a.state = some (some (bytes "b.pem")) ∧
    (lookup_certfile directory_a_b (some (bytes "b.example"))).bind cert_info_t.file
      = some (bytes "b.pem") ∧
    sni_b_again.ret = SSL_TLSEXT_ERR_OK ∧
    sni_b_again.resolved_for = some (bytes "b.pem") := by
  decide

end FastTls
